import Mathlib

/-!
Verification of go-mysql-server: trigger rewriting and indexed join execution.

A shallow embedding of `sql/analyzer/triggers.go` and `sql/plan/indexed_join.go`.

Go values are embedded as follows.

* A Go function that can return an error or abort by `panic` returns an `Outcome`.
* A Go slice is a window on a backing array.  Where the source lets two slices share a
  backing array (`append` on a sub-slice with spare capacity), the embedding carries the
  visible cells of that array and its capacity explicitly, so that in-place writes are seen
  by later reads exactly as in Go.
* Row cursors (`sql.RowIter`) are scripts: the list of results the following calls of
  `Next` will produce.
-/

set_option autoImplicit false

/-- Result of a Go call: a normal return, a returned error value, or a panic. -/
inductive Outcome (ε α : Type) where
  | ret (a : α)
  | err (e : ε)
  | panic (msg : String)
  deriving Repr, DecidableEq

/-- Sequencing of Go calls: the continuation runs only after a normal return. -/
def Outcome.bind {ε α β : Type} (x : Outcome ε α) (f : α → Outcome ε β) : Outcome ε β :=
  match x with
  | .ret a => f a
  | .err e => .err e
  | .panic msg => .panic msg

namespace golang

/-- Writing `xs` into the cells of a backing array from the cell `pos` on, where `arr` are
the visible cells of the array: Go `copy(arr[pos:], xs)`, and the in-place case of
`append`.  The values that do not fit in the visible cells are left out: `copy` does not
write them, and `append` writes them to cells past the length, which nobody reads. -/
def copyAt {α : Type} : List α → Nat → List α → List α
  | [], _, _ => []
  | a :: as, 0, [] => a :: as
  | _ :: as, 0, x :: xs => x :: copyAt as 0 xs
  | a :: as, p + 1, xs => a :: copyAt as p xs

end golang

namespace sqlparser

/-- Constant `sqlparser.InsertStr` of the vitess parser package. -/
def InsertStr : String := "insert"
/-- Constant `sqlparser.UpdateStr` of the vitess parser package. -/
def UpdateStr : String := "update"
/-- Constant `sqlparser.DeleteStr` of the vitess parser package. -/
def DeleteStr : String := "delete"
/-- Constant `sqlparser.BeforeStr` of the vitess parser package. -/
def BeforeStr : String := "before"
/-- Constant `sqlparser.AfterStr` of the vitess parser package. -/
def AfterStr : String := "after"
/-- Constant `sqlparser.FollowsStr` of the vitess parser package. -/
def FollowsStr : String := "follows"
/-- Constant `sqlparser.PrecedesStr` of the vitess parser package. -/
def PrecedesStr : String := "precedes"

end sqlparser

namespace strings

/-- Go `strings.ToLower`, on the ASCII letters (the only ones that can lower to the
pseudo-table names "new" and "old" or to an event name). -/
def ToLower (s : String) : String := String.mk (s.data.map Char.toLower)

end strings

namespace sql

/-- The error values that the embedded code creates or passes on.  `EOF` is `io.EOF`;
`Other` stands for any error produced by a collaborator (storage, index, catalog,
parser, nested analysis). -/
inductive Error where
  | EOF
  | ErrInvalidUseOfOldNew (table event : String)
  | ErrInvalidUpdateOfOldRow
  | ErrInvalidUpdateInAfterTrigger
  | ErrTriggerTableInUse (table : String)
  | ErrTriggerCreateStatementInvalid (createStatement : String)
  | ErrInvalidChildrenNumber (got expected : Nat)
  | Other (msg : String)
  deriving Repr, DecidableEq

/-- Expressions, as far as the trigger rules look at them.  `UnresolvedColumn` is
`*expression.UnresolvedColumn`, `deferredColumn` the analyzer's wrapper of one,
`triggerColumnRef` the placeholder of `triggers.go`, `SetField` is
`*expression.SetField` with its `Left` and `Right`; every other expression is an `Other`
with a kind and its children. -/
inductive Expression where
  | UnresolvedColumn (table name : String)
  | deferredColumn (table name : String)
  | triggerColumnRef (table name : String)
  | SetField (left right : Expression)
  | Other (kind : String) (children : List Expression)
  deriving Repr

/-- Struct `plan.TriggerOrder`. -/
structure TriggerOrder where
  PrecedesOrFollows : String
  OtherTriggerName : String
  deriving Repr, DecidableEq

/-- Struct `sql.TriggerDefinition`. -/
structure TriggerDefinition where
  Name : String
  CreateStatement : String
  deriving Repr, DecidableEq

/-- Plan nodes, as far as the trigger rules look at them.  `InsertInto` has the children
`Left` (destination) and `Right` (row source), `Update` and `DeleteFrom` have one child,
`TriggerExecutor` has the wrapped node (child 0) and the trigger logic (child 1), `Set`
carries its assignment expressions; every other node is an `Other` with a kind, its
expressions and its children.  `Nil` is the nil interface value, which `getTriggerLogic` can
return; calling a method on it panics. -/
inductive Node where
  | Nil
  | CreateTrigger (TriggerName TriggerTime TriggerEvent : String)
      (TriggerOrder : Option TriggerOrder) (Table Body : Node) (CreateTriggerString : String)
  | InsertInto (Left Right : Node)
  | Update (Child : Node) (exprs : List Expression)
  | DeleteFrom (Child : Node)
  | TriggerExecutor (Left Right : Node) (TriggerEvent TriggerTime : String)
      (TriggerDefinition : TriggerDefinition)
  | Set (exprs : List Expression)
  | QueryProcess (Child : Node)
  | Other (kind : String) (exprs : List Expression) (children : List Node)
  deriving Repr

end sql

namespace plan

/-- Struct `plan.CreateTrigger`, the element type of the trigger lists. -/
structure CreateTrigger where
  TriggerName : String
  TriggerTime : String
  TriggerEvent : String
  TriggerOrder : Option sql.TriggerOrder
  Table : sql.Node
  Body : sql.Node
  CreateTriggerString : String
  deriving Repr

end plan

namespace sql

/-- A value in a row (a Go `interface{}`): nil, a boolean, an integer or a string. -/
inductive Value where
  | Nil
  | Bool (b : Bool)
  | Int (n : Int)
  | Str (s : String)
  deriving Repr, DecidableEq

/-- Type `sql.Row`, a slice of values. -/
abbrev Row := List Value

/-- Modelled from the spec: `Row.Append` (the file sql/row.go is missing), which returns a
fresh, non-nil row holding the values of the receiver followed by those of the argument. -/
def Row.Append (r r2 : Row) : Row := r ++ r2

/-- A row cursor `sql.RowIter`: the results its following calls of `Next` return (after
the last of them `Next` returns `io.EOF`), and the error its `Close` returns. -/
structure RowIter where
  script : List (Except Error Row)
  closeResult : Option Error

/-- Method `Next` of a cursor: the result and the cursor afterwards. -/
def RowIter.Next (it : RowIter) : Except Error Row × RowIter :=
  match it.script with
  | [] => (.error .EOF, it)
  | r :: rest => (r, { it with script := rest })

/-- A node `sql.Node` as the join executor uses it: `RowIter(ctx, row)` and the number of
columns of `Schema()`. -/
structure RowSource where
  RowIter : Row → Except Error RowIter
  schemaLen : Nat

end sql

namespace plan

open sql

/-- Type `plan.JoinType` with its three constants. -/
inductive JoinType where
  | JoinTypeInner
  | JoinTypeLeft
  | JoinTypeRight
  deriving Repr, DecidableEq

/-- Struct `indexedJoinIter`.  `primaryRow` and `secondary` are `none` when the Go field
is nil; `cond` is `cond.Eval(ctx, row)`; `secondaryProvider` is
`secondaryProvider.RowIter(ctx, row)`. -/
structure indexedJoinIter where
  parentRow : Row
  primary : RowIter
  primaryRow : Option Row
  secondaryProvider : Row → Except Error RowIter
  secondary : Option RowIter
  cond : Row → Except Error Value
  joinType : JoinType
  foundMatch : Bool
  rowSize : Nat

/-- Function `indexedJoinRowIter`: opens the primary cursor and builds the iterator. -/
def indexedJoinRowIter (parentRow : Row) (left right : RowSource)
    (cond : Row → Except Error Value) (joinType : JoinType) : Except Error indexedJoinIter :=
  match left.RowIter parentRow with
  | .error err => .error err
  | .ok l => .ok
    { parentRow := parentRow, primary := l, primaryRow := none,
      secondaryProvider := right.RowIter, secondary := none, cond := cond,
      joinType := joinType, foundMatch := false,
      rowSize := parentRow.length + left.schemaLen + right.schemaLen }

/-- Method `loadPrimary`: the iterator afterwards and the returned error (`none` is nil). -/
def indexedJoinIter.loadPrimary (i : indexedJoinIter) : indexedJoinIter × Option Error :=
  match i.primaryRow with
  | some _ => (i, none)
  | none =>
    match i.primary.Next with
    | (.error err, p) => ({ i with primary := p }, some err)
    | (.ok r, p) =>
      ({ i with primary := p, primaryRow := some (i.parentRow.Append r), foundMatch := false },
        none)

/-- Method `loadSecondary`: the iterator afterwards and the returned row or error.  A nil
`primaryRow` is passed to the provider as the empty row. -/
def indexedJoinIter.loadSecondary (i : indexedJoinIter) : indexedJoinIter × Except Error Row :=
  let opened : Except Error (indexedJoinIter × RowIter) :=
    match i.secondary with
    | some s => .ok (i, s)
    | none =>
      match i.secondaryProvider (i.primaryRow.getD []) with
      | .error err => .error err
      | .ok rowIter => .ok ({ i with secondary := some rowIter }, rowIter)
  match opened with
  | .error err => (i, .error err)
  | .ok (i1, s) =>
    match s.Next with
    | (.error err, s1) =>
      if err = Error.EOF then
        ({ i1 with secondary := none, primaryRow := none }, .error .EOF)
      else ({ i1 with secondary := some s1 }, .error err)
    | (.ok secondaryRow, s1) => ({ i1 with secondary := some s1 }, .ok secondaryRow)

/-- Function `conditionIsTrue`: the returned pair of the boolean and the error. -/
def conditionIsTrue (row : Row) (cond : Row → Except Error Value) : Bool × Option Error :=
  match cond row with
  | .error err => (false, some err)
  | .ok v => (decide (v = Value.Bool true), none)

/-- Method `buildRow`: a row of `rowSize` nil values, into which `primary` is copied at 0
and `secondary` at `len(primary)`.  Slicing `row[len(primary):]` panics when `primary` is
longer than `rowSize`. -/
def indexedJoinIter.buildRow (i : indexedJoinIter) (primary secondary : Row) :
    Outcome Error Row :=
  let row := golang.copyAt (List.replicate i.rowSize Value.Nil) 0 primary
  if primary.length ≤ row.length then .ret (golang.copyAt row primary.length secondary)
  else .panic "slice bounds out of range"

/-- The return value `row[len(i.parentRow):], nil` of `Next`. -/
def indexedJoinIter.stripParent (i : indexedJoinIter) (row : Row) : Outcome Error Row :=
  if i.parentRow.length ≤ row.length then .ret (row.drop i.parentRow.length)
  else .panic "slice bounds out of range"

/-- One pass through the body of the `for` loop of `Next`: the iterator afterwards and
the value `Next` returns, or `none` when the loop continues. -/
def indexedJoinIter.NextIteration (i : indexedJoinIter) :
    indexedJoinIter × Option (Outcome Error Row) :=
  match i.loadPrimary with
  | (i1, some err) => (i1, some (.err err))
  | (i1, none) =>
    let primary := i1.primaryRow.getD []
    match i1.loadSecondary with
    | (i2, .error err) =>
      if err = Error.EOF then
        if !i2.foundMatch &&
            (i2.joinType = JoinType.JoinTypeLeft || i2.joinType = JoinType.JoinTypeRight) then
          match i2.buildRow primary [] with
          | .ret row => (i2, some (i2.stripParent row))
          | .err e => (i2, some (.err e))
          | .panic msg => (i2, some (.panic msg))
        else (i2, none)
      else (i2, some (.err err))
    | (i2, .ok secondary) =>
      match i2.buildRow primary secondary with
      | .ret row =>
        match conditionIsTrue row i2.cond with
        | (_, some err) => (i2, some (.err err))
        | (isMatch, none) =>
          if !isMatch then (i2, none)
          else ({ i2 with foundMatch := true }, some (i2.stripParent row))
      | .err e => (i2, some (.err e))
      | .panic msg => (i2, some (.panic msg))

/-- Method `Next`: the loop runs until a pass returns; `k` bounds the number of passes
(`none` when `k` passes did not reach a return). -/
def indexedJoinIter.Next : Nat → indexedJoinIter → Option (indexedJoinIter × Outcome Error Row)
  | 0, _ => none
  | k + 1, i =>
    match i.NextIteration with
    | (i1, some r) => some (i1, r)
    | (i1, none) => indexedJoinIter.Next k i1

/-- Calling `Next` until it returns something else than a row: the rows returned, and the
error or panic that ended the run (`io.EOF` at regular exhaustion); `k` bounds the number
of calls and the passes of each call. -/
def indexedJoinIter.drain : Nat → indexedJoinIter → Option (List Row × Outcome Error Unit)
  | 0, _ => none
  | k + 1, i =>
    match i.Next k with
    | none => none
    | some (i1, .ret row) => (indexedJoinIter.drain k i1).map (fun r => (row :: r.1, r.2))
    | some (_, .err e) => some ([], .err e)
    | some (_, .panic msg) => some ([], .panic msg)

/-- The rows of the reference nested loop for one primary row `p`: for each secondary row
`s` in order, the row `p ++ s` if the predicate on `parent ++ p ++ s` is boolean true. -/
def nestedLoopMatches (parent : Row) (condv : Row → Value) (p : Row) (ss : List Row) :
    List Row :=
  ss.filterMap (fun s => if condv (parent ++ p ++ s) = Value.Bool true then some (p ++ s) else none)

/-- The reference nested loop of an INNER join: the matches of every primary row, in
primary order. -/
def nestedLoopInner (parent : Row) (sec : Row → List Row) (condv : Row → Value) :
    List Row → List Row
  | [] => []
  | p :: ps =>
    nestedLoopMatches parent condv p (sec (parent ++ p)) ++ nestedLoopInner parent sec condv ps

/-- The reference nested loop of a LEFT or RIGHT join: per primary row its matches, or,
when there is none, the one row of `p` followed by `width` nil values. -/
def nestedLoopOuter (parent : Row) (sec : Row → List Row) (condv : Row → Value) (width : Nat) :
    List Row → List Row
  | [] => []
  | p :: ps =>
    (if nestedLoopMatches parent condv p (sec (parent ++ p)) = [] then
        [p ++ List.replicate width Value.Nil]
      else nestedLoopMatches parent condv p (sec (parent ++ p)))
      ++ nestedLoopOuter parent sec condv width ps

/-- A secondary provider that raises no error: the cursor over the rows `sec row`. -/
def errorFreeSource (sec : Row → List Row) (schemaLen : Nat) : RowSource :=
  { RowIter := fun row => .ok { script := (sec row).map Except.ok, closeResult := none },
    schemaLen := schemaLen }

/-- A predicate that raises no error. -/
def errorFreeCond (condv : Row → Value) : Row → Except Error Value :=
  fun row => .ok (condv row)

/-- Running an indexed join to exhaustion: build the iterator and drain it. -/
def runIndexedJoin (k : Nat) (parentRow : Row) (left right : RowSource)
    (cond : Row → Except Error Value) (joinType : JoinType) :
    Option (List Row × Outcome Error Unit) :=
  match indexedJoinRowIter parentRow left right cond joinType with
  | .error err => some ([], .err err)
  | .ok i => i.drain k

/-- The iterator built over error-free collaborators, in the state where `ps` are the
primary rows not yet loaded, `prow` is the field `primaryRow`, `ss` the rows the open
secondary cursor has not yet returned (`none`: no open cursor) and `fm` the field
`foundMatch`. -/
def joinState (parent : Row) (sec : Row → List Row) (condv : Row → Value) (jt : JoinType)
    (leftLen rightLen : Nat) (ps : List Row) (prow : Option Row) (ss : Option (List Row))
    (fm : Bool) : indexedJoinIter :=
  { parentRow := parent,
    primary := { script := ps.map Except.ok, closeResult := none },
    primaryRow := prow,
    secondaryProvider := (errorFreeSource sec rightLen).RowIter,
    secondary := ss.map (fun rows => { script := rows.map Except.ok, closeResult := none }),
    cond := errorFreeCond condv,
    joinType := jt,
    foundMatch := fm,
    rowSize := parent.length + leftLen + rightLen }

/-- The rows the iterator is to return while it scans the secondary rows `ss` of the
primary row `p`, with `foundMatch = fm` at the start: the matches, then the null-padded
row if the join is not INNER and neither `fm` nor a match is there. -/
def scanOutput (parent : Row) (condv : Row → Value) (jt : JoinType) (rightLen : Nat)
    (p : Row) (ss : List Row) (fm : Bool) : List Row :=
  nestedLoopMatches parent condv p ss ++
    (if fm = false ∧ nestedLoopMatches parent condv p ss = [] ∧ jt ≠ JoinType.JoinTypeInner
      then [p ++ List.replicate rightLen Value.Nil] else [])

/-- The rows the iterator is to return from the state where the primary rows `ps` are
still to be loaded. -/
def joinOutput (parent : Row) (sec : Row → List Row) (condv : Row → Value) (jt : JoinType)
    (rightLen : Nat) : List Row → List Row
  | [] => []
  | p :: ps =>
    scanOutput parent condv jt rightLen p (sec (parent ++ p)) false
      ++ joinOutput parent sec condv jt rightLen ps

/-- The secondary source of the example: key 1 yields the row (1, "a"), every other key
yields no row. -/
def exampleSecondary : Row → List Row :=
  fun row => if row = [Value.Int 1] then [[Value.Int 1, Value.Str "a"]] else []

/-- The join predicate of the example: the first column equals the second. -/
def exampleCond : Row → Value
  | a :: b :: _ => Value.Bool (decide (a = b))
  | _ => Value.Nil

/-- The run of `drain` on `i` ends, for some bound, with the result `r`. -/
def Drains (i : indexedJoinIter) (r : List Row × Outcome Error Unit) : Prop :=
  ∃ k, i.drain k = some r

end plan

namespace analyzer

open sql plan

/-- Go `append(triggers[i:i+1], xs...)`, where `triggers` has the visible cells `arr`
(its length) and capacity `cap`, and `x` is `triggers[i]`.  The sub-slice has length 1
and capacity `cap - i`; when the result fits, `append` writes `xs` into the cells after
`i` of the same backing array, otherwise it allocates.  Returns the cells of `triggers`
afterwards and the elements of the resulting slice. -/
def appendToSubslice {α : Type} (arr : List α) (cap i : Nat) (x : α) (xs : List α) :
    List α × List α :=
  if 1 + xs.length ≤ cap - i then (golang.copyAt arr (i + 1) xs, x :: xs) else (arr, x :: xs)

/-- The two slices the first loop of `OrderTriggers` works on: the cells of the
argument `triggers` and the elements of `orderedTriggers`. -/
structure OrderState where
  triggers : List CreateTrigger
  orderedTriggers : List CreateTrigger
  deriving Repr

/-- The inner loop `for j, t := range orderedTriggers` of `OrderTriggers`: the first
index whose trigger has the referenced name. -/
def findRef (ref : String) : List CreateTrigger → Option Nat
  | [] => none
  | t :: ts => if t.TriggerName = ref then some 0 else (findRef ref ts).map (· + 1)

/-- One iteration of the loop `Top` of `OrderTriggers`, at index `i`. -/
def OrderTriggers.body (cap i : Nat) (st : OrderState) : Outcome Error OrderState :=
  match st.triggers[i]? with
  | none => .ret st
  | some trigger =>
    match trigger.TriggerOrder with
    | none => .ret st
    | some order =>
      let ref := order.OtherTriggerName
      -- remove the trigger from the slice
      let orderedTriggers := st.orderedTriggers.eraseIdx i
      -- then find where to reinsert it
      match findRef ref orderedTriggers with
      | some j =>
        if order.PrecedesOrFollows = sqlparser.PrecedesStr then
          let r := appendToSubslice st.triggers cap i trigger (orderedTriggers.drop j)
          .ret ⟨r.1, orderedTriggers.take j ++ r.2⟩
        else if order.PrecedesOrFollows = sqlparser.FollowsStr then
          if (orderedTriggers.length : Int) = (j : Int) - 1 then
            .ret ⟨st.triggers, orderedTriggers ++ [trigger]⟩
          else
            let r := appendToSubslice st.triggers cap i trigger (orderedTriggers.drop (j + 1))
            .ret ⟨r.1, orderedTriggers.take (j + 1) ++ r.2⟩
        else
          .panic "unexpected value for trigger order"
      | none => .panic ("Referenced trigger " ++ ref ++ " not found")

/-- The loop `Top` of `OrderTriggers` from index `i` on, for `k` more iterations. -/
def OrderTriggers.loop (cap : Nat) : Nat → Nat → OrderState → Outcome Error OrderState
  | 0, _, st => .ret st
  | k + 1, i, st =>
    match OrderTriggers.body cap i st with
    | .ret st1 => OrderTriggers.loop cap k (i + 1) st1
    | .err e => .err e
    | .panic msg => .panic msg

/-- The second loop of `OrderTriggers`: split into BEFORE and all other triggers. -/
def OrderTriggers.split : List CreateTrigger → List CreateTrigger × List CreateTrigger
  | [] => ([], [])
  | t :: ts =>
    let r := OrderTriggers.split ts
    if t.TriggerTime = sqlparser.BeforeStr then (t :: r.1, r.2) else (r.1, t :: r.2)

/-- Function `OrderTriggers`.  `triggers` are the elements of the argument slice and `cap`
is its capacity. -/
def OrderTriggers (triggers : List CreateTrigger) (cap : Nat) :
    Outcome Error (List CreateTrigger × List CreateTrigger) :=
  match OrderTriggers.loop cap triggers.length 0 ⟨triggers, triggers⟩ with
  | .ret st => .ret (OrderTriggers.split st.orderedTriggers)
  | .err e => .err e
  | .panic msg => .panic msg

end analyzer


namespace analyzer

open sql plan

/-- The loop `for left, right := 0, len(afterTriggers)-1; left < right; ...` of
`orderTriggersAndReverseAfter`, which swaps `afterTriggers[left]` and
`afterTriggers[right]`; `k` bounds the number of iterations. -/
def reverseLoop {α : Type} : Nat → Int → Int → List α → List α
  | 0, _, _, a => a
  | k + 1, left, right, a =>
    if left < right then
      match a[left.toNat]?, a[right.toNat]? with
      | some x, some y => reverseLoop k (left + 1) (right - 1) ((a.set left.toNat y).set right.toNat x)
      | _, _ => a
    else a

/-- Function `orderTriggersAndReverseAfter`. -/
def orderTriggersAndReverseAfter (triggers : List CreateTrigger) (cap : Nat) :
    Outcome Error (List CreateTrigger) :=
  match OrderTriggers triggers cap with
  | .ret (beforeTriggers, afterTriggers) =>
    .ret (beforeTriggers ++
      reverseLoop afterTriggers.length 0 ((afterTriggers.length : Int) - 1) afterTriggers)
  | .err e => .err e
  | .panic msg => .panic msg

/-- Reordering step in the words of the specification: a trigger with a directive is
removed from its current position in the working order and reinserted immediately before
(PRECEDES) or immediately after (FOLLOWS) the named trigger; a name that is not found is
fatal. -/
def specReorderStep (t : CreateTrigger) (order : List CreateTrigger) :
    Outcome Error (List CreateTrigger) :=
  match t.TriggerOrder with
  | none => .ret order
  | some o =>
    let rest := order.eraseP (fun u => u.TriggerName == t.TriggerName)
    match findRef o.OtherTriggerName rest with
    | none => .panic ("Referenced trigger " ++ o.OtherTriggerName ++ " not found")
    | some j =>
      if o.PrecedesOrFollows = sqlparser.PrecedesStr then
        .ret (rest.take j ++ t :: rest.drop j)
      else if o.PrecedesOrFollows = sqlparser.FollowsStr then
        .ret (rest.take (j + 1) ++ t :: rest.drop (j + 1))
      else .panic "unexpected value for trigger order"

/-- The reordering step of the specification for each trigger in declaration order. -/
def specReorderAll : List CreateTrigger → List CreateTrigger → Outcome Error (List CreateTrigger)
  | [], order => .ret order
  | t :: ts, order =>
    match specReorderStep t order with
    | .ret order1 => specReorderAll ts order1
    | .err e => .err e
    | .panic msg => .panic msg

/-- Reordering procedure of the specification, starting from declaration order. -/
def specOrder (triggers : List CreateTrigger) : Outcome Error (List CreateTrigger) :=
  specReorderAll triggers triggers

/-- A BEFORE INSERT trigger of the given name and directive, for the examples. -/
def exampleTrigger (name : String) (order : Option TriggerOrder) : CreateTrigger :=
  { TriggerName := name, TriggerTime := sqlparser.BeforeStr,
    TriggerEvent := sqlparser.InsertStr, TriggerOrder := order,
    Table := .Other "UnresolvedTable" [] [], Body := .Other "Body" [] [],
    CreateTriggerString := "" }

/-- An AFTER INSERT trigger of the given name without directive, for the examples. -/
def exampleAfterTrigger (name : String) : CreateTrigger :=
  { TriggerName := name, TriggerTime := sqlparser.AfterStr,
    TriggerEvent := sqlparser.InsertStr, TriggerOrder := none,
    Table := .Other "UnresolvedTable" [] [], Body := .Other "Body" [] [],
    CreateTriggerString := "" }

end analyzer

namespace plan

open sql

/-- Constant `plan.InsertTrigger`. -/
def InsertTrigger : String := "insert"
/-- Constant `plan.UpdateTrigger`. -/
def UpdateTrigger : String := "update"
/-- Constant `plan.DeleteTrigger`. -/
def DeleteTrigger : String := "delete"

/-- The message of the Go runtime panic raised by a method call on a nil node. -/
def nilDereference : String := "invalid memory address or nil pointer dereference"

/-- Function `plan.NewTriggerExecutor`. -/
def NewTriggerExecutor (child triggerLogic : Node) (triggerEvent triggerTime : String)
    (definition : TriggerDefinition) : Node :=
  .TriggerExecutor child triggerLogic triggerEvent triggerTime definition

/-- Function `expression.NewStar`. -/
def NewStar : Expression := .Other "Star" []

/-- Function `plan.NewProject`. -/
def NewProject (projections : List Expression) (child : Node) : Node :=
  .Other "Project" projections [child]

/-- Function `plan.NewTableAlias`. -/
def NewTableAlias (name : String) (child : Node) : Node :=
  .Other ("TableAlias(" ++ name ++ ")") [] [child]

/-- Function `plan.NewCrossJoin`. -/
def NewCrossJoin (left right : Node) : Node :=
  .Other "CrossJoin" [] [left, right]

mutual
/-- Modelled from the spec: `plan.Walk` under `plan.Inspect` (the file plan/walk.go is
missing): the callback `f` sees a node before its children, which are walked in order
when `f` answers true, and is then called once more with nil.  `s` is the state the
callback closes over. -/
def Walk {σ : Type} (f : σ → Node → σ × Bool) (s : σ) : Node → Outcome Error σ
  | .Nil => if (f s .Nil).2 then .panic nilDereference else .ret (f s .Nil).1
  | .CreateTrigger a b c d table body e =>
    if (f s (.CreateTrigger a b c d table body e)).2 then
      (Walk f (f s (.CreateTrigger a b c d table body e)).1 table).bind fun s1 =>
        (Walk f s1 body).bind fun s2 => .ret (f s2 .Nil).1
    else .ret (f s (.CreateTrigger a b c d table body e)).1
  | .InsertInto l r =>
    if (f s (.InsertInto l r)).2 then
      (Walk f (f s (.InsertInto l r)).1 l).bind fun s1 =>
        (Walk f s1 r).bind fun s2 => .ret (f s2 .Nil).1
    else .ret (f s (.InsertInto l r)).1
  | .Update child es =>
    if (f s (.Update child es)).2 then
      (Walk f (f s (.Update child es)).1 child).bind fun s1 => .ret (f s1 .Nil).1
    else .ret (f s (.Update child es)).1
  | .DeleteFrom child =>
    if (f s (.DeleteFrom child)).2 then
      (Walk f (f s (.DeleteFrom child)).1 child).bind fun s1 => .ret (f s1 .Nil).1
    else .ret (f s (.DeleteFrom child)).1
  | .TriggerExecutor l r ev t d =>
    if (f s (.TriggerExecutor l r ev t d)).2 then
      (Walk f (f s (.TriggerExecutor l r ev t d)).1 l).bind fun s1 =>
        (Walk f s1 r).bind fun s2 => .ret (f s2 .Nil).1
    else .ret (f s (.TriggerExecutor l r ev t d)).1
  | .Set es =>
    if (f s (.Set es)).2 then .ret (f (f s (.Set es)).1 .Nil).1 else .ret (f s (.Set es)).1
  | .QueryProcess child =>
    if (f s (.QueryProcess child)).2 then
      (Walk f (f s (.QueryProcess child)).1 child).bind fun s1 => .ret (f s1 .Nil).1
    else .ret (f s (.QueryProcess child)).1
  | .Other k es cs =>
    if (f s (.Other k es cs)).2 then
      (WalkList f (f s (.Other k es cs)).1 cs).bind fun s1 => .ret (f s1 .Nil).1
    else .ret (f s (.Other k es cs)).1
/-- The loop of `plan.Walk` over the children of a node. -/
def WalkList {σ : Type} (f : σ → Node → σ × Bool) (s : σ) : List Node → Outcome Error σ
  | [] => .ret s
  | c :: cs => (Walk f s c).bind fun s1 => WalkList f s1 cs
end

/-- Modelled from the spec: `plan.Inspect` (the file plan/walk.go is missing), the
pre-order traversal that calls `f` on every node and descends while `f` answers true. -/
def Inspect {σ : Type} (n : Node) (f : σ → Node → σ × Bool) (s : σ) : Outcome Error σ :=
  Walk f s n

mutual
/-- Modelled from the spec: `expression.TransformUp` (the file expression/transform.go is
missing): transforms the children left to right, rebuilds the expression with
`WithChildren`, then applies `f`; the first error ends the traversal. -/
def TransformExprUp (f : Expression → Outcome Error Expression) :
    Expression → Outcome Error Expression
  | .SetField l r =>
    (TransformExprUp f l).bind fun l1 =>
      (TransformExprUp f r).bind fun r1 => f (.SetField l1 r1)
  | .Other k cs => (TransformExprUpList f cs).bind fun cs1 => f (.Other k cs1)
  | .UnresolvedColumn t c => f (.UnresolvedColumn t c)
  | .deferredColumn t c => f (.deferredColumn t c)
  | .triggerColumnRef t c => f (.triggerColumnRef t c)
/-- The loop of `expression.TransformUp` over the children of an expression. -/
def TransformExprUpList (f : Expression → Outcome Error Expression) :
    List Expression → Outcome Error (List Expression)
  | [] => .ret []
  | c :: cs =>
    (TransformExprUp f c).bind fun c1 =>
      (TransformExprUpList f cs).bind fun cs1 => .ret (c1 :: cs1)
end

/-- Modelled from the spec: `plan.TransformExpressionsWithNode` (the file
plan/transform.go is missing): on a node that carries expressions, every expression is
transformed bottom-up by `f`, which is told the node, and the node is rebuilt with
`WithExpressions`; other nodes are returned as they are. -/
def TransformExpressionsWithNode (n : Node) (f : Node → Expression → Outcome Error Expression) :
    Outcome Error Node :=
  match n with
  | .Update child es =>
    (TransformExprUpList (f (.Update child es)) es).bind fun es1 => .ret (.Update child es1)
  | .Set es => (TransformExprUpList (f (.Set es)) es).bind fun es1 => .ret (.Set es1)
  | .Other k es cs =>
    (TransformExprUpList (f (.Other k es cs)) es).bind fun es1 => .ret (.Other k es1 cs)
  | n => .ret n

mutual
/-- Modelled from the spec: `plan.TransformUp` (the file plan/transform.go is missing):
transforms the children left to right, rebuilds the node with `WithChildren`, then applies
`g`; the first error ends the traversal, and a nil node cannot be asked for its
children. -/
def TransformUp (g : Node → Outcome Error Node) : Node → Outcome Error Node
  | .Nil => .panic nilDereference
  | .CreateTrigger a b c d table body e =>
    (TransformUp g table).bind fun table1 =>
      (TransformUp g body).bind fun body1 => g (.CreateTrigger a b c d table1 body1 e)
  | .InsertInto l r =>
    (TransformUp g l).bind fun l1 => (TransformUp g r).bind fun r1 => g (.InsertInto l1 r1)
  | .Update child es => (TransformUp g child).bind fun child1 => g (.Update child1 es)
  | .DeleteFrom child => (TransformUp g child).bind fun child1 => g (.DeleteFrom child1)
  | .TriggerExecutor l r ev t d =>
    (TransformUp g l).bind fun l1 =>
      (TransformUp g r).bind fun r1 => g (.TriggerExecutor l1 r1 ev t d)
  | .Set es => g (.Set es)
  | .QueryProcess child => (TransformUp g child).bind fun child1 => g (.QueryProcess child1)
  | .Other k es cs => (TransformUpList g cs).bind fun cs1 => g (.Other k es cs1)
/-- The loop of `plan.TransformUp` over the children of a node. -/
def TransformUpList (g : Node → Outcome Error Node) : List Node → Outcome Error (List Node)
  | [] => .ret []
  | c :: cs =>
    (TransformUp g c).bind fun c1 => (TransformUpList g cs).bind fun cs1 => .ret (c1 :: cs1)
end

/-- Modelled from the spec: `plan.TransformExpressionsUpWithNode` (the file
plan/transform.go is missing): `TransformExpressionsWithNode` on every node, bottom-up. -/
def TransformExpressionsUpWithNode (node : Node)
    (f : Node → Expression → Outcome Error Expression) : Outcome Error Node :=
  TransformUp (fun n => TransformExpressionsWithNode n f) node

/-- Modelled from the spec: `plan.TransformExpressionsUp` (the file plan/transform.go is
missing): transforms every expression of every node, bottom-up. -/
def TransformExpressionsUp (node : Node) (f : Expression → Outcome Error Expression) :
    Outcome Error Node :=
  TransformExpressionsUpWithNode node (fun _ e => f e)

mutual
/-- Modelled from the spec: `plan.TransformUpWithParent` (the file plan/transform.go is
missing): as `TransformUp`, and `f` is also given the parent of the node (as it was before
the transformation; nil at the root) and the index of the node among the children of the
parent (-1 at the root). -/
def transformUpWithParent (f : Node → Node → Int → Outcome Error Node) :
    Node → Node → Int → Outcome Error Node
  | .Nil, _, _ => .panic nilDereference
  | .CreateTrigger a b c d table body e, parent, childNum =>
    (transformUpWithParent f table (.CreateTrigger a b c d table body e) 0).bind fun table1 =>
      (transformUpWithParent f body (.CreateTrigger a b c d table body e) 1).bind fun body1 =>
        f (.CreateTrigger a b c d table1 body1 e) parent childNum
  | .InsertInto l r, parent, childNum =>
    (transformUpWithParent f l (.InsertInto l r) 0).bind fun l1 =>
      (transformUpWithParent f r (.InsertInto l r) 1).bind fun r1 =>
        f (.InsertInto l1 r1) parent childNum
  | .Update child es, parent, childNum =>
    (transformUpWithParent f child (.Update child es) 0).bind fun child1 =>
      f (.Update child1 es) parent childNum
  | .DeleteFrom child, parent, childNum =>
    (transformUpWithParent f child (.DeleteFrom child) 0).bind fun child1 =>
      f (.DeleteFrom child1) parent childNum
  | .TriggerExecutor l r ev t d, parent, childNum =>
    (transformUpWithParent f l (.TriggerExecutor l r ev t d) 0).bind fun l1 =>
      (transformUpWithParent f r (.TriggerExecutor l r ev t d) 1).bind fun r1 =>
        f (.TriggerExecutor l1 r1 ev t d) parent childNum
  | .Set es, parent, childNum => f (.Set es) parent childNum
  | .QueryProcess child, parent, childNum =>
    (transformUpWithParent f child (.QueryProcess child) 0).bind fun child1 =>
      f (.QueryProcess child1) parent childNum
  | .Other k es cs, parent, childNum =>
    (transformUpWithParentList f cs (.Other k es cs) 0).bind fun cs1 =>
      f (.Other k es cs1) parent childNum
/-- The loop of `plan.TransformUpWithParent` over the children of `parent`, from the
child of index `i` on. -/
def transformUpWithParentList (f : Node → Node → Int → Outcome Error Node) :
    List Node → Node → Int → Outcome Error (List Node)
  | [], _, _ => .ret []
  | c :: cs, parent, i =>
    (transformUpWithParent f c parent i).bind fun c1 =>
      (transformUpWithParentList f cs parent (i + 1)).bind fun cs1 => .ret (c1 :: cs1)
end

/-- Modelled from the spec: `plan.TransformUpWithParent` at the root, where the parent is
nil and the child index is -1. -/
def TransformUpWithParent (node : Node) (f : Node → Node → Int → Outcome Error Node) :
    Outcome Error Node :=
  transformUpWithParent f node .Nil (-1)

end plan

namespace analyzer

open sql plan

/-- Struct `Scope`: the outer nodes and the memo nodes.  The nil scope is the scope with
no node. -/
structure Scope where
  nodes : List Node
  memos : List Node

/-- Modelled from the spec: `Scope.MemoNodes` (the file analyzer/scope.go is missing),
the memoized nodes of the scope. -/
def Scope.MemoNodes (s : Scope) : List Node := s.memos

/-- Modelled from the spec: `Scope.memo` (the file analyzer/scope.go is missing), the
scope with one more memoized node. -/
def Scope.memo (s : Scope) (node : Node) : Scope := { s with memos := node :: s.memos }

/-- Modelled from the spec: `(*Scope)(nil).newScope` (the file analyzer/scope.go is
missing), the scope whose only node is `node`. -/
def Scope.nilNewScope (node : Node) : Scope := { nodes := [node], memos := [] }

/-- Modelled from the spec: `Scope.withMemos` (the file analyzer/scope.go is missing),
the scope with the given memo nodes. -/
def Scope.withMemos (s : Scope) (memoNodes : List Node) : Scope := { s with memos := memoNodes }

/-- What `a.Catalog.Database(db)` returned: `GetTriggers` is `none` when the database is
not a `sql.TriggerDatabase`, and otherwise what `GetTriggers(ctx)` returns. -/
structure Database where
  GetTriggers : Option (Except Error (List TriggerDefinition))

/-- The collaborators of the trigger rules: the catalog lookup of the current database,
the parser, the nested analysis `a.Analyze(ctx, node, scope)`, the table helpers of
analyzer/tables.go (missing), and the capacity the Go runtime gives a slice built by the
given number of `append` calls. -/
structure Analyzer where
  Database : Except Error Database
  Parse : String → Except Error Node
  Analyze : Node → Scope → Except Error Node
  getTableName : Node → String
  getUnaliasedTableName : Node → String
  getResolvedTable : Node → Node
  appendCap : Nat → Nat

/-- The callback of `plan.TransformExpressionsUp` in `resolveNewAndOldReferences`, for a
trigger of the given event. -/
def resolveNewAndOldReferences.resolve (TriggerEvent : String) (e : Expression) :
    Outcome Error Expression :=
  match e with
  | .UnresolvedColumn table name =>
    if strings.ToLower table = "new" then
      if TriggerEvent = sqlparser.DeleteStr then
        .err (.ErrInvalidUseOfOldNew "new" TriggerEvent)
      else .ret (.triggerColumnRef table name)
    else if strings.ToLower table = "old" then
      if TriggerEvent = sqlparser.InsertStr then
        .err (.ErrInvalidUseOfOldNew "old" TriggerEvent)
      else .ret (.triggerColumnRef table name)
    else .ret e
  | .deferredColumn table name =>
    if strings.ToLower table = "new" then
      if TriggerEvent = sqlparser.DeleteStr then
        .err (.ErrInvalidUseOfOldNew "new" TriggerEvent)
      else .ret (.triggerColumnRef table name)
    else if strings.ToLower table = "old" then
      if TriggerEvent = sqlparser.InsertStr then
        .err (.ErrInvalidUseOfOldNew "old" TriggerEvent)
      else .ret (.triggerColumnRef table name)
    else .ret e
  | e => .ret e

/-- The callback of `plan.TransformExpressionsUpWithNode` in
`resolveNewAndOldReferences`, for a trigger of the given time. -/
def resolveNewAndOldReferences.check (TriggerTime : String) (n : Node) (e : Expression) :
    Outcome Error Expression :=
  match n with
  | .Set _ =>
    match e with
    | .SetField (.triggerColumnRef table _) _ =>
      if strings.ToLower table = "old" then .err .ErrInvalidUpdateOfOldRow
      else if TriggerTime = sqlparser.AfterStr ∧ strings.ToLower table = "new" then
        .err .ErrInvalidUpdateInAfterTrigger
      else .ret e
    | e => .ret e
  | _ => .ret e

/-- Function `resolveNewAndOldReferences`. -/
def resolveNewAndOldReferences (node : Node) : Outcome Error Node :=
  match node with
  | .CreateTrigger name time event order table body createString =>
    (TransformExpressionsUp (.CreateTrigger name time event order table body createString)
        (resolveNewAndOldReferences.resolve event)).bind fun node1 =>
      TransformExpressionsUpWithNode node1 (resolveNewAndOldReferences.check time)
  | node => .ret node

/-- Function `triggerEventsMatch`. -/
def triggerEventsMatch (event event2 : String) : Bool :=
  decide (strings.ToLower event = strings.ToLower event2)

/-- The callback of `plan.Inspect` in `applyTriggers`; the state is the pair of
`affectedTables` and `triggerEvent`. -/
def applyTriggers.visit (a : Analyzer) (s : List String × String) (n : Node) :
    (List String × String) × Bool :=
  match n with
  | .InsertInto l r => ((s.1 ++ [a.getTableName (.InsertInto l r)], plan.InsertTrigger), true)
  | .Update c es => ((s.1 ++ [a.getTableName (.Update c es)], plan.UpdateTrigger), true)
  | .DeleteFrom c => ((s.1 ++ [a.getTableName (.DeleteFrom c)], plan.DeleteTrigger), true)
  | _ => (s, true)

/-- The loop `for _, trigger := range triggers` of `applyTriggers`: parses every stored
trigger and keeps those on an affected table whose event matches. -/
def applyTriggers.affectedTriggers (a : Analyzer) (affectedTables : List String)
    (triggerEvent : String) : List TriggerDefinition → Outcome Error (List CreateTrigger)
  | [] => .ret []
  | trigger :: rest =>
    match a.Parse trigger.CreateStatement with
    | .error err => .err err
    | .ok (.CreateTrigger name time event order table body createString) =>
      (applyTriggers.affectedTriggers a affectedTables triggerEvent rest).bind fun more =>
        .ret (if a.getTableName table ∈ affectedTables ∧ triggerEventsMatch triggerEvent event
          then CreateTrigger.mk name time event order table body createString :: more
          else more)
    | .ok _ => .err (.ErrTriggerCreateStatementInvalid trigger.CreateStatement)

/-- The callback of `plan.Inspect` in `validateNoCircularUpdates`; the state is
`circularRef`. -/
def validateNoCircularUpdates.visit (a : Analyzer) (n : Node) (scope : Scope)
    (circularRef : Option Error) (node : Node) : Option Error × Bool :=
  let sameTable : Bool :=
    (n :: scope.MemoNodes).any
      (fun m => decide (a.getUnaliasedTableName node = a.getUnaliasedTableName m))
  match node with
  | .Update _ _ =>
    if sameTable then (some (.ErrTriggerTableInUse (a.getUnaliasedTableName node)), false)
    else (circularRef, true)
  | .InsertInto _ _ =>
    if sameTable then (some (.ErrTriggerTableInUse (a.getUnaliasedTableName node)), false)
    else (circularRef, true)
  | .DeleteFrom _ =>
    if sameTable then (some (.ErrTriggerTableInUse (a.getUnaliasedTableName node)), false)
    else (circularRef, true)
  | _ => (circularRef, true)

/-- Function `validateNoCircularUpdates`: the returned error (`none` is nil). -/
def validateNoCircularUpdates (a : Analyzer) (trigger : CreateTrigger) (n : Node)
    (scope : Scope) : Outcome Error (Option Error) :=
  Inspect trigger.Body (validateNoCircularUpdates.visit a n scope) none

/-- Function `getTriggerLogic`. -/
def getTriggerLogic (a : Analyzer) (n : Node) (scope : Scope) (trigger : CreateTrigger) :
    Except Error Node :=
  let analyzed : Except Error Node :=
    if trigger.TriggerEvent = sqlparser.InsertStr then
      a.Analyze trigger.Body
        ((Scope.nilNewScope
            (NewProject [NewStar] (NewTableAlias "new" (a.getResolvedTable n)))).withMemos
          (scope.memo n).MemoNodes)
    else if trigger.TriggerEvent = sqlparser.UpdateStr then
      a.Analyze trigger.Body
        ((Scope.nilNewScope
            (NewProject [NewStar]
              (NewCrossJoin (NewTableAlias "old" (a.getResolvedTable n))
                (NewTableAlias "new" (a.getResolvedTable n))))).withMemos
          (scope.memo n).MemoNodes)
    else if trigger.TriggerEvent = sqlparser.DeleteStr then
      a.Analyze trigger.Body
        ((Scope.nilNewScope
            (NewProject [NewStar] (NewTableAlias "old" (a.getResolvedTable n)))).withMemos
          (scope.memo n).MemoNodes)
    else .ok .Nil
  match analyzed with
  | .ok (.QueryProcess child) => .ok child
  | r => r

/-- The callback of `plan.TransformUpWithParent` in `applyTrigger`. -/
def applyTrigger.wrap (trigger : CreateTrigger) (triggerLogic : Node) (n parent : Node)
    (childNum : Int) : Outcome Error Node :=
  let definition : TriggerDefinition :=
    { Name := trigger.TriggerName, CreateStatement := trigger.CreateTriggerString }
  let skip : Bool :=
    match parent with
    | .TriggerExecutor _ _ _ _ _ => decide (childNum = 1)
    | _ => false
  if skip then .ret n
  else
    match n with
    | .InsertInto l r =>
      if trigger.TriggerTime = sqlparser.BeforeStr then
        .ret (.InsertInto l
          (NewTriggerExecutor r triggerLogic plan.InsertTrigger trigger.TriggerTime definition))
      else
        .ret (NewTriggerExecutor (.InsertInto l r) triggerLogic plan.InsertTrigger
          trigger.TriggerTime definition)
    | .Update c es =>
      if trigger.TriggerTime = sqlparser.BeforeStr then
        .ret (.Update
          (NewTriggerExecutor c triggerLogic plan.UpdateTrigger trigger.TriggerTime definition)
          es)
      else
        .ret (NewTriggerExecutor (.Update c es) triggerLogic plan.UpdateTrigger
          trigger.TriggerTime definition)
    | .DeleteFrom c =>
      if trigger.TriggerTime = sqlparser.BeforeStr then
        .ret (.DeleteFrom
          (NewTriggerExecutor c triggerLogic plan.DeleteTrigger trigger.TriggerTime definition))
      else
        .ret (NewTriggerExecutor (.DeleteFrom c) triggerLogic plan.DeleteTrigger
          trigger.TriggerTime definition)
    | n => .ret n

/-- Function `applyTrigger`. -/
def applyTrigger (a : Analyzer) (originalNode n : Node) (scope : Scope)
    (trigger : CreateTrigger) : Outcome Error Node :=
  match getTriggerLogic a originalNode scope trigger with
  | .error err => .err err
  | .ok triggerLogic => TransformUpWithParent n (applyTrigger.wrap trigger triggerLogic)

/-- The loop `for _, trigger := range triggers` at the end of `applyTriggers`. -/
def applyTriggers.apply (a : Analyzer) (originalNode : Node) (scope : Scope) :
    List CreateTrigger → Node → Outcome Error Node
  | [], n => .ret n
  | trigger :: rest, n =>
    (validateNoCircularUpdates a trigger originalNode scope).bind fun circularRef =>
      match circularRef with
      | some err => .err err
      | none =>
        (applyTrigger a originalNode n scope trigger).bind fun n1 =>
          applyTriggers.apply a originalNode scope rest n1

/-- Function `applyTriggers`. -/
def applyTriggers (a : Analyzer) (n : Node) (scope : Scope) : Outcome Error Node :=
  match n with
  | .CreateTrigger _ _ _ _ _ _ _ => .ret n
  | n =>
    (Inspect n (applyTriggers.visit a) ([], "")).bind fun found =>
      if found.1.length = 0 then .ret n
      else
        match a.Database with
        | .error err => .err err
        | .ok database =>
          let affected : Outcome Error (List CreateTrigger) :=
            match database.GetTriggers with
            | none => .ret []
            | some (.error err) => .err err
            | some (.ok triggers) => applyTriggers.affectedTriggers a found.1 found.2 triggers
          affected.bind fun affectedTriggers =>
            if affectedTriggers.length = 0 then .ret n
            else
              (orderTriggersAndReverseAfter affectedTriggers
                  (a.appendCap affectedTriggers.length)).bind fun triggers =>
                applyTriggers.apply a n scope triggers n

end analyzer

namespace sql

/-- An unresolved or deferred column reference whose table name is `pseudo` ignoring
case. -/
def Expression.isRef (pseudo : String) : Expression → Bool
  | .UnresolvedColumn table _ => decide (strings.ToLower table = pseudo)
  | .deferredColumn table _ => decide (strings.ToLower table = pseudo)
  | _ => false

mutual
/-- The expression contains an unresolved or deferred column reference to the table
`pseudo` (ignoring case). -/
def Expression.hasRef (pseudo : String) : Expression → Bool
  | .UnresolvedColumn table _ => decide (strings.ToLower table = pseudo)
  | .deferredColumn table _ => decide (strings.ToLower table = pseudo)
  | .triggerColumnRef _ _ => false
  | .SetField l r => Expression.hasRef pseudo l || Expression.hasRef pseudo r
  | .Other _ cs => Expression.hasRefList pseudo cs
/-- One of the expressions contains such a reference. -/
def Expression.hasRefList (pseudo : String) : List Expression → Bool
  | [] => false
  | c :: cs => Expression.hasRef pseudo c || Expression.hasRefList pseudo cs
end

mutual
/-- The plan contains, in an expression of one of its nodes, an unresolved or deferred
column reference to the table `pseudo` (ignoring case). -/
def Node.hasRef (pseudo : String) : Node → Bool
  | .Nil => false
  | .CreateTrigger _ _ _ _ table body _ => Node.hasRef pseudo table || Node.hasRef pseudo body
  | .InsertInto l r => Node.hasRef pseudo l || Node.hasRef pseudo r
  | .Update child es => Node.hasRef pseudo child || Expression.hasRefList pseudo es
  | .DeleteFrom child => Node.hasRef pseudo child
  | .TriggerExecutor l r _ _ _ => Node.hasRef pseudo l || Node.hasRef pseudo r
  | .Set es => Expression.hasRefList pseudo es
  | .QueryProcess child => Node.hasRef pseudo child
  | .Other _ es cs => Node.hasRefList pseudo cs || Expression.hasRefList pseudo es
/-- One of the plans contains such a reference. -/
def Node.hasRefList (pseudo : String) : List Node → Bool
  | [] => false
  | c :: cs => Node.hasRef pseudo c || Node.hasRefList pseudo cs
end

mutual
/-- No node of the plan is nil. -/
def Node.noNil : Node → Bool
  | .Nil => false
  | .CreateTrigger _ _ _ _ table body _ => Node.noNil table && Node.noNil body
  | .InsertInto l r => Node.noNil l && Node.noNil r
  | .Update child _ => Node.noNil child
  | .DeleteFrom child => Node.noNil child
  | .TriggerExecutor l r _ _ _ => Node.noNil l && Node.noNil r
  | .Set _ => true
  | .QueryProcess child => Node.noNil child
  | .Other _ _ cs => Node.noNilList cs
/-- No node of the plans is nil. -/
def Node.noNilList : List Node → Bool
  | [] => true
  | c :: cs => Node.noNil c && Node.noNilList cs
end

mutual
/-- No node of the plan is nil, an insert, an update or a delete. -/
def Node.plain : Node → Bool
  | .Nil => false
  | .CreateTrigger _ _ _ _ table body _ => Node.plain table && Node.plain body
  | .InsertInto _ _ => false
  | .Update _ _ => false
  | .DeleteFrom _ => false
  | .TriggerExecutor l r _ _ _ => Node.plain l && Node.plain r
  | .Set _ => true
  | .QueryProcess child => Node.plain child
  | .Other _ _ cs => Node.plainList cs
/-- No node of the plans is nil, an insert, an update or a delete. -/
def Node.plainList : List Node → Bool
  | [] => true
  | c :: cs => Node.plain c && Node.plainList cs
end

/-- Below the root, no node of the plan is nil, an insert, an update or a delete. -/
def Node.childrenPlain : Node → Bool
  | .Nil => false
  | .CreateTrigger _ _ _ _ table body _ => Node.plain table && Node.plain body
  | .InsertInto l r => Node.plain l && Node.plain r
  | .Update child _ => Node.plain child
  | .DeleteFrom child => Node.plain child
  | .TriggerExecutor l r _ _ _ => Node.plain l && Node.plain r
  | .Set _ => true
  | .QueryProcess child => Node.plain child
  | .Other _ _ cs => Node.plainList cs

/-- The trigger event of an insert, update or delete node. -/
def Node.mutationEvent : Node → Option String
  | .InsertInto _ _ => some plan.InsertTrigger
  | .Update _ _ => some plan.UpdateTrigger
  | .DeleteFrom _ => some plan.DeleteTrigger
  | _ => none

/-- The node is a `*plan.CreateTrigger`. -/
def Node.isCreateTrigger : Node → Bool
  | .CreateTrigger _ _ _ _ _ _ _ => true
  | _ => false

end sql

namespace analyzer

open sql plan

/-- An analyzer for the examples: the current database stores the given triggers, the
parser reads a creation text with `parse`, nested analysis returns the body unchanged,
every mutated table is "t", and the unaliased table of a node is "t" when the node is an
insert, update or delete and "" otherwise. -/
def exampleAnalyzer (triggers : List TriggerDefinition) (parse : String → Except Error Node) :
    Analyzer :=
  { Database := .ok { GetTriggers := some (.ok triggers) },
    Parse := parse,
    Analyze := fun body _ => .ok body,
    getTableName := fun _ => "t",
    getUnaliasedTableName := fun n => if n.mutationEvent.isSome then "t" else "",
    getResolvedTable := fun _ => .Other "ResolvedTable" [] [],
    appendCap := fun n => n }

/-- The parser of the examples: the creation text "A" is an INSERT trigger A that FOLLOWS
a trigger Z; "X" and "Y" are AFTER INSERT triggers without directive. -/
def exampleParse (text : String) : Except Error Node :=
  if text = "A" then
    .ok (.CreateTrigger "A" sqlparser.BeforeStr sqlparser.InsertStr
      (some ⟨sqlparser.FollowsStr, "Z"⟩) (.Other "UnresolvedTable" [] [])
      (.Other "Body" [] []) "A")
  else if text = "X" then
    .ok (.CreateTrigger "X" sqlparser.AfterStr sqlparser.InsertStr none
      (.Other "UnresolvedTable" [] []) (.Other "BodyX" [] []) "X")
  else if text = "Y" then
    .ok (.CreateTrigger "Y" sqlparser.AfterStr sqlparser.InsertStr none
      (.Other "UnresolvedTable" [] []) (.Other "BodyY" [] []) "Y")
  else .error (.Other "syntax error")

/-- The statement of the examples: an insert into a table from a list of values. -/
def exampleInsert : Node :=
  .InsertInto (.Other "UnresolvedTable" [] []) (.Other "Values" [] [])

/-- The call `x` fails with the error `E` when `c` holds, and returns normally when it
does not. -/
def Decides {α : Type} (E : Error) (c : Bool) (x : Outcome Error α) : Prop :=
  (c = true → x = .err E) ∧ (c = false → ∃ a, x = .ret a)

end analyzer

namespace sql

/-- Method `Close` of a cursor: the returned error (`none` is nil). -/
def RowIter.Close (it : RowIter) : Option Error := it.closeResult

end sql

namespace plan

open sql

/-- The two cursors of an `indexedJoinIter`, to name the cursor a call of `Close` is made
on. -/
inductive Cursor where
  | primary
  | secondary
  deriving Repr, DecidableEq

/-- Method `Close` of `indexedJoinIter`: the iterator afterwards, the returned error
(`none` is nil) and the cursors on which `Close` was called, in the order of the calls.
The field `primary` of an iterator built by `indexedJoinRowIter` is never nil, so the
guard `i.primary != nil` holds. -/
def indexedJoinIter.Close (i : indexedJoinIter) :
    indexedJoinIter × Option Error × List Cursor :=
  match i.primary.Close with
  | some err =>
    match i.secondary with
    | some _ => (i, some err, [Cursor.primary, Cursor.secondary])
    | none => (i, some err, [Cursor.primary])
  | none =>
    match i.secondary with
    | some s => ({ i with secondary := none }, s.Close, [Cursor.primary, Cursor.secondary])
    | none => (i, none, [Cursor.primary])

/-- The iterator after `j` passes through the loop of `Next` that all continued (`none`
when one of them returned). -/
def indexedJoinIter.afterPasses : Nat → indexedJoinIter → Option indexedJoinIter
  | 0, i => some i
  | j + 1, i =>
    match i.NextIteration with
    | (i1, none) => indexedJoinIter.afterPasses j i1
    | (_, some _) => none

/-- Struct `IndexedJoin`: the children `left` (primary) and `right` (secondary) of the
embedded `BinaryNode`, the join condition and the join type. -/
structure IndexedJoin where
  left : Node
  right : Node
  Cond : Expression
  joinType : JoinType

/-- Function `NewIndexedJoin`. -/
def NewIndexedJoin (left right : Node) (joinType : JoinType) (cond : Expression) :
    IndexedJoin :=
  { left := left, right := right, joinType := joinType, Cond := cond }

/-- Method `IndexedJoin.WithChildren`: the returned node or error, and the receiver `ij`
as it is after the call.  A list of length 2 is a list `[c0, c1]`. -/
def IndexedJoin.WithChildren (ij : IndexedJoin) (children : List Node) :
    Except Error IndexedJoin × IndexedJoin :=
  match children with
  | [c0, c1] => (.ok (NewIndexedJoin c0 c1 ij.joinType ij.Cond), ij)
  | _ => (.error (.ErrInvalidChildrenNumber children.length 2), ij)

/-- An iterator for the examples: an INNER join without parent row, over the given
cursors and collaborators. -/
def exampleIter (primary : RowIter) (secondary : Option RowIter)
    (provider : Row → Except Error RowIter) (cond : Row → Except Error Value) :
    indexedJoinIter :=
  { parentRow := [], primary := primary, primaryRow := none, secondaryProvider := provider,
    secondary := secondary, cond := cond, joinType := JoinType.JoinTypeInner,
    foundMatch := false, rowSize := 2 }

end plan

namespace sql

/-- The node is a `*plan.TriggerExecutor`. -/
def Node.isTriggerExecutor : Node → Bool
  | .TriggerExecutor _ _ _ _ _ => true
  | _ => false

end sql

namespace analyzer

open sql plan

/-- The node is an insert, update or delete whose unaliased table name is that of the
invoking node `n` or of a memoized node of the scope. -/
def circularAt (a : Analyzer) (n : Node) (scope : Scope) (node : Node) : Bool :=
  node.mutationEvent.isSome &&
    (n :: scope.MemoNodes).any
      (fun m => decide (a.getUnaliasedTableName node = a.getUnaliasedTableName m))

mutual
/-- The plan contains an insert, update or delete node whose unaliased table name is that
of the invoking node `n` or of a memoized node of the scope. -/
def updatesTableInUse (a : Analyzer) (n : Node) (scope : Scope) : Node → Bool
  | .Nil => false
  | .CreateTrigger _ _ _ _ table body _ =>
    updatesTableInUse a n scope table || updatesTableInUse a n scope body
  | .InsertInto l r =>
    circularAt a n scope (.InsertInto l r) ||
      (updatesTableInUse a n scope l || updatesTableInUse a n scope r)
  | .Update child es =>
    circularAt a n scope (.Update child es) || updatesTableInUse a n scope child
  | .DeleteFrom child =>
    circularAt a n scope (.DeleteFrom child) || updatesTableInUse a n scope child
  | .TriggerExecutor l r _ _ _ =>
    updatesTableInUse a n scope l || updatesTableInUse a n scope r
  | .Set _ => false
  | .QueryProcess child => updatesTableInUse a n scope child
  | .Other _ _ cs => updatesTableInUseList a n scope cs
/-- One of the plans contains such a node. -/
def updatesTableInUseList (a : Analyzer) (n : Node) (scope : Scope) : List Node → Bool
  | [] => false
  | c :: cs => updatesTableInUse a n scope c || updatesTableInUseList a n scope cs
end

/-- The traversal `x`, started with `circularRef = s`, returns normally, with an
ErrTriggerTableInUse error when `c` holds and with `s` when it does not. -/
def Marks (c : Bool) (s : Option Error) (x : Outcome Error (Option Error)) : Prop :=
  ∃ s1, x = .ret s1 ∧ (c = true → ∃ t, s1 = some (.ErrTriggerTableInUse t)) ∧ (c = false → s1 = s)

/-- The table name of a node in the examples: the kind of the table node of an insert,
update or delete, and the kind of any other node. -/
def exampleTableName : Node → String
  | .InsertInto (.Other k _ _) _ => k
  | .Update (.Other k _ _) _ => k
  | .DeleteFrom (.Other k _ _) => k
  | .Other k _ _ => k
  | _ => ""

/-- An analyzer for the examples in which the table of a node is `exampleTableName`. -/
def exampleTableAnalyzer (triggers : List TriggerDefinition)
    (parse : String → Except Error Node) : Analyzer :=
  { Database := .ok { GetTriggers := some (.ok triggers) },
    Parse := parse,
    Analyze := fun body _ => .ok body,
    getTableName := exampleTableName,
    getUnaliasedTableName := exampleTableName,
    getResolvedTable := fun _ => .Other "ResolvedTable" [] [],
    appendCap := fun n => n }

/-- The parser of the table examples: the creation text "T1" is an AFTER INSERT trigger
on the table t1, without directive, whose body selects. -/
def exampleTableParse (text : String) : Except Error Node :=
  if text = "T1" then
    .ok (.CreateTrigger "T1" sqlparser.AfterStr sqlparser.InsertStr none
      (.Other "t1" [] []) (.Other "Select" [] []) "T1")
  else .error (.Other "syntax error")

/-- A statement with two mutating operations: a block that deletes from the table t2 and
then inserts into the table t1. -/
def exampleBlock : Node :=
  .Other "Block" []
    [.DeleteFrom (.Other "t2" [] []),
     .InsertInto (.Other "t1" [] []) (.Other "Values" [] [])]

end analyzer

namespace sql

/-- The types `sql.Type` that the embedded code names: `sql.Boolean`; every other type is
an `Other`. -/
inductive SqlType where
  | Boolean
  | Other (name : String)
  deriving Repr, DecidableEq

/-- The placeholder of `resolveNewAndOldReferences` for one expression, in the words of
the specification: an unresolved or deferred column reference whose table is "new" or
"old" ignoring case becomes a `triggerColumnRef` of the same table and column name; every
other expression stays as it is. -/
def Expression.placeholder : Expression → Expression
  | .UnresolvedColumn table name =>
    if strings.ToLower table = "new" ∨ strings.ToLower table = "old" then
      .triggerColumnRef table name
    else .UnresolvedColumn table name
  | .deferredColumn table name =>
    if strings.ToLower table = "new" ∨ strings.ToLower table = "old" then
      .triggerColumnRef table name
    else .deferredColumn table name
  | e => e

mutual
/-- The expression with every reference to "new" or "old" replaced by its placeholder. -/
def Expression.placeholders : Expression → Expression
  | .UnresolvedColumn table name => Expression.placeholder (.UnresolvedColumn table name)
  | .deferredColumn table name => Expression.placeholder (.deferredColumn table name)
  | .triggerColumnRef table name => .triggerColumnRef table name
  | .SetField l r => .SetField (Expression.placeholders l) (Expression.placeholders r)
  | .Other k cs => .Other k (Expression.placeholdersList cs)
/-- The expressions with every reference to "new" or "old" replaced by its placeholder. -/
def Expression.placeholdersList : List Expression → List Expression
  | [] => []
  | c :: cs => Expression.placeholders c :: Expression.placeholdersList cs
end

mutual
/-- The plan with every reference to "new" or "old" in the expressions of its nodes
replaced by its placeholder. -/
def Node.placeholders : Node → Node
  | .Nil => .Nil
  | .CreateTrigger a b c d table body e =>
    .CreateTrigger a b c d (Node.placeholders table) (Node.placeholders body) e
  | .InsertInto l r => .InsertInto (Node.placeholders l) (Node.placeholders r)
  | .Update child es => .Update (Node.placeholders child) (Expression.placeholdersList es)
  | .DeleteFrom child => .DeleteFrom (Node.placeholders child)
  | .TriggerExecutor l r ev tm d =>
    .TriggerExecutor (Node.placeholders l) (Node.placeholders r) ev tm d
  | .Set es => .Set (Expression.placeholdersList es)
  | .QueryProcess child => .QueryProcess (Node.placeholders child)
  | .Other k es cs => .Other k (Expression.placeholdersList es) (Node.placeholdersList cs)
/-- The plans with every reference to "new" or "old" replaced by its placeholder. -/
def Node.placeholdersList : List Node → List Node
  | [] => []
  | c :: cs => Node.placeholders c :: Node.placeholdersList cs
end

/-- The expression is a placeholder `triggerColumnRef` whose table is `pseudo` ignoring
case. -/
def Expression.isPlaceholderTo (pseudo : String) : Expression → Bool
  | .triggerColumnRef table _ => decide (strings.ToLower table = pseudo)
  | _ => false

/-- The expression is a reference (unresolved, deferred or placeholder) to a column of the
table `pseudo`, ignoring case. -/
def Expression.isPseudo (pseudo : String) : Expression → Bool
  | .UnresolvedColumn table _ => decide (strings.ToLower table = pseudo)
  | .deferredColumn table _ => decide (strings.ToLower table = pseudo)
  | .triggerColumnRef table _ => decide (strings.ToLower table = pseudo)
  | _ => false

/-- The expression is an assignment `*expression.SetField` whose left-hand side passes
`test`. -/
def Expression.assignsAt (test : Expression → Bool) : Expression → Bool
  | .SetField l _ => test l
  | _ => false

mutual
/-- The expression contains an assignment whose left-hand side passes `test`. -/
def Expression.hasAssign (test : Expression → Bool) : Expression → Bool
  | .SetField l r =>
    Expression.hasAssign test l ||
      (Expression.hasAssign test r || Expression.assignsAt test (.SetField l r))
  | .Other _ cs => Expression.hasAssignList test cs
  | .UnresolvedColumn _ _ => false
  | .deferredColumn _ _ => false
  | .triggerColumnRef _ _ => false
/-- One of the expressions contains an assignment whose left-hand side passes `test`. -/
def Expression.hasAssignList (test : Expression → Bool) : List Expression → Bool
  | [] => false
  | c :: cs => Expression.hasAssign test c || Expression.hasAssignList test cs
end

mutual
/-- The plan contains an assignment-statement node `*plan.Set` with an assignment whose
left-hand side passes `test`. -/
def Node.hasAssign (test : Expression → Bool) : Node → Bool
  | .Nil => false
  | .CreateTrigger _ _ _ _ table body _ => Node.hasAssign test table || Node.hasAssign test body
  | .InsertInto l r => Node.hasAssign test l || Node.hasAssign test r
  | .Update child _ => Node.hasAssign test child
  | .DeleteFrom child => Node.hasAssign test child
  | .TriggerExecutor l r _ _ _ => Node.hasAssign test l || Node.hasAssign test r
  | .Set es => Expression.hasAssignList test es
  | .QueryProcess child => Node.hasAssign test child
  | .Other _ _ cs => Node.hasAssignList test cs
/-- One of the plans contains such an assignment-statement node. -/
def Node.hasAssignList (test : Expression → Bool) : List Node → Bool
  | [] => false
  | c :: cs => Node.hasAssign test c || Node.hasAssignList test cs
end

/-- The plan contains a `*plan.Set` node with an assignment whose left-hand side is a
reference to a column of the table `pseudo`, ignoring case. -/
def Node.assignsTo (pseudo : String) (n : Node) : Bool :=
  Node.hasAssign (Expression.isPseudo pseudo) n

end sql

namespace analyzer

open sql plan

/-- Method `triggerColumnRef.Resolved`. -/
def triggerColumnRef.Resolved (_table _name : String) : Bool := true

/-- Method `triggerColumnRef.Type`. -/
def triggerColumnRef.Type (_table _name : String) : SqlType := SqlType.Boolean

/-- The references of a trigger of the given event pass the check of NEW and OLD: a DELETE
trigger has no reference to "new" (`hasNew` is false) and an INSERT trigger has no
reference to "old" (`hasOld` is false). -/
def Legal (event : String) (hasNew hasOld : Bool) : Prop :=
  (event = sqlparser.DeleteStr → hasNew = false) ∧ (event = sqlparser.InsertStr → hasOld = false)

/-- The call `x` returns `a` when neither `c1` nor `c2` holds, fails with `E1` when only
`c1` holds, with `E2` when only `c2` holds, and with one of the two when both hold. -/
def DecidesTwo {α : Type} (E1 E2 : Error) (c1 c2 : Bool) (x : Outcome Error α) (a : α) : Prop :=
  (c1 = false → c2 = false → x = .ret a)
  ∧ (c1 = true → c2 = false → x = .err E1)
  ∧ (c1 = false → c2 = true → x = .err E2)
  ∧ (c1 = true → c2 = true → x = .err E1 ∨ x = .err E2)

/-- A trigger definition for the examples, with the given time and event and a body that is
one assignment statement with the given assignments. -/
def exampleCreateTrigger (time event : String) (assignments : List Expression) : Node :=
  .CreateTrigger "tr" time event none (.Other "UnresolvedTable" [] []) (.Set assignments) ""

end analyzer


namespace analyzer

open sql plan

/-- Whether the iteration of the loop `Top` of `OrderTriggers` at index `i` enters the
branch `trigger.TriggerOrder != nil`, which removes a trigger from `orderedTriggers` and
looks for the place to reinsert it. -/
def OrderTriggers.movesAt (i : Nat) (st : OrderState) : Bool :=
  match st.triggers[i]? with
  | none => false
  | some trigger => trigger.TriggerOrder.isSome

/-- The run of the loop `Top` of `OrderTriggers` from index `i` on, for `k` more
iterations, as `OrderTriggers.loop`, together with the number of iterations of the loop
body it has run and the number of those that entered the remove-and-reinsert branch. -/
def OrderTriggers.loopCount (cap : Nat) :
    Nat → Nat → OrderState → Nat × Nat × Outcome Error OrderState
  | 0, _, st => (0, 0, .ret st)
  | k + 1, i, st =>
    let moved := if OrderTriggers.movesAt i st then 1 else 0
    match OrderTriggers.body cap i st with
    | .ret st1 =>
      let r := OrderTriggers.loopCount cap k (i + 1) st1
      (r.1 + 1, r.2.1 + moved, r.2.2)
    | .err e => (1, moved, .err e)
    | .panic msg => (1, moved, .panic msg)

end analyzer

namespace plan

open sql

/-- The number of secondary cursors one pass through the loop of `Next` obtains from the
secondary provider: `loadSecondary` calls `secondaryProvider.RowIter` when `loadPrimary`
returned nil and the field `secondary` is nil, and keeps the cursor when the call
succeeds. -/
def indexedJoinIter.passOpens (i : indexedJoinIter) : Nat :=
  match i.loadPrimary with
  | (_, some _) => 0
  | (i1, none) =>
    match i1.secondary with
    | some _ => 0
    | none =>
      match i1.secondaryProvider (i1.primaryRow.getD []) with
      | .error _ => 0
      | .ok _ => 1

/-- The number of secondary cursors a call of `Next` obtains from the secondary provider,
over the passes of its loop; `k` bounds the number of passes as in `Next`. -/
def indexedJoinIter.NextOpens : Nat → indexedJoinIter → Nat
  | 0, _ => 0
  | k + 1, i =>
    match i.NextIteration with
    | (_, some _) => i.passOpens
    | (i1, none) => i.passOpens + indexedJoinIter.NextOpens k i1

/-- Calling `Next` until it returns something else than a row, and then `Close` when the
run ended with an error: what ended the run, the number of secondary cursors obtained
from the provider, and the cursors on which `Close` was called.  `Next`, `loadPrimary`
and `loadSecondary` call `Close` on no cursor, so the calls are those of the method
`Close`; `k` bounds the number of calls of `Next` and the passes of each call. -/
def indexedJoinIter.drainThenClose :
    Nat → indexedJoinIter → Option (Outcome Error Unit × Nat × List Cursor)
  | 0, _ => none
  | k + 1, i =>
    match i.Next k with
    | none => none
    | some (i1, .ret _) =>
      (indexedJoinIter.drainThenClose k i1).map
        (fun r => (r.1, i.NextOpens k + r.2.1, r.2.2))
    | some (i1, .err e) => some (.err e, i.NextOpens k, i1.Close.2.2)
    | some (_, .panic msg) => some (.panic msg, i.NextOpens k, [])

end plan

namespace sql

/-- The first of two optional errors: the left one when there is one. -/
def firstError (first second : Option Error) : Option Error :=
  match first with
  | some e => some e
  | none => second

/-- The error that an expression is an illegal assignment of, in a trigger of the given
time: an assignment `*expression.SetField` whose left-hand side is to "old" (by `test`)
is an invalid update of the old row, and one whose left-hand side is to "new", in an AFTER
trigger, an invalid update in an after trigger; `none` for every other expression. -/
def Expression.illegalAt (time : String) (test : String → Expression → Bool) :
    Expression → Option Error
  | .SetField l _ =>
    if test "old" l then some .ErrInvalidUpdateOfOldRow
    else if decide (time = sqlparser.AfterStr) && test "new" l then
      some .ErrInvalidUpdateInAfterTrigger
    else none
  | _ => none

mutual
/-- The error of the first illegal assignment in an expression, where the parts of an
expression come before the expression itself, from left to right. -/
def Expression.firstIllegal (time : String) (test : String → Expression → Bool) :
    Expression → Option Error
  | .SetField l r =>
    firstError (Expression.firstIllegal time test l)
      (firstError (Expression.firstIllegal time test r)
        (Expression.illegalAt time test (.SetField l r)))
  | .Other _ cs => Expression.firstIllegalList time test cs
  | .UnresolvedColumn _ _ => none
  | .deferredColumn _ _ => none
  | .triggerColumnRef _ _ => none
/-- The error of the first illegal assignment in a list of expressions, from left to
right. -/
def Expression.firstIllegalList (time : String) (test : String → Expression → Bool) :
    List Expression → Option Error
  | [] => none
  | c :: cs =>
    firstError (Expression.firstIllegal time test c) (Expression.firstIllegalList time test cs)
end

mutual
/-- The error of the first illegal assignment in the assignment-statement nodes
`*plan.Set` of a plan, where the children of a node come before the node itself, from
left to right. -/
def Node.firstIllegal (time : String) (test : String → Expression → Bool) :
    Node → Option Error
  | .Nil => none
  | .CreateTrigger _ _ _ _ table body _ =>
    firstError (Node.firstIllegal time test table) (Node.firstIllegal time test body)
  | .InsertInto l r =>
    firstError (Node.firstIllegal time test l) (Node.firstIllegal time test r)
  | .Update child _ => Node.firstIllegal time test child
  | .DeleteFrom child => Node.firstIllegal time test child
  | .TriggerExecutor l r _ _ _ =>
    firstError (Node.firstIllegal time test l) (Node.firstIllegal time test r)
  | .Set es => Expression.firstIllegalList time test es
  | .QueryProcess child => Node.firstIllegal time test child
  | .Other _ _ cs => Node.firstIllegalList time test cs
/-- The error of the first illegal assignment in a list of plans, from left to right. -/
def Node.firstIllegalList (time : String) (test : String → Expression → Bool) :
    List Node → Option Error
  | [] => none
  | c :: cs => firstError (Node.firstIllegal time test c) (Node.firstIllegalList time test cs)
end

/-- The error of the first illegal assignment of a trigger definition of the given time:
the first assignment, in a `*plan.Set` node, to a column of "old", or, in an AFTER
trigger, to a column of "new" (unresolved, deferred or placeholder reference, ignoring
case); `none` when there is none. -/
def Node.firstIllegalAssignment (time : String) (n : Node) : Option Error :=
  Node.firstIllegal time Expression.isPseudo n

end sql

namespace analyzer

open sql plan

/-- The call `x` fails with the error `first` when there is one, and returns `a`
otherwise. -/
def Yields {α : Type} (first : Option Error) (x : Outcome Error α) (a : α) : Prop :=
  x = match first with
    | some e => .err e
    | none => .ret a

end analyzer
namespace analyzer

open sql plan

/-! ## Lemmas on `OrderTriggers` -/

theorem split_eq_filter (ts : List CreateTrigger) :
    OrderTriggers.split ts =
      (ts.filter (fun t => decide (t.TriggerTime = sqlparser.BeforeStr)),
       ts.filter (fun t => !decide (t.TriggerTime = sqlparser.BeforeStr))) := by
  induction ts with
  | nil => rfl
  | cons t ts ih =>
    by_cases h : t.TriggerTime = sqlparser.BeforeStr <;>
      simp [OrderTriggers.split, ih, h]

theorem body_of_no_directive (cap i : Nat) (st : OrderState)
    (h : ∀ t ∈ st.triggers, t.TriggerOrder = none) :
    OrderTriggers.body cap i st = .ret st := by
  unfold OrderTriggers.body
  cases hget : st.triggers[i]? with
  | none => rfl
  | some t =>
    have ht : t.TriggerOrder = none := h t (List.getElem?_mem hget)
    simp [ht]

theorem loop_of_no_directive (cap k : Nat) :
    ∀ (i : Nat) (st : OrderState), (∀ t ∈ st.triggers, t.TriggerOrder = none) →
      OrderTriggers.loop cap k i st = .ret st := by
  induction k with
  | zero => intro i st _; rfl
  | succ k ih =>
    intro i st h
    simp [OrderTriggers.loop, body_of_no_directive cap i st h, ih (i + 1) st h]

theorem getElem?_middle {α : Type} (xs ys : List α) (m : α) (n : Nat) (hn : n = xs.length) :
    (xs ++ m :: ys)[n]? = some m := by
  subst hn
  induction xs with
  | nil => simp
  | cons x xs ih => simpa using ih

theorem set_middle {α : Type} (xs ys : List α) (m v : α) (n : Nat) (hn : n = xs.length) :
    (xs ++ m :: ys).set n v = xs ++ v :: ys := by
  subst hn
  induction xs with
  | nil => rfl
  | cons x xs ih => simp

theorem reverseLoop_spec {α : Type} (k : Nat) :
    ∀ (xs mid ys : List α), mid.length ≤ k →
      reverseLoop k (xs.length : Int) ((xs.length : Int) + (mid.length : Int) - 1)
        (xs ++ mid ++ ys) = xs ++ mid.reverse ++ ys := by
  induction k with
  | zero =>
    intro xs mid ys h
    have : mid = [] := List.eq_nil_of_length_eq_zero (Nat.le_zero.mp h)
    subst this
    simp [reverseLoop]
  | succ k ih =>
    intro xs mid ys h
    cases mid with
    | nil => simp [reverseLoop]
    | cons m1 rest =>
      rcases List.eq_nil_or_concat rest with hrest | ⟨mid1, m2, hrest⟩
      · subst hrest
        simp [reverseLoop]
      · rw [List.concat_eq_append] at hrest
        subst hrest
        have hlen : (m1 :: (mid1 ++ [m2])).length = mid1.length + 2 := by simp
        rw [hlen] at h
        have hlt : (xs.length : Int) <
            (xs.length : Int) + ((m1 :: (mid1 ++ [m2])).length : Int) - 1 := by
          rw [hlen]; push_cast; omega
        have hl : ((xs.length : Int)).toNat = xs.length := Int.toNat_ofNat _
        have hr : ((xs.length : Int) + ((m1 :: (mid1 ++ [m2])).length : Int) - 1).toNat
            = xs.length + (mid1.length + 1) := by
          rw [hlen]; push_cast; omega
        have ea : xs ++ m1 :: (mid1 ++ [m2]) ++ ys = xs ++ m1 :: (mid1 ++ m2 :: ys) := by
          simp
        have eb : xs ++ m1 :: (mid1 ++ m2 :: ys) = (xs ++ m1 :: mid1) ++ m2 :: ys := by
          simp
        have hgl : (xs ++ m1 :: (mid1 ++ [m2]) ++ ys)[xs.length]? = some m1 := by
          rw [ea]; exact getElem?_middle _ _ _ _ rfl
        have hgr : (xs ++ m1 :: (mid1 ++ [m2]) ++ ys)[xs.length + (mid1.length + 1)]?
            = some m2 := by
          rw [ea, eb]; exact getElem?_middle _ _ _ _ (by simp)
        have hset : ((xs ++ m1 :: (mid1 ++ [m2]) ++ ys).set xs.length m2).set
            (xs.length + (mid1.length + 1)) m1 = (xs ++ [m2]) ++ mid1 ++ ([m1] ++ ys) := by
          rw [ea, set_middle _ _ _ _ _ rfl]
          have ec : xs ++ m2 :: (mid1 ++ m2 :: ys) = (xs ++ m2 :: mid1) ++ m2 :: ys := by
            simp
          rw [ec, set_middle _ _ _ _ _ (by simp)]
          simp
        have hih := ih (xs ++ [m2]) mid1 ([m1] ++ ys) (by omega)
        have e4 : (((xs ++ [m2]).length : Nat) : Int) + (mid1.length : Int) - 1
            = (xs.length : Int) + ((m1 :: (mid1 ++ [m2])).length : Int) - 1 - 1 := by
          rw [hlen]; simp only [List.length_append, List.length_cons, List.length_nil]
          push_cast; omega
        have e3 : (((xs ++ [m2]).length : Nat) : Int) = (xs.length : Int) + 1 := by simp
        rw [e4, e3] at hih
        rw [reverseLoop, if_pos hlt, hl, hr, hgl, hgr]
        simp only []
        rw [hset, hih]
        simp

theorem reverseLoop_eq_reverse {α : Type} (a : List α) :
    reverseLoop a.length 0 ((a.length : Int) - 1) a = a.reverse := by
  have h := reverseLoop_spec a.length ([] : List α) a [] (le_refl _)
  simpa using h

/-! ## Claims on `OrderTriggers` and `orderTriggersAndReverseAfter` -/

/-- C3: on the declaration order [A FOLLOWS B, B FOLLOWS C, C] of three BEFORE triggers with
distinct names, `OrderTriggers` returns the before-list [B, A, C] whatever the capacity
of the argument slice, whereas the reordering procedure of the specification yields
[A, C, B]; and on [A, B PRECEDES A, C PRECEDES A], in a slice of capacity 4 (what three
calls of `append` give), it returns [B, A, C] where the specification yields [B, C, A].
The returned list does not equal the reference result. -/
theorem OrderTriggers_not_spec_order (extra : Nat) :
    (OrderTriggers
        [exampleTrigger "A" (some ⟨sqlparser.FollowsStr, "B"⟩),
         exampleTrigger "B" (some ⟨sqlparser.FollowsStr, "C"⟩),
         exampleTrigger "C" none] (3 + extra)
      = .ret ([exampleTrigger "B" (some ⟨sqlparser.FollowsStr, "C"⟩),
               exampleTrigger "A" (some ⟨sqlparser.FollowsStr, "B"⟩),
               exampleTrigger "C" none], [])
    ∧ specOrder
        [exampleTrigger "A" (some ⟨sqlparser.FollowsStr, "B"⟩),
         exampleTrigger "B" (some ⟨sqlparser.FollowsStr, "C"⟩),
         exampleTrigger "C" none]
      = .ret [exampleTrigger "A" (some ⟨sqlparser.FollowsStr, "B"⟩),
              exampleTrigger "C" none,
              exampleTrigger "B" (some ⟨sqlparser.FollowsStr, "C"⟩)])
    ∧ (OrderTriggers
        [exampleTrigger "A" none,
         exampleTrigger "B" (some ⟨sqlparser.PrecedesStr, "A"⟩),
         exampleTrigger "C" (some ⟨sqlparser.PrecedesStr, "A"⟩)] 4
      = .ret ([exampleTrigger "B" (some ⟨sqlparser.PrecedesStr, "A"⟩),
               exampleTrigger "A" none,
               exampleTrigger "C" (some ⟨sqlparser.PrecedesStr, "A"⟩)], [])
    ∧ specOrder
        [exampleTrigger "A" none,
         exampleTrigger "B" (some ⟨sqlparser.PrecedesStr, "A"⟩),
         exampleTrigger "C" (some ⟨sqlparser.PrecedesStr, "A"⟩)]
      = .ret [exampleTrigger "B" (some ⟨sqlparser.PrecedesStr, "A"⟩),
              exampleTrigger "C" (some ⟨sqlparser.PrecedesStr, "A"⟩),
              exampleTrigger "A" none]) := by
  refine ⟨⟨?_, by rfl⟩, by rfl, by rfl⟩
  have h : 2 ≤ 3 + extra := by omega
  simp [OrderTriggers, OrderTriggers.loop, OrderTriggers.body, exampleTrigger, findRef,
    appendToSubslice, golang.copyAt, OrderTriggers.split, sqlparser.PrecedesStr,
    sqlparser.FollowsStr, sqlparser.BeforeStr, h]

/-- C4: three BEFORE triggers declared [A, B, C], where A has no directive, B has
FOLLOWS A and C has PRECEDES A, are ordered to before = [C, A, B] and after = []. -/
theorem OrderTriggers_spec_example (A B C : CreateTrigger) (cap : Nat)
    (hA : A.TriggerOrder = none)
    (hB : B.TriggerOrder = some ⟨sqlparser.FollowsStr, A.TriggerName⟩)
    (hC : C.TriggerOrder = some ⟨sqlparser.PrecedesStr, A.TriggerName⟩)
    (tA : A.TriggerTime = sqlparser.BeforeStr) (tB : B.TriggerTime = sqlparser.BeforeStr)
    (tC : C.TriggerTime = sqlparser.BeforeStr) :
    OrderTriggers [A, B, C] cap = .ret ([C, A, B], []) := by
  have hne : ¬ sqlparser.FollowsStr = sqlparser.PrecedesStr := by decide
  simp only [OrderTriggers, OrderTriggers.loop, OrderTriggers.body, List.length_cons,
    List.length_nil, List.getElem?_cons_zero, List.getElem?_cons_succ, hA, hB, hC,
    List.eraseIdx, findRef, if_true, hne, if_false, appendToSubslice, List.drop,
    List.take, Option.map]
  by_cases h1 : 1 + 1 ≤ cap - (0 + 1) <;> by_cases h2 : 1 + 2 ≤ cap - (0 + 1 + 1) <;>
    simp [h1, h2, golang.copyAt, OrderTriggers.split, tA, tB, tC, hA, hB, hC, findRef, hne,
      OrderTriggers.loop]

theorem OrderTriggers_spec_example_witness :
    OrderTriggers
      [exampleTrigger "A" none,
       exampleTrigger "B" (some ⟨sqlparser.FollowsStr, "A"⟩),
       exampleTrigger "C" (some ⟨sqlparser.PrecedesStr, "A"⟩)] 4
    = .ret ([exampleTrigger "C" (some ⟨sqlparser.PrecedesStr, "A"⟩),
             exampleTrigger "A" none,
             exampleTrigger "B" (some ⟨sqlparser.FollowsStr, "A"⟩)], []) :=
  OrderTriggers_spec_example _ _ _ 4 rfl rfl rfl rfl rfl rfl

/-- C5: on [A FOLLOWS B, B FOLLOWS Z, C], where no trigger is named Z, `OrderTriggers`
returns the ordering ([B, A, C], []) instead of aborting: the dangling reference of B is
never looked at, because reinserting A overwrote the cell of B in the argument slice.
Likewise on [A, B PRECEDES A, C PRECEDES Z] in a slice of capacity 4 it returns
([B, A, C], []). -/
theorem OrderTriggers_dangling_returns (extra : Nat) :
    OrderTriggers
        [exampleTrigger "A" (some ⟨sqlparser.FollowsStr, "B"⟩),
         exampleTrigger "B" (some ⟨sqlparser.FollowsStr, "Z"⟩),
         exampleTrigger "C" none] (3 + extra)
      = .ret ([exampleTrigger "B" (some ⟨sqlparser.FollowsStr, "Z"⟩),
               exampleTrigger "A" (some ⟨sqlparser.FollowsStr, "B"⟩),
               exampleTrigger "C" none], [])
    ∧ OrderTriggers
        [exampleTrigger "A" none,
         exampleTrigger "B" (some ⟨sqlparser.PrecedesStr, "A"⟩),
         exampleTrigger "C" (some ⟨sqlparser.PrecedesStr, "Z"⟩)] 4
      = .ret ([exampleTrigger "B" (some ⟨sqlparser.PrecedesStr, "A"⟩),
               exampleTrigger "A" none,
               exampleTrigger "C" (some ⟨sqlparser.PrecedesStr, "Z"⟩)], []) := by
  refine ⟨?_, by rfl⟩
  have h : 2 ≤ 3 + extra := by omega
  simp [OrderTriggers, OrderTriggers.loop, OrderTriggers.body, exampleTrigger, findRef,
    appendToSubslice, golang.copyAt, OrderTriggers.split, sqlparser.PrecedesStr,
    sqlparser.FollowsStr, sqlparser.BeforeStr, h]

/-- C7: whenever `OrderTriggers` returns (before, after), `orderTriggersAndReverseAfter`
returns before followed by the reverse of after: only the AFTER group is reversed. -/
theorem orderTriggersAndReverseAfter_eq (triggers : List CreateTrigger) (cap : Nat)
    (before after : List CreateTrigger)
    (h : OrderTriggers triggers cap = .ret (before, after)) :
    orderTriggersAndReverseAfter triggers cap = .ret (before ++ after.reverse) := by
  unfold orderTriggersAndReverseAfter
  rw [h]
  simp only []
  rw [reverseLoop_eq_reverse]

theorem orderTriggersAndReverseAfter_eq_witness :
    OrderTriggers [exampleAfterTrigger "X", exampleAfterTrigger "Y"] 2
      = .ret ([], [exampleAfterTrigger "X", exampleAfterTrigger "Y"])
    ∧ orderTriggersAndReverseAfter [exampleAfterTrigger "X", exampleAfterTrigger "Y"] 2
      = .ret ([] ++ [exampleAfterTrigger "X", exampleAfterTrigger "Y"].reverse) :=
  ⟨rfl, orderTriggersAndReverseAfter_eq _ 2 _ _ rfl⟩

/-- C9: when no trigger carries a directive, `OrderTriggers` returns the sub-list of the
BEFORE triggers and the sub-list of all other triggers, each in declaration order; every
input trigger is in exactly one of the two, and the two together have as many elements
as the input. -/
theorem OrderTriggers_partition (triggers : List CreateTrigger) (cap : Nat)
    (h : ∀ t ∈ triggers, t.TriggerOrder = none) :
    OrderTriggers triggers cap =
      .ret (triggers.filter (fun t => decide (t.TriggerTime = sqlparser.BeforeStr)),
            triggers.filter (fun t => !decide (t.TriggerTime = sqlparser.BeforeStr)))
    ∧ (∀ t ∈ triggers,
        (t ∈ triggers.filter (fun t => decide (t.TriggerTime = sqlparser.BeforeStr))
          ∧ t ∉ triggers.filter (fun t => !decide (t.TriggerTime = sqlparser.BeforeStr)))
        ∨ (t ∉ triggers.filter (fun t => decide (t.TriggerTime = sqlparser.BeforeStr))
          ∧ t ∈ triggers.filter (fun t => !decide (t.TriggerTime = sqlparser.BeforeStr))))
    ∧ (triggers.filter (fun t => decide (t.TriggerTime = sqlparser.BeforeStr))).length
        + (triggers.filter (fun t => !decide (t.TriggerTime = sqlparser.BeforeStr))).length
        = triggers.length := by
  refine ⟨?_, ?_, ?_⟩
  · simp [OrderTriggers, loop_of_no_directive cap triggers.length 0 ⟨triggers, triggers⟩ h,
      split_eq_filter]
  · intro t ht
    by_cases hb : t.TriggerTime = sqlparser.BeforeStr
    · left; simp [List.mem_filter, ht, hb]
    · right; simp [List.mem_filter, ht, hb]
  · induction triggers with
    | nil => rfl
    | cons t ts ih =>
      have ih1 := ih (fun u hu => h u (List.mem_cons_of_mem _ hu))
      by_cases hb : t.TriggerTime = sqlparser.BeforeStr <;>
        simp [List.filter_cons, hb] <;> omega

theorem OrderTriggers_partition_witness :
    (∀ t ∈ [exampleAfterTrigger "X", exampleTrigger "Y" none, exampleAfterTrigger "Z"],
      t.TriggerOrder = none)
    ∧ OrderTriggers [exampleAfterTrigger "X", exampleTrigger "Y" none, exampleAfterTrigger "Z"] 4
      = .ret ([exampleTrigger "Y" none], [exampleAfterTrigger "X", exampleAfterTrigger "Z"]) :=
  ⟨by simp [exampleAfterTrigger, exampleTrigger],
   (OrderTriggers_partition _ 4 (by simp [exampleAfterTrigger, exampleTrigger])).1⟩

end analyzer

namespace plan

open sql

/-! ## Lemmas on the indexed join iterator -/

theorem length_copyAt {α : Type} (arr : List α) :
    ∀ (p : Nat) (xs : List α), (golang.copyAt arr p xs).length = arr.length := by
  induction arr with
  | nil => intro p xs; simp [golang.copyAt]
  | cons a as ih =>
    intro p xs
    cases p with
    | zero =>
      cases xs with
      | nil => simp [golang.copyAt]
      | cons x xs => simp [golang.copyAt, ih]
    | succ p => simp [golang.copyAt, ih]

theorem copyAt_zero {α : Type} (arr : List α) :
    ∀ (xs : List α), xs.length ≤ arr.length →
      golang.copyAt arr 0 xs = xs ++ arr.drop xs.length := by
  induction arr with
  | nil =>
    intro xs h
    have : xs = [] := List.eq_nil_of_length_eq_zero (Nat.le_zero.mp h)
    subst this
    simp [golang.copyAt]
  | cons a as ih =>
    intro xs h
    cases xs with
    | nil => simp [golang.copyAt]
    | cons x xs =>
      have h1 : xs.length ≤ as.length := by simpa using h
      simp [golang.copyAt, ih xs h1]

theorem copyAt_append {α : Type} (pre : List α) :
    ∀ (arr xs : List α), golang.copyAt (pre ++ arr) pre.length xs
      = pre ++ golang.copyAt arr 0 xs := by
  induction pre with
  | nil => intro arr xs; simp
  | cons a as ih => intro arr xs; simp [golang.copyAt, ih]

theorem buildRow_eq (i : indexedJoinIter) (primary secondary : Row) (n : Nat)
    (hsize : i.rowSize = primary.length + n) (hsec : secondary.length ≤ n) :
    i.buildRow primary secondary
      = .ret (primary ++ secondary ++ List.replicate (n - secondary.length) Value.Nil) := by
  have h0 : golang.copyAt (List.replicate i.rowSize Value.Nil) 0 primary
      = primary ++ List.replicate n Value.Nil := by
    rw [copyAt_zero _ _ (by simp [hsize]), hsize]
    simp
  have h1 : golang.copyAt (List.replicate n Value.Nil) 0 secondary
      = secondary ++ List.replicate (n - secondary.length) Value.Nil := by
    rw [copyAt_zero _ _ (by simpa using hsec)]
    simp
  unfold indexedJoinIter.buildRow
  simp only [h0, copyAt_append, h1]
  simp

theorem Next_succ (k : Nat) :
    ∀ (i : indexedJoinIter) (r : indexedJoinIter × Outcome Error Row),
      i.Next k = some r → i.Next (k + 1) = some r := by
  induction k with
  | zero => intro i r h; simp [indexedJoinIter.Next] at h
  | succ k ih =>
    intro i r h
    rw [indexedJoinIter.Next] at h ⊢
    cases hit : i.NextIteration with
    | mk i1 o =>
      rw [hit] at h
      cases o with
      | some v => simpa using h
      | none => exact ih i1 r (by simpa using h)

theorem drain_succ (k : Nat) :
    ∀ (i : indexedJoinIter) (r : List Row × Outcome Error Unit),
      i.drain k = some r → i.drain (k + 1) = some r := by
  induction k with
  | zero => intro i r h; simp [indexedJoinIter.drain] at h
  | succ k ih =>
    intro i r h
    rw [indexedJoinIter.drain] at h ⊢
    cases hn : i.Next k with
    | none => rw [hn] at h; simp at h
    | some v =>
      rw [hn] at h
      rw [Next_succ k i v hn]
      obtain ⟨i1, o⟩ := v
      cases o with
      | ret row =>
        simp only [Option.map_eq_some'] at h ⊢
        obtain ⟨a, ha, hr⟩ := h
        exact ⟨a, ih i1 a ha, hr⟩
      | err e => exact h
      | panic msg => exact h

theorem drain_mono (i : indexedJoinIter) (r : List Row × Outcome Error Unit) (k : Nat)
    (h : i.drain k = some r) : ∀ n, k ≤ n → i.drain n = some r := by
  intro n hn
  induction n with
  | zero =>
    have : k = 0 := Nat.le_zero.mp hn
    subst this
    exact h
  | succ n ih =>
    rcases Nat.lt_or_ge k (n + 1) with hlt | hge
    · exact drain_succ n i r (ih (Nat.lt_succ_iff.mp hlt))
    · have : k = n + 1 := Nat.le_antisymm hn hge
      subst this
      exact h

theorem Drains.stop (i i1 : indexedJoinIter) (e : Error)
    (h : i.NextIteration = (i1, some (.err e))) : Drains i ([], .err e) :=
  ⟨2, by simp [indexedJoinIter.drain, indexedJoinIter.Next, h]⟩

theorem Drains.emit (i i1 : indexedJoinIter) (row : Row) (rows : List Row)
    (t : Outcome Error Unit) (h : i.NextIteration = (i1, some (.ret row)))
    (hd : Drains i1 (rows, t)) : Drains i (row :: rows, t) := by
  obtain ⟨k, hk⟩ := hd
  cases k with
  | zero => simp [indexedJoinIter.drain] at hk
  | succ k =>
    refine ⟨k + 2, ?_⟩
    have hnext : i.Next (k + 1) = some (i1, .ret row) := by
      rw [indexedJoinIter.Next, h]
    rw [indexedJoinIter.drain, hnext]
    simp only []
    rw [hk]
    rfl

theorem Drains.continue (i i1 : indexedJoinIter) (r : List Row × Outcome Error Unit)
    (h : i.NextIteration = (i1, none)) (hd : Drains i1 r) : Drains i r := by
  obtain ⟨k, hk⟩ := hd
  refine ⟨k + 1, ?_⟩
  cases k with
  | zero => simp [indexedJoinIter.drain] at hk
  | succ k =>
    have hnext : i.Next (k + 1) = i1.Next k := by
      rw [indexedJoinIter.Next, h]
    rw [indexedJoinIter.drain] at hk ⊢
    rw [hnext]
    cases hn : i1.Next k with
    | none => rw [hn] at hk; simp at hk
    | some v =>
      rw [hn] at hk
      obtain ⟨i2, o⟩ := v
      cases o with
      | ret row =>
        simp only [Option.map_eq_some'] at hk ⊢
        obtain ⟨a, ha, hr⟩ := hk
        exact ⟨a, drain_succ k i2 a ha, hr⟩
      | err e => exact hk
      | panic msg => exact hk

theorem Drains.of_iteration_eq (i j : indexedJoinIter) (r : List Row × Outcome Error Unit)
    (h : i.NextIteration = j.NextIteration) (hd : Drains j r) : Drains i r := by
  obtain ⟨k, hk⟩ := hd
  refine ⟨k, ?_⟩
  cases k with
  | zero => exact hk
  | succ k =>
    have hnext : i.Next k = j.Next k := by
      cases k with
      | zero => rfl
      | succ k => rw [indexedJoinIter.Next, indexedJoinIter.Next, h]
    rw [indexedJoinIter.drain] at hk ⊢
    rw [hnext]
    exact hk

section JoinStates

variable (parent : Row) (sec : Row → List Row) (condv : Row → Value) (jt : JoinType)
  (leftLen rightLen : Nat)

theorem loadPrimary_loaded (ps : List Row) (r : Row) (ss : Option (List Row)) (fm : Bool) :
    (joinState parent sec condv jt leftLen rightLen ps (some r) ss fm).loadPrimary
      = (joinState parent sec condv jt leftLen rightLen ps (some r) ss fm, none) := rfl

theorem loadPrimary_cons (p : Row) (ps : List Row) (ss : Option (List Row)) (fm : Bool) :
    (joinState parent sec condv jt leftLen rightLen (p :: ps) none ss fm).loadPrimary
      = (joinState parent sec condv jt leftLen rightLen ps (some (parent ++ p)) ss false,
          none) := rfl

theorem loadPrimary_nil (ss : Option (List Row)) (fm : Bool) :
    (joinState parent sec condv jt leftLen rightLen [] none ss fm).loadPrimary
      = (joinState parent sec condv jt leftLen rightLen [] none ss fm, some Error.EOF) := rfl

theorem loadSecondary_cons (ps : List Row) (prow : Option Row) (s : Row) (ss : List Row)
    (fm : Bool) :
    (joinState parent sec condv jt leftLen rightLen ps prow (some (s :: ss)) fm).loadSecondary
      = (joinState parent sec condv jt leftLen rightLen ps prow (some ss) fm, .ok s) := rfl

theorem loadSecondary_nil (ps : List Row) (prow : Option Row) (fm : Bool) :
    (joinState parent sec condv jt leftLen rightLen ps prow (some []) fm).loadSecondary
      = (joinState parent sec condv jt leftLen rightLen ps none none fm, .error Error.EOF) :=
  rfl

theorem loadSecondary_open (ps : List Row) (r : Row) (fm : Bool) :
    (joinState parent sec condv jt leftLen rightLen ps (some r) none fm).loadSecondary
      = (joinState parent sec condv jt leftLen rightLen ps (some r) (some (sec r))
          fm).loadSecondary := rfl

theorem primaryRow_joinState (ps : List Row) (r : Row) (ss : Option (List Row)) (fm : Bool) :
    (joinState parent sec condv jt leftLen rightLen ps (some r) ss fm).primaryRow.getD [] = r :=
  rfl

theorem buildRow_joinState (ps : List Row) (prow : Option Row) (ss : Option (List Row))
    (fm : Bool) (p s : Row) (hp : p.length = leftLen) (hs : s.length = rightLen) :
    (joinState parent sec condv jt leftLen rightLen ps prow ss fm).buildRow (parent ++ p) s
      = .ret (parent ++ p ++ s) := by
  rw [buildRow_eq _ _ _ rightLen (by simp [joinState, hp]) (by omega)]
  simp [hs]

theorem buildRow_joinState_nil (ps : List Row) (prow : Option Row) (ss : Option (List Row))
    (fm : Bool) (p : Row) (hp : p.length = leftLen) :
    (joinState parent sec condv jt leftLen rightLen ps prow ss fm).buildRow (parent ++ p) []
      = .ret (parent ++ p ++ List.replicate rightLen Value.Nil) := by
  rw [buildRow_eq _ _ _ rightLen (by simp [joinState, hp]) (by simp)]
  simp

theorem stripParent_joinState (ps : List Row) (prow : Option Row) (ss : Option (List Row))
    (fm : Bool) (x : Row) :
    (joinState parent sec condv jt leftLen rightLen ps prow ss fm).stripParent (parent ++ x)
      = .ret x := by
  simp [indexedJoinIter.stripParent, joinState]

theorem conditionIsTrue_joinState (ps : List Row) (prow : Option Row)
    (ss : Option (List Row)) (fm : Bool) (row : Row) :
    conditionIsTrue row (joinState parent sec condv jt leftLen rightLen ps prow ss fm).cond
      = (decide (condv row = Value.Bool true), none) := rfl

theorem iteration_idle_nil (fm : Bool) :
    (joinState parent sec condv jt leftLen rightLen [] none none fm).NextIteration
      = (joinState parent sec condv jt leftLen rightLen [] none none fm,
          some (.err Error.EOF)) := rfl

theorem iteration_idle_cons (p : Row) (ps : List Row) (fm : Bool) :
    (joinState parent sec condv jt leftLen rightLen (p :: ps) none none fm).NextIteration
      = (joinState parent sec condv jt leftLen rightLen ps (some (parent ++ p))
          (some (sec (parent ++ p))) false).NextIteration := by
  unfold indexedJoinIter.NextIteration
  rw [loadPrimary_cons, loadPrimary_loaded]
  simp only []
  rw [loadSecondary_open]
  rfl

theorem iteration_scan_end_pad (ps : List Row) (p : Row) (hp : p.length = leftLen)
    (hjt : jt ≠ JoinType.JoinTypeInner) :
    (joinState parent sec condv jt leftLen rightLen ps (some (parent ++ p)) (some [])
        false).NextIteration
      = (joinState parent sec condv jt leftLen rightLen ps none none false,
          some (.ret (p ++ List.replicate rightLen Value.Nil))) := by
  unfold indexedJoinIter.NextIteration
  rw [loadPrimary_loaded]
  simp only []
  rw [loadSecondary_nil]
  have hout : (jt = JoinType.JoinTypeLeft ∨ jt = JoinType.JoinTypeRight) := by
    cases jt <;> simp at hjt ⊢
  have hb : (!(joinState parent sec condv jt leftLen rightLen ps none none false).foundMatch &&
      (decide ((joinState parent sec condv jt leftLen rightLen ps none none false).joinType
          = JoinType.JoinTypeLeft) ||
        decide ((joinState parent sec condv jt leftLen rightLen ps none none false).joinType
          = JoinType.JoinTypeRight))) = true := by
    simpa [joinState] using hout
  simp only [if_true, hb]
  rw [primaryRow_joinState, buildRow_joinState_nil _ _ _ _ _ _ _ _ _ _ _ hp]
  simp only []
  rw [List.append_assoc, stripParent_joinState]

theorem iteration_scan_end_plain (ps : List Row) (p : Row) (fm : Bool)
    (h : fm = true ∨ jt = JoinType.JoinTypeInner) :
    (joinState parent sec condv jt leftLen rightLen ps (some (parent ++ p)) (some [])
        fm).NextIteration
      = (joinState parent sec condv jt leftLen rightLen ps none none fm, none) := by
  unfold indexedJoinIter.NextIteration
  rw [loadPrimary_loaded]
  simp only []
  rw [loadSecondary_nil]
  have hb : (!(joinState parent sec condv jt leftLen rightLen ps none none fm).foundMatch &&
      (decide ((joinState parent sec condv jt leftLen rightLen ps none none fm).joinType
          = JoinType.JoinTypeLeft) ||
        decide ((joinState parent sec condv jt leftLen rightLen ps none none fm).joinType
          = JoinType.JoinTypeRight))) = false := by
    rcases h with h | h
    · subst h; simp [joinState]
    · subst h; simp [joinState]
  simp [hb]

theorem iteration_scan_match (ps : List Row) (p s : Row) (ss : List Row) (fm : Bool)
    (hp : p.length = leftLen) (hs : s.length = rightLen)
    (hc : condv (parent ++ p ++ s) = Value.Bool true) :
    (joinState parent sec condv jt leftLen rightLen ps (some (parent ++ p)) (some (s :: ss))
        fm).NextIteration
      = (joinState parent sec condv jt leftLen rightLen ps (some (parent ++ p)) (some ss) true,
          some (.ret (p ++ s))) := by
  unfold indexedJoinIter.NextIteration
  rw [loadPrimary_loaded]
  simp only []
  rw [loadSecondary_cons, primaryRow_joinState]
  simp only []
  rw [buildRow_joinState _ _ _ _ _ _ _ _ _ _ _ _ hp hs]
  simp only []
  rw [conditionIsTrue_joinState, decide_eq_true hc]
  simp only [Bool.not_true, Bool.false_eq_true, if_false]
  rw [List.append_assoc, stripParent_joinState]
  rfl

theorem iteration_scan_no_match (ps : List Row) (p s : Row) (ss : List Row) (fm : Bool)
    (hp : p.length = leftLen) (hs : s.length = rightLen)
    (hc : condv (parent ++ p ++ s) ≠ Value.Bool true) :
    (joinState parent sec condv jt leftLen rightLen ps (some (parent ++ p)) (some (s :: ss))
        fm).NextIteration
      = (joinState parent sec condv jt leftLen rightLen ps (some (parent ++ p)) (some ss) fm,
          none) := by
  unfold indexedJoinIter.NextIteration
  rw [loadPrimary_loaded]
  simp only []
  rw [loadSecondary_cons, primaryRow_joinState]
  simp only []
  rw [buildRow_joinState _ _ _ _ _ _ _ _ _ _ _ _ hp hs]
  simp only []
  rw [conditionIsTrue_joinState, decide_eq_false hc]
  simp only [Bool.not_false, if_true]

theorem scanOutput_nil_pad (p : Row) (hjt : jt ≠ JoinType.JoinTypeInner) :
    scanOutput parent condv jt rightLen p [] false
      = [p ++ List.replicate rightLen Value.Nil] := by
  simp [scanOutput, nestedLoopMatches, hjt]

theorem scanOutput_nil_plain (p : Row) (fm : Bool)
    (h : fm = true ∨ jt = JoinType.JoinTypeInner) :
    scanOutput parent condv jt rightLen p [] fm = [] := by
  rcases h with h | h <;> simp [scanOutput, nestedLoopMatches, h]

theorem scanOutput_cons_match (p s : Row) (ss : List Row) (fm : Bool)
    (hc : condv (parent ++ p ++ s) = Value.Bool true) :
    scanOutput parent condv jt rightLen p (s :: ss) fm
      = (p ++ s) :: scanOutput parent condv jt rightLen p ss true := by
  simp only [scanOutput, nestedLoopMatches, List.filterMap_cons, hc, if_true]
  simp

theorem scanOutput_cons_no_match (p s : Row) (ss : List Row) (fm : Bool)
    (hc : condv (parent ++ p ++ s) ≠ Value.Bool true) :
    scanOutput parent condv jt rightLen p (s :: ss) fm
      = scanOutput parent condv jt rightLen p ss fm := by
  simp only [scanOutput, nestedLoopMatches, List.filterMap_cons, hc, if_false]

theorem drains_scan (ps : List Row) (p : Row) (hp : p.length = leftLen) (R : List Row)
    (t : Outcome Error Unit)
    (hidle : ∀ fm, Drains (joinState parent sec condv jt leftLen rightLen ps none none fm)
      (R, t)) :
    ∀ (ss : List Row) (fm : Bool), (∀ s ∈ ss, s.length = rightLen) →
      Drains (joinState parent sec condv jt leftLen rightLen ps (some (parent ++ p)) (some ss)
          fm)
        (scanOutput parent condv jt rightLen p ss fm ++ R, t) := by
  intro ss
  induction ss with
  | nil =>
    intro fm _
    by_cases hpad : fm = false ∧ jt ≠ JoinType.JoinTypeInner
    · obtain ⟨hfm, hjt⟩ := hpad
      subst hfm
      rw [scanOutput_nil_pad parent condv jt rightLen p hjt]
      exact Drains.emit _ _ _ _ _
        (iteration_scan_end_pad parent sec condv jt leftLen rightLen ps p hp hjt) (hidle false)
    · have h : fm = true ∨ jt = JoinType.JoinTypeInner := by
        by_cases hfm : fm = true
        · exact Or.inl hfm
        · right
          by_contra hjt
          exact hpad ⟨by simpa using hfm, hjt⟩
      rw [scanOutput_nil_plain parent condv jt rightLen p fm h]
      exact Drains.continue _ _ _
        (iteration_scan_end_plain parent sec condv jt leftLen rightLen ps p fm h) (hidle fm)
  | cons s ss ih =>
    intro fm hs
    have hs1 : s.length = rightLen := hs s (List.mem_cons_self _ _)
    have hs2 : ∀ x ∈ ss, x.length = rightLen := fun x hx => hs x (List.mem_cons_of_mem _ hx)
    by_cases hc : condv (parent ++ p ++ s) = Value.Bool true
    · rw [scanOutput_cons_match parent condv jt rightLen p s ss fm hc]
      exact Drains.emit _ _ _ _ _
        (iteration_scan_match parent sec condv jt leftLen rightLen ps p s ss fm hp hs1 hc)
        (ih true hs2)
    · rw [scanOutput_cons_no_match parent condv jt rightLen p s ss fm hc]
      exact Drains.continue _ _ _
        (iteration_scan_no_match parent sec condv jt leftLen rightLen ps p s ss fm hp hs1 hc)
        (ih fm hs2)

theorem drains_idle (ps : List Row) :
    (∀ p ∈ ps, p.length = leftLen) →
    (∀ p ∈ ps, ∀ s ∈ sec (parent ++ p), s.length = rightLen) →
    ∀ fm, Drains (joinState parent sec condv jt leftLen rightLen ps none none fm)
      (joinOutput parent sec condv jt rightLen ps, .err Error.EOF) := by
  induction ps with
  | nil =>
    intro _ _ fm
    exact Drains.stop _ _ _ (iteration_idle_nil parent sec condv jt leftLen rightLen fm)
  | cons p ps ih =>
    intro hp hs fm
    have ih1 := ih (fun q hq => hp q (List.mem_cons_of_mem _ hq))
      (fun q hq => hs q (List.mem_cons_of_mem _ hq))
    exact Drains.of_iteration_eq _ _ _
      (iteration_idle_cons parent sec condv jt leftLen rightLen p ps fm)
      (drains_scan parent sec condv jt leftLen rightLen ps p (hp p (List.mem_cons_self _ _))
        _ _ ih1 (sec (parent ++ p)) false (hs p (List.mem_cons_self _ _)))

theorem joinOutput_inner (ps : List Row) :
    joinOutput parent sec condv JoinType.JoinTypeInner rightLen ps
      = nestedLoopInner parent sec condv ps := by
  induction ps with
  | nil => rfl
  | cons p ps ih => simp [joinOutput, nestedLoopInner, scanOutput, ih]

theorem joinOutput_outer (hjt : jt ≠ JoinType.JoinTypeInner) (ps : List Row) :
    joinOutput parent sec condv jt rightLen ps
      = nestedLoopOuter parent sec condv rightLen ps := by
  induction ps with
  | nil => rfl
  | cons p ps ih =>
    simp only [joinOutput, nestedLoopOuter, scanOutput, ih]
    by_cases hm : nestedLoopMatches parent condv p (sec (parent ++ p)) = []
    · simp [hm, hjt]
    · simp [hm]

theorem runIndexedJoin_errorFree (ps : List Row)
    (hp : ∀ p ∈ ps, p.length = leftLen)
    (hs : ∀ p ∈ ps, ∀ s ∈ sec (parent ++ p), s.length = rightLen) :
    ∃ k, ∀ n, k ≤ n →
      runIndexedJoin n parent (errorFreeSource (fun _ => ps) leftLen)
          (errorFreeSource sec rightLen) (errorFreeCond condv) jt
        = some (joinOutput parent sec condv jt rightLen ps, .err Error.EOF) := by
  obtain ⟨k, hk⟩ := drains_idle parent sec condv jt leftLen rightLen ps hp hs false
  exact ⟨k, fun n hn => drain_mono _ _ k hk n hn⟩

end JoinStates

/-! ## Claims on the indexed join iterator -/

/-- C1: an INNER indexed join over error-free collaborators whose rows have the widths of
their schemas returns, when `Next` is called until `io.EOF`, exactly the rows of the
reference nested loop (for each primary row in order and each of its secondary rows in
order, the row p ++ s whose predicate on parent ++ p ++ s is boolean true), and then
`io.EOF`; every large enough bound on the loop passes gives this result. -/
theorem indexedJoin_inner_eq_nestedLoop (parent : Row) (ps : List Row) (sec : Row → List Row)
    (condv : Row → Value) (leftLen rightLen : Nat)
    (hp : ∀ p ∈ ps, p.length = leftLen)
    (hs : ∀ p ∈ ps, ∀ s ∈ sec (parent ++ p), s.length = rightLen) :
    ∃ k, ∀ n, k ≤ n →
      runIndexedJoin n parent (errorFreeSource (fun _ => ps) leftLen)
          (errorFreeSource sec rightLen) (errorFreeCond condv) JoinType.JoinTypeInner
        = some (nestedLoopInner parent sec condv ps, .err Error.EOF) := by
  rw [← joinOutput_inner parent sec condv rightLen ps]
  exact runIndexedJoin_errorFree parent sec condv _ leftLen rightLen ps hp hs

theorem indexedJoin_inner_eq_nestedLoop_witness :
    (∀ p ∈ [[Value.Int 1], [Value.Int 2]], p.length = 1)
    ∧ (∀ p ∈ [[Value.Int 1], [Value.Int 2]], ∀ s ∈ exampleSecondary ([] ++ p), s.length = 2)
    ∧ (∃ k, ∀ n, k ≤ n →
        runIndexedJoin n [] (errorFreeSource (fun _ => [[Value.Int 1], [Value.Int 2]]) 1)
            (errorFreeSource exampleSecondary 2) (errorFreeCond exampleCond)
            JoinType.JoinTypeInner
          = some ([[Value.Int 1, Value.Int 1, Value.Str "a"]], .err Error.EOF))
    ∧ runIndexedJoin 8 [] (errorFreeSource (fun _ => [[Value.Int 1], [Value.Int 2]]) 1)
          (errorFreeSource exampleSecondary 2) (errorFreeCond exampleCond)
          JoinType.JoinTypeInner
        = some ([[Value.Int 1, Value.Int 1, Value.Str "a"]], .err Error.EOF) :=
  ⟨by decide, by decide,
   indexedJoin_inner_eq_nestedLoop [] [[Value.Int 1], [Value.Int 2]] exampleSecondary
     exampleCond 1 2 (by decide) (by decide),
   by rfl⟩

/-- C2: a LEFT or RIGHT indexed join over error-free collaborators whose rows have the
widths of their schemas returns, for every primary row in order, its matching rows p ++ s
in secondary order when there is at least one, and otherwise exactly the one row of p
followed by nil in every secondary column; then `io.EOF`. -/
theorem indexedJoin_outer_eq_nestedLoop (parent : Row) (ps : List Row) (sec : Row → List Row)
    (condv : Row → Value) (leftLen rightLen : Nat) (jt : JoinType)
    (hjt : jt = JoinType.JoinTypeLeft ∨ jt = JoinType.JoinTypeRight)
    (hp : ∀ p ∈ ps, p.length = leftLen)
    (hs : ∀ p ∈ ps, ∀ s ∈ sec (parent ++ p), s.length = rightLen) :
    ∃ k, ∀ n, k ≤ n →
      runIndexedJoin n parent (errorFreeSource (fun _ => ps) leftLen)
          (errorFreeSource sec rightLen) (errorFreeCond condv) jt
        = some (nestedLoopOuter parent sec condv rightLen ps, .err Error.EOF) := by
  have hne : jt ≠ JoinType.JoinTypeInner := by
    rcases hjt with h | h <;> simp [h]
  rw [← joinOutput_outer parent sec condv jt rightLen hne ps]
  exact runIndexedJoin_errorFree parent sec condv _ leftLen rightLen ps hp hs

theorem indexedJoin_outer_eq_nestedLoop_witness :
    (∀ p ∈ [[Value.Int 1], [Value.Int 2]], p.length = 1)
    ∧ (∀ p ∈ [[Value.Int 1], [Value.Int 2]], ∀ s ∈ exampleSecondary ([] ++ p), s.length = 2)
    ∧ (∃ k, ∀ n, k ≤ n →
        runIndexedJoin n [] (errorFreeSource (fun _ => [[Value.Int 1], [Value.Int 2]]) 1)
            (errorFreeSource exampleSecondary 2) (errorFreeCond exampleCond)
            JoinType.JoinTypeLeft
          = some ([[Value.Int 1, Value.Int 1, Value.Str "a"],
                   [Value.Int 2, Value.Nil, Value.Nil]], .err Error.EOF))
    ∧ runIndexedJoin 8 [] (errorFreeSource (fun _ => [[Value.Int 1], [Value.Int 2]]) 1)
          (errorFreeSource exampleSecondary 2) (errorFreeCond exampleCond)
          JoinType.JoinTypeLeft
        = some ([[Value.Int 1, Value.Int 1, Value.Str "a"],
                 [Value.Int 2, Value.Nil, Value.Nil]], .err Error.EOF) :=
  ⟨by decide, by decide,
   indexedJoin_outer_eq_nestedLoop [] [[Value.Int 1], [Value.Int 2]] exampleSecondary
     exampleCond 1 2 JoinType.JoinTypeLeft (Or.inl rfl) (by decide) (by decide),
   by rfl⟩

end plan

namespace analyzer

open sql plan

/-! ## Lemmas on `resolveNewAndOldReferences` -/

theorem Decides.bind {α β : Type} {E : Error} {c d : Bool} {x : Outcome Error α}
    {k : α → Outcome Error β} (hx : Decides E c x) (hk : ∀ a, Decides E d (k a)) :
    Decides E (c || d) (x.bind k) := by
  obtain ⟨h1, h2⟩ := hx
  cases c with
  | true =>
    refine ⟨fun _ => ?_, fun h => by simp at h⟩
    rw [h1 rfl]; rfl
  | false =>
    obtain ⟨a, ha⟩ := h2 rfl
    rw [ha]
    simpa [Outcome.bind] using hk a

theorem Decides.ret {α : Type} {E : Error} (a : α) : Decides E false (Outcome.ret a) :=
  ⟨fun h => by simp at h, fun _ => ⟨a, rfl⟩⟩

theorem Decides.congr {α : Type} {E : Error} {c d : Bool} {x : Outcome Error α}
    (h : Decides E c x) (hcd : c = d) : Decides E d x := hcd ▸ h

mutual
theorem transformExprUp_decides (f : Expression → Outcome Error Expression)
    (pseudo : String) (E : Error) (hf : ∀ e, Decides E (Expression.isRef pseudo e) (f e)) :
    ∀ e : Expression, Decides E (Expression.hasRef pseudo e) (TransformExprUp f e)
  | .UnresolvedColumn t c => by
    simpa [TransformExprUp, Expression.hasRef, Expression.isRef] using hf (.UnresolvedColumn t c)
  | .deferredColumn t c => by
    simpa [TransformExprUp, Expression.hasRef, Expression.isRef] using hf (.deferredColumn t c)
  | .triggerColumnRef t c => by
    simpa [TransformExprUp, Expression.hasRef, Expression.isRef] using hf (.triggerColumnRef t c)
  | .SetField l r => by
    have hl := transformExprUp_decides f pseudo E hf l
    have hr := transformExprUp_decides f pseudo E hf r
    have h := Decides.bind hl (fun l1 => Decides.bind hr (fun r1 => hf (.SetField l1 r1)))
    simpa [TransformExprUp, Expression.hasRef, Expression.isRef] using h
  | .Other k cs => by
    have hcs := transformExprUpList_decides f pseudo E hf cs
    have h := Decides.bind hcs (fun cs1 => hf (.Other k cs1))
    simpa [TransformExprUp, Expression.hasRef, Expression.isRef] using h
theorem transformExprUpList_decides (f : Expression → Outcome Error Expression)
    (pseudo : String) (E : Error) (hf : ∀ e, Decides E (Expression.isRef pseudo e) (f e)) :
    ∀ es : List Expression,
      Decides E (Expression.hasRefList pseudo es) (TransformExprUpList f es)
  | [] => by
    simpa [TransformExprUpList, Expression.hasRefList] using
      (Decides.ret (E := E) ([] : List Expression))
  | c :: cs => by
    have hc := transformExprUp_decides f pseudo E hf c
    have hcs := transformExprUpList_decides f pseudo E hf cs
    have h := Decides.bind hc (fun c1 => Decides.bind hcs (fun cs1 => Decides.ret (E := E) (c1 :: cs1)))
    simpa [TransformExprUpList, Expression.hasRefList] using h
end

theorem transformExpressionsWithNode_decides (f : Expression → Outcome Error Expression)
    (pseudo : String) (E : Error) (hf : ∀ e, Decides E (Expression.isRef pseudo e) (f e))
    (n : Node) :
    Decides E
      (match n with
        | .Update _ es => Expression.hasRefList pseudo es
        | .Set es => Expression.hasRefList pseudo es
        | .Other _ es _ => Expression.hasRefList pseudo es
        | _ => false)
      (TransformExpressionsWithNode n (fun _ e => f e)) := by
  cases n with
  | Update child es =>
    have h := Decides.bind (transformExprUpList_decides f pseudo E hf es)
      (fun es1 => Decides.ret (E := E) (Node.Update child es1))
    simpa [TransformExpressionsWithNode] using h
  | Set es =>
    have h := Decides.bind (transformExprUpList_decides f pseudo E hf es)
      (fun es1 => Decides.ret (E := E) (Node.Set es1))
    simpa [TransformExpressionsWithNode] using h
  | Other k es cs =>
    have h := Decides.bind (transformExprUpList_decides f pseudo E hf es)
      (fun es1 => Decides.ret (E := E) (Node.Other k es1 cs))
    simpa [TransformExpressionsWithNode] using h
  | Nil => exact Decides.ret _
  | CreateTrigger a b c d table body e => exact Decides.ret _
  | InsertInto l r => exact Decides.ret _
  | DeleteFrom child => exact Decides.ret _
  | TriggerExecutor l r ev tm d => exact Decides.ret _
  | QueryProcess child => exact Decides.ret _

mutual
theorem transformUp_decides (f : Expression → Outcome Error Expression)
    (pseudo : String) (E : Error) (hf : ∀ e, Decides E (Expression.isRef pseudo e) (f e)) :
    ∀ n : Node, n.noNil = true →
      Decides E (Node.hasRef pseudo n)
        (TransformUp (fun m => TransformExpressionsWithNode m (fun _ e => f e)) n)
  | .Nil, hn => by simp [Node.noNil] at hn
  | .CreateTrigger a b c d table body e, hn => by
    have hn1 : table.noNil = true ∧ body.noNil = true := by simpa [Node.noNil] using hn
    have h := Decides.bind (transformUp_decides f pseudo E hf table hn1.1)
      (fun t1 => Decides.bind (transformUp_decides f pseudo E hf body hn1.2)
        (fun b1 => transformExpressionsWithNode_decides f pseudo E hf
          (.CreateTrigger a b c d t1 b1 e)))
    simpa [TransformUp, Node.hasRef] using h
  | .InsertInto l r, hn => by
    have hn1 : l.noNil = true ∧ r.noNil = true := by simpa [Node.noNil] using hn
    have h := Decides.bind (transformUp_decides f pseudo E hf l hn1.1)
      (fun l1 => Decides.bind (transformUp_decides f pseudo E hf r hn1.2)
        (fun r1 => transformExpressionsWithNode_decides f pseudo E hf (.InsertInto l1 r1)))
    simpa [TransformUp, Node.hasRef] using h
  | .Update child es, hn => by
    have hn1 : child.noNil = true := by simpa [Node.noNil] using hn
    have h := Decides.bind (transformUp_decides f pseudo E hf child hn1)
      (fun c1 => transformExpressionsWithNode_decides f pseudo E hf (.Update c1 es))
    simpa [TransformUp, Node.hasRef] using h
  | .DeleteFrom child, hn => by
    have hn1 : child.noNil = true := by simpa [Node.noNil] using hn
    have h := Decides.bind (transformUp_decides f pseudo E hf child hn1)
      (fun c1 => transformExpressionsWithNode_decides f pseudo E hf (.DeleteFrom c1))
    simpa [TransformUp, Node.hasRef] using h
  | .TriggerExecutor l r ev tm d, hn => by
    have hn1 : l.noNil = true ∧ r.noNil = true := by simpa [Node.noNil] using hn
    have h := Decides.bind (transformUp_decides f pseudo E hf l hn1.1)
      (fun l1 => Decides.bind (transformUp_decides f pseudo E hf r hn1.2)
        (fun r1 => transformExpressionsWithNode_decides f pseudo E hf
          (.TriggerExecutor l1 r1 ev tm d)))
    simpa [TransformUp, Node.hasRef] using h
  | .Set es, _ => by
    have h := transformExpressionsWithNode_decides f pseudo E hf (.Set es)
    simpa [TransformUp, Node.hasRef] using h
  | .QueryProcess child, hn => by
    have hn1 : child.noNil = true := by simpa [Node.noNil] using hn
    have h := Decides.bind (transformUp_decides f pseudo E hf child hn1)
      (fun c1 => transformExpressionsWithNode_decides f pseudo E hf (.QueryProcess c1))
    simpa [TransformUp, Node.hasRef] using h
  | .Other k es cs, hn => by
    have hn1 : Node.noNilList cs = true := by simpa [Node.noNil] using hn
    have h := Decides.bind (transformUpList_decides f pseudo E hf cs hn1)
      (fun cs1 => transformExpressionsWithNode_decides f pseudo E hf (.Other k es cs1))
    simpa [TransformUp, Node.hasRef] using h
theorem transformUpList_decides (f : Expression → Outcome Error Expression)
    (pseudo : String) (E : Error) (hf : ∀ e, Decides E (Expression.isRef pseudo e) (f e)) :
    ∀ ns : List Node, Node.noNilList ns = true →
      Decides E (Node.hasRefList pseudo ns)
        (TransformUpList (fun m => TransformExpressionsWithNode m (fun _ e => f e)) ns)
  | [], _ => by
    simpa [TransformUpList, Node.hasRefList] using (Decides.ret (E := E) ([] : List Node))
  | c :: cs, hn => by
    have hn1 : c.noNil = true ∧ Node.noNilList cs = true := by simpa [Node.noNilList] using hn
    have h := Decides.bind (transformUp_decides f pseudo E hf c hn1.1)
      (fun c1 => Decides.bind (transformUpList_decides f pseudo E hf cs hn1.2)
        (fun cs1 => Decides.ret (E := E) (c1 :: cs1)))
    simpa [TransformUpList, Node.hasRefList] using h
end

theorem resolve_decides_new (event : String) (he : event = sqlparser.DeleteStr) (e : Expression) :
    Decides (Error.ErrInvalidUseOfOldNew "new" event) (Expression.isRef "new" e)
      (resolveNewAndOldReferences.resolve event e) := by
  have hne : ¬ event = sqlparser.InsertStr := by subst he; decide
  cases e with
  | UnresolvedColumn t c =>
    by_cases h : strings.ToLower t = "new"
    · simp [Decides, Expression.isRef, resolveNewAndOldReferences.resolve, h, he]
    · by_cases h2 : strings.ToLower t = "old" <;>
        simp [Decides, Expression.isRef, resolveNewAndOldReferences.resolve, h, h2, hne]
  | deferredColumn t c =>
    by_cases h : strings.ToLower t = "new"
    · simp [Decides, Expression.isRef, resolveNewAndOldReferences.resolve, h, he]
    · by_cases h2 : strings.ToLower t = "old" <;>
        simp [Decides, Expression.isRef, resolveNewAndOldReferences.resolve, h, h2, hne]
  | triggerColumnRef t c => exact Decides.ret _
  | SetField l r => exact Decides.ret _
  | Other k cs => exact Decides.ret _

theorem resolve_decides_old (event : String) (he : event = sqlparser.InsertStr) (e : Expression) :
    Decides (Error.ErrInvalidUseOfOldNew "old" event) (Expression.isRef "old" e)
      (resolveNewAndOldReferences.resolve event e) := by
  have hne : ¬ event = sqlparser.DeleteStr := by subst he; decide
  cases e with
  | UnresolvedColumn t c =>
    by_cases h : strings.ToLower t = "old"
    · have h2 : ¬ strings.ToLower t = "new" := by rw [h]; decide
      simp [Decides, Expression.isRef, resolveNewAndOldReferences.resolve, h, h2, he]
    · by_cases h2 : strings.ToLower t = "new" <;>
        simp [Decides, Expression.isRef, resolveNewAndOldReferences.resolve, h, h2, hne]
  | deferredColumn t c =>
    by_cases h : strings.ToLower t = "old"
    · have h2 : ¬ strings.ToLower t = "new" := by rw [h]; decide
      simp [Decides, Expression.isRef, resolveNewAndOldReferences.resolve, h, h2, he]
    · by_cases h2 : strings.ToLower t = "new" <;>
        simp [Decides, Expression.isRef, resolveNewAndOldReferences.resolve, h, h2, hne]
  | triggerColumnRef t c => exact Decides.ret _
  | SetField l r => exact Decides.ret _
  | Other k cs => exact Decides.ret _

theorem resolveNewAndOldReferences_of_ref (name time event : String)
    (order : Option TriggerOrder) (table body : Node) (createString pseudo : String)
    (htable : table.noNil = true) (hbody : body.noNil = true)
    (hf : ∀ e, Decides (Error.ErrInvalidUseOfOldNew pseudo event) (Expression.isRef pseudo e)
      (resolveNewAndOldReferences.resolve event e))
    (href : body.hasRef pseudo = true) :
    resolveNewAndOldReferences (.CreateTrigger name time event order table body createString)
      = .err (.ErrInvalidUseOfOldNew pseudo event) := by
  have hn : (Node.CreateTrigger name time event order table body createString).noNil = true := by
    simp [Node.noNil, htable, hbody]
  have h := transformUp_decides (resolveNewAndOldReferences.resolve event) pseudo _ hf _ hn
  have hr : (Node.CreateTrigger name time event order table body createString).hasRef pseudo
      = true := by simp [Node.hasRef, href]
  have herr := h.1 hr
  simp only [resolveNewAndOldReferences, TransformExpressionsUp, TransformExpressionsUpWithNode]
  rw [herr]
  rfl

/-! ## Claims on `resolveNewAndOldReferences` -/

/-- C10: for a CreateTrigger node without nil nodes, if the event is DELETE and the body
contains an unresolved or deferred column reference whose table is "new" ignoring case,
or the event is INSERT and the body contains such a reference to "old",
`resolveNewAndOldReferences` returns no node and the error ErrInvalidUseOfOldNew with the
pseudo-table name and the trigger event. -/
theorem resolveNewAndOldReferences_rejects_misuse (name time event : String)
    (order : Option TriggerOrder) (table body : Node) (createString : String)
    (htable : table.noNil = true) (hbody : body.noNil = true) :
    (event = sqlparser.DeleteStr → body.hasRef "new" = true →
      resolveNewAndOldReferences (.CreateTrigger name time event order table body createString)
        = .err (.ErrInvalidUseOfOldNew "new" event))
    ∧ (event = sqlparser.InsertStr → body.hasRef "old" = true →
      resolveNewAndOldReferences (.CreateTrigger name time event order table body createString)
        = .err (.ErrInvalidUseOfOldNew "old" event)) :=
  ⟨fun he href => resolveNewAndOldReferences_of_ref name time event order table body
      createString "new" htable hbody (resolve_decides_new event he) href,
   fun he href => resolveNewAndOldReferences_of_ref name time event order table body
      createString "old" htable hbody (resolve_decides_old event he) href⟩

theorem resolveNewAndOldReferences_rejects_misuse_witness :
    resolveNewAndOldReferences
        (.CreateTrigger "d" sqlparser.BeforeStr sqlparser.DeleteStr none
          (.Other "UnresolvedTable" [] [])
          (.Set [.SetField (.UnresolvedColumn "x" "a")
            (.Other "Plus" [.deferredColumn "NEW" "b", .Other "Literal" []])]) "")
      = .err (.ErrInvalidUseOfOldNew "new" sqlparser.DeleteStr)
    ∧ resolveNewAndOldReferences
        (.CreateTrigger "i" sqlparser.AfterStr sqlparser.InsertStr none
          (.Other "UnresolvedTable" [] [])
          (.Other "Project" [.UnresolvedColumn "new" "a", .UnresolvedColumn "Old" "b"]
            [.Other "Dual" [] []]) "")
      = .err (.ErrInvalidUseOfOldNew "old" sqlparser.InsertStr) :=
  ⟨(resolveNewAndOldReferences_rejects_misuse "d" sqlparser.BeforeStr sqlparser.DeleteStr none
      (.Other "UnresolvedTable" [] [])
      (.Set [.SetField (.UnresolvedColumn "x" "a")
        (.Other "Plus" [.deferredColumn "NEW" "b", .Other "Literal" []])]) "" rfl rfl).1 rfl rfl,
   (resolveNewAndOldReferences_rejects_misuse "i" sqlparser.AfterStr sqlparser.InsertStr none
      (.Other "UnresolvedTable" [] [])
      (.Other "Project" [.UnresolvedColumn "new" "a", .UnresolvedColumn "Old" "b"]
        [.Other "Dual" [] []]) "" rfl rfl).2 rfl rfl⟩

/-! ## Lemmas on `applyTriggers` -/

theorem findRef_none (ref : String) :
    ∀ l : List CreateTrigger, (∀ u ∈ l, u.TriggerName ≠ ref) → findRef ref l = none := by
  intro l
  induction l with
  | nil => intro _; rfl
  | cons u us ih =>
    intro h
    have h1 : ¬ u.TriggerName = ref := h u (List.mem_cons_self _ _)
    simp [findRef, h1, ih (fun v hv => h v (List.mem_cons_of_mem _ hv))]

theorem body_of_none_at (cap i : Nat) (st : OrderState) (u : CreateTrigger)
    (hget : st.triggers[i]? = some u) (hu : u.TriggerOrder = none) :
    OrderTriggers.body cap i st = .ret st := by
  unfold OrderTriggers.body
  simp [hget, hu]

theorem body_of_dangling (cap i : Nat) (st : OrderState) (t : CreateTrigger) (o : TriggerOrder)
    (hget : st.triggers[i]? = some t) (ht : t.TriggerOrder = some o)
    (hd : ∀ u ∈ st.orderedTriggers, u.TriggerName ≠ o.OtherTriggerName) :
    OrderTriggers.body cap i st
      = .panic ("Referenced trigger " ++ o.OtherTriggerName ++ " not found") := by
  have hf : findRef o.OtherTriggerName (st.orderedTriggers.eraseIdx i) = none :=
    findRef_none _ _ (fun u hu => hd u (List.mem_of_mem_eraseIdx hu))
  unfold OrderTriggers.body
  simp [hget, ht, hf]

theorem loop_of_dangling (cap : Nat) (pre post : List CreateTrigger) (t : CreateTrigger)
    (o : TriggerOrder) (hpre : ∀ u ∈ pre, u.TriggerOrder = none) (ht : t.TriggerOrder = some o)
    (hd : ∀ u ∈ pre ++ t :: post, u.TriggerName ≠ o.OtherTriggerName) (k : Nat) :
    ∀ (d i : Nat), i + d = pre.length →
      OrderTriggers.loop cap (d + 1 + k) i ⟨pre ++ t :: post, pre ++ t :: post⟩
        = .panic ("Referenced trigger " ++ o.OtherTriggerName ++ " not found") := by
  intro d
  induction d with
  | zero =>
    intro i hi
    have hget : (pre ++ t :: post)[i]? = some t := getElem?_middle pre post t i (by omega)
    have e : 0 + 1 + k = k + 1 := by omega
    rw [e, OrderTriggers.loop, body_of_dangling cap i _ t o hget ht hd]
  | succ d ih =>
    intro i hi
    have hlt : i < pre.length := by omega
    have hget : (pre ++ t :: post)[i]? = some (pre[i]) := by
      rw [List.getElem?_append_left hlt]
      exact List.getElem?_eq_getElem hlt
    have hu : (pre[i]).TriggerOrder = none := hpre _ (List.getElem_mem hlt)
    have e : d + 1 + 1 + k = (d + 1 + k) + 1 := by omega
    rw [e, OrderTriggers.loop, body_of_none_at cap i _ _ hget hu]
    exact ih (i + 1) (by omega)

theorem OrderTriggers_of_dangling (cap : Nat) (pre post : List CreateTrigger)
    (t : CreateTrigger) (o : TriggerOrder) (hpre : ∀ u ∈ pre, u.TriggerOrder = none)
    (ht : t.TriggerOrder = some o)
    (hd : ∀ u ∈ pre ++ t :: post, u.TriggerName ≠ o.OtherTriggerName) :
    OrderTriggers (pre ++ t :: post) cap
      = .panic ("Referenced trigger " ++ o.OtherTriggerName ++ " not found") := by
  have e : (pre ++ t :: post).length = pre.length + 1 + post.length := by
    simp; omega
  unfold OrderTriggers
  rw [e, loop_of_dangling cap pre post t o hpre ht hd post.length pre.length 0 (by omega)]

theorem applyTriggers_of_affected (a : Analyzer) (n : Node) (scope : Scope)
    (found : List String × String) (db : Database) (defs : List TriggerDefinition)
    (ts : List CreateTrigger)
    (hct : n.isCreateTrigger = false)
    (hins : Inspect n (applyTriggers.visit a) ([], "") = .ret found)
    (hfound : found.1 ≠ [])
    (hdb : a.Database = .ok db) (htr : db.GetTriggers = some (.ok defs))
    (haff : applyTriggers.affectedTriggers a found.1 found.2 defs = .ret ts)
    (hts : ts ≠ []) :
    applyTriggers a n scope
      = (orderTriggersAndReverseAfter ts (a.appendCap ts.length)).bind fun triggers =>
          applyTriggers.apply a n scope triggers n := by
  have h1 : ¬ found.1.length = 0 := by
    intro h; exact hfound (List.eq_nil_of_length_eq_zero h)
  have h2 : ¬ ts.length = 0 := by
    intro h; exact hts (List.eq_nil_of_length_eq_zero h)
  cases n <;>
    first
    | (simp [Node.isCreateTrigger] at hct; done)
    | simp only [applyTriggers, hins, Outcome.bind, h1, if_false, hdb, htr, haff, h2]

mutual
theorem walk_visit_plain (a : Analyzer) :
    ∀ (t : Node) (s : List String × String), t.plain = true →
      Walk (applyTriggers.visit a) s t = .ret s
  | .Nil, _, h => by simp [Node.plain] at h
  | .CreateTrigger _ _ _ _ table body _, s, h => by
    have h1 : table.plain = true ∧ body.plain = true := by simpa [Node.plain] using h
    simp [Walk, applyTriggers.visit, walk_visit_plain a table s h1.1,
      walk_visit_plain a body s h1.2, Outcome.bind]
  | .InsertInto _ _, _, h => by simp [Node.plain] at h
  | .Update _ _, _, h => by simp [Node.plain] at h
  | .DeleteFrom _, _, h => by simp [Node.plain] at h
  | .TriggerExecutor l r _ _ _, s, h => by
    have h1 : l.plain = true ∧ r.plain = true := by simpa [Node.plain] using h
    simp [Walk, applyTriggers.visit, walk_visit_plain a l s h1.1,
      walk_visit_plain a r s h1.2, Outcome.bind]
  | .Set _, s, _ => by simp [Walk, applyTriggers.visit]
  | .QueryProcess child, s, h => by
    have h1 : child.plain = true := by simpa [Node.plain] using h
    simp [Walk, applyTriggers.visit, walk_visit_plain a child s h1, Outcome.bind]
  | .Other _ _ cs, s, h => by
    have h1 : Node.plainList cs = true := by simpa [Node.plain] using h
    simp [Walk, applyTriggers.visit, walkList_visit_plain a cs s h1, Outcome.bind]
theorem walkList_visit_plain (a : Analyzer) :
    ∀ (ts : List Node) (s : List String × String), Node.plainList ts = true →
      WalkList (applyTriggers.visit a) s ts = .ret s
  | [], _, _ => by simp [WalkList]
  | c :: cs, s, h => by
    have h1 : c.plain = true ∧ Node.plainList cs = true := by simpa [Node.plainList] using h
    simp [WalkList, walk_visit_plain a c s h1.1, walkList_visit_plain a cs s h1.2,
      Outcome.bind]
end

theorem inspect_mutation (a : Analyzer) (stmt : Node) (ev : String)
    (hev : stmt.mutationEvent = some ev) (hplain : stmt.childrenPlain = true) :
    Inspect stmt (applyTriggers.visit a) ([], "") = .ret ([a.getTableName stmt], ev) := by
  cases stmt with
  | InsertInto l r =>
    have h1 : l.plain = true ∧ r.plain = true := by simpa [Node.childrenPlain] using hplain
    have h2 : plan.InsertTrigger = ev := by simpa [Node.mutationEvent] using hev
    simp [Inspect, Walk, applyTriggers.visit, walk_visit_plain a l _ h1.1,
      walk_visit_plain a r _ h1.2, Outcome.bind, h2]
  | Update c es =>
    have h1 : c.plain = true := by simpa [Node.childrenPlain] using hplain
    have h2 : plan.UpdateTrigger = ev := by simpa [Node.mutationEvent] using hev
    simp [Inspect, Walk, applyTriggers.visit, walk_visit_plain a c _ h1, Outcome.bind, h2]
  | DeleteFrom c =>
    have h1 : c.plain = true := by simpa [Node.childrenPlain] using hplain
    have h2 : plan.DeleteTrigger = ev := by simpa [Node.mutationEvent] using hev
    simp [Inspect, Walk, applyTriggers.visit, walk_visit_plain a c _ h1, Outcome.bind, h2]
  | Nil => simp [Node.mutationEvent] at hev
  | CreateTrigger _ _ _ _ _ _ _ => simp [Node.mutationEvent] at hev
  | TriggerExecutor _ _ _ _ _ => simp [Node.mutationEvent] at hev
  | Set _ => simp [Node.mutationEvent] at hev
  | QueryProcess _ => simp [Node.mutationEvent] at hev
  | Other _ _ _ => simp [Node.mutationEvent] at hev

theorem wrap_of_not_mutation (tr : CreateTrigger) (logic n parent : Node) (i : Int)
    (h : n.mutationEvent = none) : applyTrigger.wrap tr logic n parent i = .ret n := by
  simp only [applyTrigger.wrap]
  split
  · rfl
  · cases n <;> simp_all [Node.mutationEvent]

theorem wrap_total (tr : CreateTrigger) (logic n parent : Node) (i : Int) :
    ∃ n1, applyTrigger.wrap tr logic n parent i = .ret n1 := by
  simp only [applyTrigger.wrap]
  split
  · exact ⟨_, rfl⟩
  · cases n <;> first | exact ⟨_, rfl⟩ | (simp only []; split <;> exact ⟨_, rfl⟩)

theorem wrap_skip (tr : CreateTrigger) (logic n l r : Node) (ev tm : String)
    (d : TriggerDefinition) :
    applyTrigger.wrap tr logic n (.TriggerExecutor l r ev tm d) 1 = .ret n := by
  simp [applyTrigger.wrap]

theorem wrap_mutation_after (tr : CreateTrigger) (logic stmt parent : Node) (i : Int)
    (ev : String) (hev : stmt.mutationEvent = some ev)
    (htime : tr.TriggerTime ≠ sqlparser.BeforeStr) (hi : i ≠ 1) :
    applyTrigger.wrap tr logic stmt parent i
      = .ret (NewTriggerExecutor stmt logic ev tr.TriggerTime
          ⟨tr.TriggerName, tr.CreateTriggerString⟩) := by
  have hskip : (match parent with
      | .TriggerExecutor _ _ _ _ _ => decide (i = 1)
      | _ => false) = false := by
    cases parent <;> simp [hi]
  simp only [applyTrigger.wrap, hskip]
  cases stmt <;> simp_all [Node.mutationEvent]

mutual
theorem transform_plain (tr : CreateTrigger) (logic : Node) :
    ∀ (t parent : Node) (i : Int), t.plain = true →
      transformUpWithParent (applyTrigger.wrap tr logic) t parent i = .ret t
  | .Nil, _, _, h => by simp [Node.plain] at h
  | .CreateTrigger a b c d table body e, parent, i, h => by
    have h1 : table.plain = true ∧ body.plain = true := by simpa [Node.plain] using h
    simp [transformUpWithParent, transform_plain tr logic table _ _ h1.1,
      transform_plain tr logic body _ _ h1.2, Outcome.bind,
      wrap_of_not_mutation tr logic _ parent i (show
        (Node.CreateTrigger a b c d table body e).mutationEvent = none from rfl)]
  | .InsertInto _ _, _, _, h => by simp [Node.plain] at h
  | .Update _ _, _, _, h => by simp [Node.plain] at h
  | .DeleteFrom _, _, _, h => by simp [Node.plain] at h
  | .TriggerExecutor l r ev tm d, parent, i, h => by
    have h1 : l.plain = true ∧ r.plain = true := by simpa [Node.plain] using h
    simp [transformUpWithParent, transform_plain tr logic l _ _ h1.1,
      transform_plain tr logic r _ _ h1.2, Outcome.bind,
      wrap_of_not_mutation tr logic _ parent i (show
        (Node.TriggerExecutor l r ev tm d).mutationEvent = none from rfl)]
  | .Set es, parent, i, _ => by
    simp [transformUpWithParent,
      wrap_of_not_mutation tr logic _ parent i (show (Node.Set es).mutationEvent = none from rfl)]
  | .QueryProcess child, parent, i, h => by
    have h1 : child.plain = true := by simpa [Node.plain] using h
    simp [transformUpWithParent, transform_plain tr logic child _ _ h1, Outcome.bind,
      wrap_of_not_mutation tr logic _ parent i (show
        (Node.QueryProcess child).mutationEvent = none from rfl)]
  | .Other k es cs, parent, i, h => by
    have h1 : Node.plainList cs = true := by simpa [Node.plain] using h
    simp [transformUpWithParent, transformList_plain tr logic cs _ _ h1, Outcome.bind,
      wrap_of_not_mutation tr logic _ parent i (show
        (Node.Other k es cs).mutationEvent = none from rfl)]
theorem transformList_plain (tr : CreateTrigger) (logic : Node) :
    ∀ (ts : List Node) (parent : Node) (i : Int), Node.plainList ts = true →
      transformUpWithParentList (applyTrigger.wrap tr logic) ts parent i = .ret ts
  | [], _, _, _ => by simp [transformUpWithParentList]
  | c :: cs, parent, i, h => by
    have h1 : c.plain = true ∧ Node.plainList cs = true := by simpa [Node.plainList] using h
    simp [transformUpWithParentList, transform_plain tr logic c _ _ h1.1,
      transformList_plain tr logic cs _ _ h1.2, Outcome.bind]
end

mutual
theorem transform_total (tr : CreateTrigger) (logic : Node) :
    ∀ (t parent : Node) (i : Int), t.noNil = true →
      ∃ t1, transformUpWithParent (applyTrigger.wrap tr logic) t parent i = .ret t1
  | .Nil, _, _, h => by simp [Node.noNil] at h
  | .CreateTrigger a b c d table body e, parent, i, h => by
    have h1 : table.noNil = true ∧ body.noNil = true := by simpa [Node.noNil] using h
    obtain ⟨t1, ht1⟩ := transform_total tr logic table (.CreateTrigger a b c d table body e) 0 h1.1
    obtain ⟨b1, hb1⟩ := transform_total tr logic body (.CreateTrigger a b c d table body e) 1 h1.2
    simpa [transformUpWithParent, ht1, hb1, Outcome.bind] using wrap_total tr logic _ parent i
  | .InsertInto l r, parent, i, h => by
    have h1 : l.noNil = true ∧ r.noNil = true := by simpa [Node.noNil] using h
    obtain ⟨l1, hl1⟩ := transform_total tr logic l (.InsertInto l r) 0 h1.1
    obtain ⟨r1, hr1⟩ := transform_total tr logic r (.InsertInto l r) 1 h1.2
    simpa [transformUpWithParent, hl1, hr1, Outcome.bind] using wrap_total tr logic _ parent i
  | .Update child es, parent, i, h => by
    have h1 : child.noNil = true := by simpa [Node.noNil] using h
    obtain ⟨c1, hc1⟩ := transform_total tr logic child (.Update child es) 0 h1
    simpa [transformUpWithParent, hc1, Outcome.bind] using wrap_total tr logic _ parent i
  | .DeleteFrom child, parent, i, h => by
    have h1 : child.noNil = true := by simpa [Node.noNil] using h
    obtain ⟨c1, hc1⟩ := transform_total tr logic child (.DeleteFrom child) 0 h1
    simpa [transformUpWithParent, hc1, Outcome.bind] using wrap_total tr logic _ parent i
  | .TriggerExecutor l r ev tm d, parent, i, h => by
    have h1 : l.noNil = true ∧ r.noNil = true := by simpa [Node.noNil] using h
    obtain ⟨l1, hl1⟩ := transform_total tr logic l (.TriggerExecutor l r ev tm d) 0 h1.1
    obtain ⟨r1, hr1⟩ := transform_total tr logic r (.TriggerExecutor l r ev tm d) 1 h1.2
    simpa [transformUpWithParent, hl1, hr1, Outcome.bind] using wrap_total tr logic _ parent i
  | .Set es, parent, i, _ => by
    simpa [transformUpWithParent] using wrap_total tr logic (.Set es) parent i
  | .QueryProcess child, parent, i, h => by
    have h1 : child.noNil = true := by simpa [Node.noNil] using h
    obtain ⟨c1, hc1⟩ := transform_total tr logic child (.QueryProcess child) 0 h1
    simpa [transformUpWithParent, hc1, Outcome.bind] using wrap_total tr logic _ parent i
  | .Other k es cs, parent, i, h => by
    have h1 : Node.noNilList cs = true := by simpa [Node.noNil] using h
    obtain ⟨cs1, hcs1⟩ := transformList_total tr logic cs (.Other k es cs) 0 h1
    simpa [transformUpWithParent, hcs1, Outcome.bind] using wrap_total tr logic _ parent i
theorem transformList_total (tr : CreateTrigger) (logic : Node) :
    ∀ (ts : List Node) (parent : Node) (i : Int), Node.noNilList ts = true →
      ∃ ts1, transformUpWithParentList (applyTrigger.wrap tr logic) ts parent i = .ret ts1
  | [], _, _, _ => ⟨[], by simp [transformUpWithParentList]⟩
  | c :: cs, parent, i, h => by
    have h1 : c.noNil = true ∧ Node.noNilList cs = true := by simpa [Node.noNilList] using h
    obtain ⟨c1, hc1⟩ := transform_total tr logic c parent i h1.1
    obtain ⟨cs1, hcs1⟩ := transformList_total tr logic cs parent (i + 1) h1.2
    exact ⟨c1 :: cs1, by simp [transformUpWithParentList, hc1, hcs1, Outcome.bind]⟩
end

theorem transform_body_childrenPlain (tr : CreateTrigger) (logic body l r : Node)
    (ev tm : String) (d : TriggerDefinition) (h : body.childrenPlain = true) :
    transformUpWithParent (applyTrigger.wrap tr logic) body (.TriggerExecutor l r ev tm d) 1
      = .ret body := by
  cases body with
  | Nil => simp [Node.childrenPlain] at h
  | CreateTrigger a b c d1 table bd e =>
    have h1 : table.plain = true ∧ bd.plain = true := by simpa [Node.childrenPlain] using h
    simp [transformUpWithParent, transform_plain tr logic table _ _ h1.1,
      transform_plain tr logic bd _ _ h1.2, Outcome.bind, wrap_skip]
  | InsertInto l1 r1 =>
    have h1 : l1.plain = true ∧ r1.plain = true := by simpa [Node.childrenPlain] using h
    simp [transformUpWithParent, transform_plain tr logic l1 _ _ h1.1,
      transform_plain tr logic r1 _ _ h1.2, Outcome.bind, wrap_skip]
  | Update c es =>
    have h1 : c.plain = true := by simpa [Node.childrenPlain] using h
    simp [transformUpWithParent, transform_plain tr logic c _ _ h1, Outcome.bind, wrap_skip]
  | DeleteFrom c =>
    have h1 : c.plain = true := by simpa [Node.childrenPlain] using h
    simp [transformUpWithParent, transform_plain tr logic c _ _ h1, Outcome.bind, wrap_skip]
  | TriggerExecutor l1 r1 ev1 tm1 d1 =>
    have h1 : l1.plain = true ∧ r1.plain = true := by simpa [Node.childrenPlain] using h
    simp [transformUpWithParent, transform_plain tr logic l1 _ _ h1.1,
      transform_plain tr logic r1 _ _ h1.2, Outcome.bind, wrap_skip]
  | Set es => simp [transformUpWithParent, wrap_skip]
  | QueryProcess c =>
    have h1 : c.plain = true := by simpa [Node.childrenPlain] using h
    simp [transformUpWithParent, transform_plain tr logic c _ _ h1, Outcome.bind, wrap_skip]
  | Other k es cs =>
    have h1 : Node.plainList cs = true := by simpa [Node.childrenPlain] using h
    simp [transformUpWithParent, transformList_plain tr logic cs _ _ h1, Outcome.bind, wrap_skip]

theorem transform_mutation_after (tr : CreateTrigger) (logic stmt parent : Node) (i : Int)
    (ev : String) (hev : stmt.mutationEvent = some ev) (hplain : stmt.childrenPlain = true)
    (htime : tr.TriggerTime ≠ sqlparser.BeforeStr) (hi : i ≠ 1) :
    transformUpWithParent (applyTrigger.wrap tr logic) stmt parent i
      = .ret (NewTriggerExecutor stmt logic ev tr.TriggerTime
          ⟨tr.TriggerName, tr.CreateTriggerString⟩) := by
  have hw := wrap_mutation_after tr logic stmt parent i ev hev htime hi
  cases stmt with
  | InsertInto l r =>
    have h1 : l.plain = true ∧ r.plain = true := by simpa [Node.childrenPlain] using hplain
    simp [transformUpWithParent, transform_plain tr logic l _ _ h1.1,
      transform_plain tr logic r _ _ h1.2, Outcome.bind, hw]
  | Update c es =>
    have h1 : c.plain = true := by simpa [Node.childrenPlain] using hplain
    simp [transformUpWithParent, transform_plain tr logic c _ _ h1, Outcome.bind, hw]
  | DeleteFrom c =>
    have h1 : c.plain = true := by simpa [Node.childrenPlain] using hplain
    simp [transformUpWithParent, transform_plain tr logic c _ _ h1, Outcome.bind, hw]
  | Nil => simp [Node.mutationEvent] at hev
  | CreateTrigger _ _ _ _ _ _ _ => simp [Node.mutationEvent] at hev
  | TriggerExecutor _ _ _ _ _ => simp [Node.mutationEvent] at hev
  | Set _ => simp [Node.mutationEvent] at hev
  | QueryProcess _ => simp [Node.mutationEvent] at hev
  | Other _ _ _ => simp [Node.mutationEvent] at hev

/-! ## Claims on `applyTriggers` -/

/-- C6: with the one stored trigger A, an INSERT trigger on the inserted table that
FOLLOWS a trigger Z that does not exist, `applyTriggers` on an insert ends by the panic
"Referenced trigger Z not found": it returns no error value. -/
theorem applyTriggers_dangling_panics :
    applyTriggers (exampleAnalyzer [⟨"A", "A"⟩] exampleParse) exampleInsert ⟨[], []⟩
      = .panic "Referenced trigger Z not found"
    ∧ ¬ ∃ e, applyTriggers (exampleAnalyzer [⟨"A", "A"⟩] exampleParse) exampleInsert ⟨[], []⟩
      = .err e := by
  have h : applyTriggers (exampleAnalyzer [⟨"A", "A"⟩] exampleParse) exampleInsert ⟨[], []⟩
      = .panic "Referenced trigger Z not found" := by rfl
  refine ⟨h, ?_⟩
  rintro ⟨e, he⟩
  rw [h] at he
  cases he

/-- C6, amended: when the matching triggers of a statement are pre ++ t :: post, no trigger
of pre carries a directive and the directive of t names a trigger that is not in the list,
`applyTriggers` ends by the panic "Referenced trigger <name> not found" raised in
`OrderTriggers`; it returns neither a node nor an error value. -/
theorem applyTriggers_dangling_reference_panics (a : Analyzer) (n : Node) (scope : Scope)
    (found : List String × String) (db : Database) (defs : List TriggerDefinition)
    (pre post : List CreateTrigger) (t : CreateTrigger) (o : TriggerOrder)
    (hct : n.isCreateTrigger = false)
    (hins : Inspect n (applyTriggers.visit a) ([], "") = .ret found)
    (hfound : found.1 ≠ [])
    (hdb : a.Database = .ok db) (htr : db.GetTriggers = some (.ok defs))
    (haff : applyTriggers.affectedTriggers a found.1 found.2 defs = .ret (pre ++ t :: post))
    (hpre : ∀ u ∈ pre, u.TriggerOrder = none) (ht : t.TriggerOrder = some o)
    (hd : ∀ u ∈ pre ++ t :: post, u.TriggerName ≠ o.OtherTriggerName) :
    applyTriggers a n scope
      = .panic ("Referenced trigger " ++ o.OtherTriggerName ++ " not found") := by
  rw [applyTriggers_of_affected a n scope found db defs (pre ++ t :: post) hct hins hfound hdb
    htr haff (by simp)]
  unfold orderTriggersAndReverseAfter
  rw [OrderTriggers_of_dangling _ pre post t o hpre ht hd]
  rfl

theorem applyTriggers_dangling_reference_panics_witness :
    applyTriggers
        (exampleAnalyzer [⟨"X", "X"⟩, ⟨"A", "A"⟩, ⟨"Y", "Y"⟩] exampleParse) exampleInsert
        ⟨[], []⟩
      = .panic ("Referenced trigger " ++ "Z" ++ " not found") :=
  applyTriggers_dangling_reference_panics
    (exampleAnalyzer [⟨"X", "X"⟩, ⟨"A", "A"⟩, ⟨"Y", "Y"⟩] exampleParse) exampleInsert ⟨[], []⟩
    (["t"], plan.InsertTrigger) { GetTriggers := some (.ok [⟨"X", "X"⟩, ⟨"A", "A"⟩, ⟨"Y", "Y"⟩]) }
    [⟨"X", "X"⟩, ⟨"A", "A"⟩, ⟨"Y", "Y"⟩]
    [⟨"X", sqlparser.AfterStr, sqlparser.InsertStr, none, .Other "UnresolvedTable" [] [],
      .Other "BodyX" [] [], "X"⟩]
    [⟨"Y", sqlparser.AfterStr, sqlparser.InsertStr, none, .Other "UnresolvedTable" [] [],
      .Other "BodyY" [] [], "Y"⟩]
    ⟨"A", sqlparser.BeforeStr, sqlparser.InsertStr, some ⟨sqlparser.FollowsStr, "Z"⟩,
      .Other "UnresolvedTable" [] [], .Other "Body" [] [], "A"⟩
    ⟨sqlparser.FollowsStr, "Z"⟩
    rfl rfl (by simp) rfl rfl (by rfl) (by simp) rfl (by simp)

/-- C8: for a statement that is a single insert, update or delete node and two matching
AFTER triggers declared [X, Y] without directives, whose bodies are analysed without error
and update no table in use, `applyTriggers` returns the executor of Y around the executor
of X around the statement: X's executor directly wraps the mutating node and carries X's
logic, and the body of the outer executor is Y's logic (as it is when Y's logic has no
insert, update or delete below its root, and otherwise with those wrapped for X). -/
theorem applyTriggers_after_nesting (a : Analyzer) (scope : Scope) (stmt : Node) (ev : String)
    (db : Database) (defs : List TriggerDefinition) (X Y : CreateTrigger)
    (logicX logicY : Node)
    (hev : stmt.mutationEvent = some ev) (hplain : stmt.childrenPlain = true)
    (hdb : a.Database = .ok db) (htr : db.GetTriggers = some (.ok defs))
    (haff : applyTriggers.affectedTriggers a [a.getTableName stmt] ev defs = .ret [X, Y])
    (hXo : X.TriggerOrder = none) (hYo : Y.TriggerOrder = none)
    (hXt : X.TriggerTime = sqlparser.AfterStr) (hYt : Y.TriggerTime = sqlparser.AfterStr)
    (hXc : validateNoCircularUpdates a X stmt scope = .ret none)
    (hYc : validateNoCircularUpdates a Y stmt scope = .ret none)
    (hXl : getTriggerLogic a stmt scope X = .ok logicX)
    (hYl : getTriggerLogic a stmt scope Y = .ok logicY)
    (hYn : logicY.noNil = true) :
    ∃ bodyY,
      applyTriggers a stmt scope
        = .ret (NewTriggerExecutor
            (NewTriggerExecutor stmt logicX ev X.TriggerTime
              ⟨X.TriggerName, X.CreateTriggerString⟩)
            bodyY ev Y.TriggerTime ⟨Y.TriggerName, Y.CreateTriggerString⟩)
      ∧ (logicY.childrenPlain = true → bodyY = logicY) := by
  have hct : stmt.isCreateTrigger = false := by
    cases stmt <;> simp_all [Node.mutationEvent, Node.isCreateTrigger]
  have hXb : X.TriggerTime ≠ sqlparser.BeforeStr := by rw [hXt]; decide
  have hYb : Y.TriggerTime ≠ sqlparser.BeforeStr := by rw [hYt]; decide
  have hord : orderTriggersAndReverseAfter [X, Y] (a.appendCap [X, Y].length) = .ret [Y, X] := by
    have hnone : ∀ u ∈ [X, Y], u.TriggerOrder = none := by
      intro u hu
      simp only [List.mem_cons, List.mem_singleton, List.not_mem_nil, or_false] at hu
      rcases hu with h | h <;> simp [h, hXo, hYo]
    have hloop := loop_of_no_directive (a.appendCap 2) 2 0 ⟨[X, Y], [X, Y]⟩ hnone
    have hrev : reverseLoop 2 0 1 [X, Y] = [Y, X] := rfl
    simp [orderTriggersAndReverseAfter, OrderTriggers, hloop, OrderTriggers.split, hXb, hYb,
      hrev]
  set teY := NewTriggerExecutor stmt logicY ev Y.TriggerTime
    ⟨Y.TriggerName, Y.CreateTriggerString⟩ with hteY
  have hY1 : applyTrigger a stmt stmt scope Y = .ret teY := by
    simp only [applyTrigger, hYl, TransformUpWithParent]
    exact transform_mutation_after Y logicY stmt .Nil (-1) ev hev hplain hYb (by decide)
  obtain ⟨bodyY, hbody⟩ := transform_total X logicX logicY teY 1 hYn
  have hbody2 : logicY.childrenPlain = true → bodyY = logicY := by
    intro hcp
    have h := transform_body_childrenPlain X logicX logicY stmt logicY ev Y.TriggerTime
      ⟨Y.TriggerName, Y.CreateTriggerString⟩ hcp
    rw [hteY, NewTriggerExecutor, h] at hbody
    cases hbody
    rfl
  have hX1 : applyTrigger a stmt teY scope X
      = .ret (NewTriggerExecutor
          (NewTriggerExecutor stmt logicX ev X.TriggerTime
            ⟨X.TriggerName, X.CreateTriggerString⟩)
          bodyY ev Y.TriggerTime ⟨Y.TriggerName, Y.CreateTriggerString⟩) := by
    have hl := transform_mutation_after X logicX stmt teY 0 ev hev hplain hXb (by decide)
    have hw : ∀ l r : Node, applyTrigger.wrap X logicX
        (.TriggerExecutor l r ev Y.TriggerTime ⟨Y.TriggerName, Y.CreateTriggerString⟩)
        .Nil (-1)
        = .ret (.TriggerExecutor l r ev Y.TriggerTime
            ⟨Y.TriggerName, Y.CreateTriggerString⟩) :=
      fun l r => wrap_of_not_mutation X logicX _ _ _ rfl
    rw [hteY, NewTriggerExecutor] at hl hbody
    simp only [applyTrigger, hXl, TransformUpWithParent]
    rw [hteY]
    simp only [NewTriggerExecutor, transformUpWithParent, hl, hbody, Outcome.bind, hw]
  refine ⟨bodyY, ?_, hbody2⟩
  rw [applyTriggers_of_affected a stmt scope ([a.getTableName stmt], ev) db defs [X, Y] hct
    (inspect_mutation a stmt ev hev hplain) (by simp) hdb htr haff (by simp), hord]
  simp only [Outcome.bind, applyTriggers.apply, hYc, hY1, hXc, hX1]

theorem applyTriggers_after_nesting_witness :
    ∃ bodyY,
      applyTriggers (exampleAnalyzer [⟨"X", "X"⟩, ⟨"Y", "Y"⟩] exampleParse) exampleInsert
          ⟨[], []⟩
        = .ret (NewTriggerExecutor
            (NewTriggerExecutor exampleInsert (.Other "BodyX" [] []) plan.InsertTrigger
              sqlparser.AfterStr ⟨"X", "X"⟩)
            bodyY plan.InsertTrigger sqlparser.AfterStr ⟨"Y", "Y"⟩)
      ∧ ((Node.Other "BodyY" [] []).childrenPlain = true → bodyY = .Other "BodyY" [] []) :=
  applyTriggers_after_nesting
    (exampleAnalyzer [⟨"X", "X"⟩, ⟨"Y", "Y"⟩] exampleParse) ⟨[], []⟩ exampleInsert
    plan.InsertTrigger { GetTriggers := some (.ok [⟨"X", "X"⟩, ⟨"Y", "Y"⟩]) }
    [⟨"X", "X"⟩, ⟨"Y", "Y"⟩]
    ⟨"X", sqlparser.AfterStr, sqlparser.InsertStr, none, .Other "UnresolvedTable" [] [],
      .Other "BodyX" [] [], "X"⟩
    ⟨"Y", sqlparser.AfterStr, sqlparser.InsertStr, none, .Other "UnresolvedTable" [] [],
      .Other "BodyY" [] [], "Y"⟩
    (.Other "BodyX" [] []) (.Other "BodyY" [] [])
    rfl rfl rfl rfl (by rfl) rfl rfl rfl rfl (by rfl) (by rfl) (by rfl) (by rfl) rfl

end analyzer

namespace plan

open sql

/-! ## Claims on `Close`, `conditionIsTrue`, error propagation and `WithChildren` -/

/-- C13: on an iterator with a live secondary cursor, `Close` calls `Close` on the primary
and then on the secondary cursor, whatever the primary returned; it returns the error of
the primary when that is not nil, and otherwise what the secondary's `Close` returned. -/
theorem Close_attempts_both (i : indexedJoinIter) (s : RowIter) (hs : i.secondary = some s) :
    i.Close.2.2 = [Cursor.primary, Cursor.secondary]
    ∧ (∀ e, i.primary.Close = some e → i.Close.2.1 = some e)
    ∧ (i.primary.Close = none → i.Close.2.1 = s.Close) := by
  refine ⟨?_, ?_, ?_⟩
  · unfold indexedJoinIter.Close
    cases h : i.primary.Close <;> simp [hs]
  · intro e he
    unfold indexedJoinIter.Close
    simp [he, hs]
  · intro he
    unfold indexedJoinIter.Close
    simp [he, hs]

theorem Close_attempts_both_witness :
    (exampleIter ⟨[], some (Error.Other "primary")⟩ (some ⟨[], some (Error.Other "secondary")⟩)
        (fun _ => .error (Error.Other "unused")) (fun _ => .ok Value.Nil)).Close.2
      = (some (Error.Other "primary"), [Cursor.primary, Cursor.secondary])
    ∧ (exampleIter ⟨[], none⟩ (some ⟨[], some (Error.Other "secondary")⟩)
        (fun _ => .error (Error.Other "unused")) (fun _ => .ok Value.Nil)).Close.2.1
      = some (Error.Other "secondary") :=
  ⟨Prod.ext
      ((Close_attempts_both
        (exampleIter ⟨[], some (Error.Other "primary")⟩
          (some ⟨[], some (Error.Other "secondary")⟩)
          (fun _ => .error (Error.Other "unused")) (fun _ => .ok Value.Nil))
        ⟨[], some (Error.Other "secondary")⟩ rfl).2.1 _ rfl)
      (Close_attempts_both
        (exampleIter ⟨[], some (Error.Other "primary")⟩
          (some ⟨[], some (Error.Other "secondary")⟩)
          (fun _ => .error (Error.Other "unused")) (fun _ => .ok Value.Nil))
        ⟨[], some (Error.Other "secondary")⟩ rfl).1,
   (Close_attempts_both
      (exampleIter ⟨[], none⟩ (some ⟨[], some (Error.Other "secondary")⟩)
        (fun _ => .error (Error.Other "unused")) (fun _ => .ok Value.Nil))
      ⟨[], some (Error.Other "secondary")⟩ rfl).2.2 rfl⟩

/-- C14: `conditionIsTrue` returns (true, nil) exactly when the predicate evaluates
without error to the boolean true; when it evaluates to any other value (nil, false, a
value that is not a boolean) the result is (false, nil), and when the evaluation fails
with the error e the result is (false, e). -/
theorem conditionIsTrue_spec (row : Row) (cond : Row → Except Error Value) :
    (conditionIsTrue row cond = (true, none) ↔ cond row = .ok (Value.Bool true))
    ∧ (∀ v, cond row = .ok v → v ≠ Value.Bool true → conditionIsTrue row cond = (false, none))
    ∧ (∀ e, cond row = .error e → conditionIsTrue row cond = (false, some e)) := by
  refine ⟨?_, ?_, ?_⟩
  · unfold conditionIsTrue
    cases h : cond row with
    | error e => simp
    | ok v => simp
  · intro v hv hne
    simp [conditionIsTrue, hv, hne]
  · intro e he
    simp [conditionIsTrue, he]

theorem conditionIsTrue_spec_witness :
    conditionIsTrue [Value.Int 1] (fun _ => .ok Value.Nil) = (false, none)
    ∧ conditionIsTrue [Value.Int 1] (fun _ => .ok (Value.Int 1)) = (false, none)
    ∧ conditionIsTrue [Value.Int 1] (fun _ => .ok (Value.Bool false)) = (false, none)
    ∧ conditionIsTrue [Value.Int 1] (fun _ => .error (Error.Other "eval"))
        = (false, some (Error.Other "eval"))
    ∧ conditionIsTrue [Value.Int 1] (fun _ => .ok (Value.Bool true)) = (true, none) :=
  ⟨(conditionIsTrue_spec [Value.Int 1] (fun _ => .ok Value.Nil)).2.1 _ rfl (by decide),
   (conditionIsTrue_spec [Value.Int 1] (fun _ => .ok (Value.Int 1))).2.1 _ rfl (by decide),
   (conditionIsTrue_spec [Value.Int 1] (fun _ => .ok (Value.Bool false))).2.1 _ rfl (by decide),
   (conditionIsTrue_spec [Value.Int 1] (fun _ => .error (Error.Other "eval"))).2.2 _ rfl,
   (conditionIsTrue_spec [Value.Int 1] (fun _ => .ok (Value.Bool true))).1.2 rfl⟩

theorem Next_of_afterPasses (j : Nat) :
    ∀ (start s s1 : indexedJoinIter) (r : Outcome Error Row),
      start.afterPasses j = some s → s.NextIteration = (s1, some r) →
      ∀ k, j < k → start.Next k = some (s1, r) := by
  induction j with
  | zero =>
    intro start s s1 r hs hit k hk
    simp only [indexedJoinIter.afterPasses, Option.some.injEq] at hs
    subst hs
    obtain ⟨k1, rfl⟩ : ∃ k1, k = k1 + 1 := ⟨k - 1, by omega⟩
    rw [indexedJoinIter.Next, hit]
  | succ j ih =>
    intro start s s1 r hs hit k hk
    obtain ⟨k1, rfl⟩ : ∃ k1, k = k1 + 1 := ⟨k - 1, by omega⟩
    rw [indexedJoinIter.afterPasses] at hs
    rw [indexedJoinIter.Next]
    cases hstart : start.NextIteration with
    | mk i1 o =>
      rw [hstart] at hs
      cases o with
      | some v => simp at hs
      | none => exact ih i1 s s1 r (by simpa using hs) hit k1 (by omega)

/-- C15: when, in a pass through the loop of `Next` (after any number of passes of the
same call that continued), the primary cursor's `Next` returns an error e (`io.EOF`
included), or building the secondary cursor or the secondary cursor's `Next` returns an
error e other than `io.EOF`, or the predicate evaluation returns an error e, the call of
`Next` returns that error e and no row; the failing cursor has been asked once. -/
theorem Next_propagates_errors (start s : indexedJoinIter) (j : Nat) (e : Error)
    (hs : start.afterPasses j = some s) :
    (s.primaryRow = none → s.primary.Next.1 = .error e →
      ∀ k, j < k → start.Next k = some ({ s with primary := s.primary.Next.2 }, .err e))
    ∧ (s.loadPrimary.2 = none → s.loadPrimary.1.secondary = none →
        s.loadPrimary.1.secondaryProvider (s.loadPrimary.1.primaryRow.getD []) = .error e →
        e ≠ Error.EOF →
        ∀ k, j < k → start.Next k = some (s.loadPrimary.1, .err e))
    ∧ (∀ c : RowIter, s.loadPrimary.2 = none →
        (s.loadPrimary.1.secondary = some c ∨
          (s.loadPrimary.1.secondary = none ∧
            s.loadPrimary.1.secondaryProvider (s.loadPrimary.1.primaryRow.getD []) = .ok c)) →
        c.Next.1 = .error e → e ≠ Error.EOF →
        ∀ k, j < k →
          start.Next k = some ({ s.loadPrimary.1 with secondary := some c.Next.2 }, .err e))
    ∧ (∀ (s2 : indexedJoinIter) (secondaryRow row : Row), s.loadPrimary.2 = none →
        s.loadPrimary.1.loadSecondary = (s2, .ok secondaryRow) →
        s2.buildRow (s.loadPrimary.1.primaryRow.getD []) secondaryRow = .ret row →
        s2.cond row = .error e →
        ∀ k, j < k → start.Next k = some (s2, .err e)) := by
  refine ⟨?_, ?_, ?_, ?_⟩
  · intro hrow hnext k hk
    refine Next_of_afterPasses j start s _ _ hs ?_ k hk
    have hlp : s.loadPrimary = ({ s with primary := s.primary.Next.2 }, some e) := by
      unfold indexedJoinIter.loadPrimary
      rw [hrow]
      cases hn : s.primary.Next with
      | mk r p =>
        rw [hn] at hnext
        simp only at hnext
        subst hnext
        rfl
    unfold indexedJoinIter.NextIteration
    rw [hlp]
  · intro hlp hsec hprov hne k hk
    refine Next_of_afterPasses j start s _ _ hs ?_ k hk
    have hls : s.loadPrimary.1.loadSecondary = (s.loadPrimary.1, .error e) := by
      unfold indexedJoinIter.loadSecondary
      simp [hsec, hprov]
    unfold indexedJoinIter.NextIteration
    cases hp : s.loadPrimary with
    | mk s1 o =>
      rw [hp] at hlp hls
      simp only at hlp hls
      subst hlp
      simp only [hls, hne, if_false]
  · intro c hlp hc hnext hne k hk
    refine Next_of_afterPasses j start s _ _ hs ?_ k hk
    have hls : s.loadPrimary.1.loadSecondary
        = ({ s.loadPrimary.1 with secondary := some c.Next.2 }, .error e) := by
      unfold indexedJoinIter.loadSecondary
      rcases hc with hc | ⟨hc, hprov⟩
      · cases hn : c.Next with
        | mk r c1 =>
          rw [hn] at hnext
          simp only at hnext
          subst hnext
          simp [hc, hn, hne]
      · cases hn : c.Next with
        | mk r c1 =>
          rw [hn] at hnext
          simp only at hnext
          subst hnext
          simp [hc, hprov, hn, hne]
    unfold indexedJoinIter.NextIteration
    cases hp : s.loadPrimary with
    | mk s1 o =>
      rw [hp] at hlp hls
      simp only at hlp hls
      subst hlp
      simp only [hls, hne, if_false]
  · intro s2 secondaryRow row hlp hls hbuild hcond k hk
    refine Next_of_afterPasses j start s _ _ hs ?_ k hk
    unfold indexedJoinIter.NextIteration
    cases hp : s.loadPrimary with
    | mk s1 o =>
      rw [hp] at hlp hls hbuild
      simp only at hlp hls hbuild
      subst hlp
      simp only [hls, hbuild, conditionIsTrue, hcond]

/-- C16: `WithChildren` fails with ErrInvalidChildrenNumber exactly when the number of
children is not 2; on two children it returns an IndexedJoin with the first as primary,
the second as secondary and the join type and condition of the receiver; the receiver is
unchanged. -/
theorem WithChildren_spec (ij : IndexedJoin) (cs : List Node) :
    (cs.length ≠ 2 → (ij.WithChildren cs).1 = .error (.ErrInvalidChildrenNumber cs.length 2))
    ∧ (∀ c0 c1, cs = [c0, c1] →
        (ij.WithChildren cs).1
          = .ok { left := c0, right := c1, Cond := ij.Cond, joinType := ij.joinType })
    ∧ (cs.length = 2 → ∃ c0 c1, cs = [c0, c1])
    ∧ (ij.WithChildren cs).2 = ij := by
  refine ⟨?_, ?_, ?_, ?_⟩
  · intro h
    match cs, h with
    | [], _ => rfl
    | [_], _ => rfl
    | [_, _], h => simp at h
    | _ :: _ :: _ :: _, _ => rfl
  · rintro c0 c1 rfl
    rfl
  · intro h
    match cs, h with
    | [c0, c1], _ => exact ⟨c0, c1, rfl⟩
  · match cs with
    | [] => rfl
    | [_] => rfl
    | [_, _] => rfl
    | _ :: _ :: _ :: _ => rfl

theorem WithChildren_spec_witness :
    (NewIndexedJoin (.Other "a" [] []) (.Other "b" [] []) JoinType.JoinTypeLeft
        (.Other "eq" [])).WithChildren [.Other "c" [] [], .Other "d" [] []]
      = (.ok (NewIndexedJoin (.Other "c" [] []) (.Other "d" [] []) JoinType.JoinTypeLeft
          (.Other "eq" [])),
         NewIndexedJoin (.Other "a" [] []) (.Other "b" [] []) JoinType.JoinTypeLeft
          (.Other "eq" []))
    ∧ ((NewIndexedJoin (.Other "a" [] []) (.Other "b" [] []) JoinType.JoinTypeLeft
        (.Other "eq" [])).WithChildren [.Other "c" [] []]).1
      = .error (.ErrInvalidChildrenNumber 1 2) :=
  ⟨Prod.ext
    ((WithChildren_spec (NewIndexedJoin (.Other "a" [] []) (.Other "b" [] [])
      JoinType.JoinTypeLeft (.Other "eq" [])) [.Other "c" [] [], .Other "d" [] []]).2.1 _ _ rfl)
    (WithChildren_spec (NewIndexedJoin (.Other "a" [] []) (.Other "b" [] [])
      JoinType.JoinTypeLeft (.Other "eq" [])) [.Other "c" [] [], .Other "d" [] []]).2.2.2,
   (WithChildren_spec (NewIndexedJoin (.Other "a" [] []) (.Other "b" [] [])
      JoinType.JoinTypeLeft (.Other "eq" [])) [.Other "c" [] []]).1 (by decide)⟩

end plan

namespace plan

open sql

theorem Next_propagates_errors_witness :
    (∃ s,
      (exampleIter ⟨[.ok [Value.Int 1], .error (Error.Other "disk")], none⟩ none
          (fun _ => .ok ⟨[], none⟩) (fun _ => .ok Value.Nil)).afterPasses 1 = some s
      ∧ ∀ k, 1 < k →
        (exampleIter ⟨[.ok [Value.Int 1], .error (Error.Other "disk")], none⟩ none
            (fun _ => .ok ⟨[], none⟩) (fun _ => .ok Value.Nil)).Next k
          = some ({ s with primary := s.primary.Next.2 }, .err (Error.Other "disk")))
    ∧ (exampleIter ⟨[.ok [Value.Int 1], .error (Error.Other "disk")], none⟩ none
          (fun _ => .ok ⟨[], none⟩) (fun _ => .ok Value.Nil)).Next 2
        = some (exampleIter ⟨[], none⟩ none (fun _ => .ok ⟨[], none⟩) (fun _ => .ok Value.Nil),
            .err (Error.Other "disk")) :=
  ⟨⟨_, rfl,
    (Next_propagates_errors
      (exampleIter ⟨[.ok [Value.Int 1], .error (Error.Other "disk")], none⟩ none
        (fun _ => .ok ⟨[], none⟩) (fun _ => .ok Value.Nil)) _ 1 (Error.Other "disk") rfl).1
      rfl rfl⟩,
   rfl⟩

end plan

namespace analyzer

open sql plan

/-! ## Lemmas and claims on `validateNoCircularUpdates` -/

theorem marks_bind {c d : Bool} {s : Option Error} {x : Outcome Error (Option Error)}
    {k : Option Error → Outcome Error (Option Error)}
    (hx : Marks c s x) (hk : ∀ s1, Marks d s1 (k s1)) : Marks (c || d) s (x.bind k) := by
  obtain ⟨s1, hx1, hc1, hc2⟩ := hx
  obtain ⟨s2, hk1, hd1, hd2⟩ := hk s1
  refine ⟨s2, by rw [hx1]; exact hk1, ?_, ?_⟩
  · intro h
    cases d with
    | true => exact hd1 rfl
    | false =>
      have hc : c = true := by simpa using h
      rw [hd2 rfl]
      exact hc1 hc
  · intro h
    have hc : c = false ∧ d = false := by simpa using h
    rw [hd2 hc.2, hc2 hc.1]

theorem marks_keep (s : Option Error) : Marks false s (.ret s) :=
  ⟨s, rfl, fun h => by simp at h, fun _ => rfl⟩

theorem visit_of_not_circular (a : Analyzer) (n : Node) (scope : Scope) (s : Option Error)
    (node : Node) (h : circularAt a n scope node = false) :
    validateNoCircularUpdates.visit a n scope s node = (s, true) := by
  cases node <;>
    simp_all [validateNoCircularUpdates.visit, circularAt, Node.mutationEvent]

theorem visit_of_circular (a : Analyzer) (n : Node) (scope : Scope) (s : Option Error)
    (node : Node) (h : circularAt a n scope node = true) :
    validateNoCircularUpdates.visit a n scope s node
      = (some (.ErrTriggerTableInUse (a.getUnaliasedTableName node)), false) := by
  cases node <;>
    simp_all [validateNoCircularUpdates.visit, circularAt, Node.mutationEvent]

mutual
theorem walk_marks (a : Analyzer) (n : Node) (scope : Scope) :
    ∀ (node : Node) (s : Option Error), node.noNil = true →
      Marks (updatesTableInUse a n scope node) s
        (Walk (validateNoCircularUpdates.visit a n scope) s node)
  | .Nil, _, h => by simp [Node.noNil] at h
  | .CreateTrigger a1 b c d table body e, s, h => by
    have h1 : table.noNil = true ∧ body.noNil = true := by simpa [Node.noNil] using h
    have hv := visit_of_not_circular a n scope
    have hm := marks_bind (walk_marks a n scope table s h1.1)
      (fun s1 => marks_bind (walk_marks a n scope body s1 h1.2) (fun s2 => marks_keep s2))
    simpa [Walk, updatesTableInUse, validateNoCircularUpdates.visit] using hm
  | .InsertInto l r, s, h => by
    have h1 : l.noNil = true ∧ r.noNil = true := by simpa [Node.noNil] using h
    by_cases hc : circularAt a n scope (.InsertInto l r) = true
    · rw [Walk, visit_of_circular a n scope s _ hc]
      simp only [updatesTableInUse, hc, Bool.true_or]
      exact ⟨_, rfl, fun _ => ⟨_, rfl⟩, fun h => by simp at h⟩
    · have hc1 : circularAt a n scope (.InsertInto l r) = false := by simpa using hc
      have hv := visit_of_not_circular a n scope
      have hm := marks_bind (walk_marks a n scope l s h1.1)
        (fun s1 => marks_bind (walk_marks a n scope r s1 h1.2) (fun s2 => marks_keep s2))
      simpa [Walk, updatesTableInUse, hc1, hv _ _ hc1,
        hv _ Node.Nil rfl] using hm
  | .Update child es, s, h => by
    have h1 : child.noNil = true := by simpa [Node.noNil] using h
    by_cases hc : circularAt a n scope (.Update child es) = true
    · rw [Walk, visit_of_circular a n scope s _ hc]
      simp only [updatesTableInUse, hc, Bool.true_or]
      exact ⟨_, rfl, fun _ => ⟨_, rfl⟩, fun h => by simp at h⟩
    · have hc1 : circularAt a n scope (.Update child es) = false := by simpa using hc
      have hv := visit_of_not_circular a n scope
      have hm := marks_bind (walk_marks a n scope child s h1) (fun s1 => marks_keep s1)
      simpa [Walk, updatesTableInUse, hc1, hv _ _ hc1,
        hv _ Node.Nil rfl] using hm
  | .DeleteFrom child, s, h => by
    have h1 : child.noNil = true := by simpa [Node.noNil] using h
    by_cases hc : circularAt a n scope (.DeleteFrom child) = true
    · rw [Walk, visit_of_circular a n scope s _ hc]
      simp only [updatesTableInUse, hc, Bool.true_or]
      exact ⟨_, rfl, fun _ => ⟨_, rfl⟩, fun h => by simp at h⟩
    · have hc1 : circularAt a n scope (.DeleteFrom child) = false := by simpa using hc
      have hv := visit_of_not_circular a n scope
      have hm := marks_bind (walk_marks a n scope child s h1) (fun s1 => marks_keep s1)
      simpa [Walk, updatesTableInUse, hc1, hv _ _ hc1,
        hv _ Node.Nil rfl] using hm
  | .TriggerExecutor l r ev tm d, s, h => by
    have h1 : l.noNil = true ∧ r.noNil = true := by simpa [Node.noNil] using h
    have hv := visit_of_not_circular a n scope
    have hm := marks_bind (walk_marks a n scope l s h1.1)
      (fun s1 => marks_bind (walk_marks a n scope r s1 h1.2) (fun s2 => marks_keep s2))
    simpa [Walk, updatesTableInUse, validateNoCircularUpdates.visit] using hm
  | .Set es, s, _ => by
    have hv := visit_of_not_circular a n scope
    simpa [Walk, updatesTableInUse, validateNoCircularUpdates.visit] using marks_keep s
  | .QueryProcess child, s, h => by
    have h1 : child.noNil = true := by simpa [Node.noNil] using h
    have hv := visit_of_not_circular a n scope
    have hm := marks_bind (walk_marks a n scope child s h1) (fun s1 => marks_keep s1)
    simpa [Walk, updatesTableInUse, validateNoCircularUpdates.visit] using hm
  | .Other k es cs, s, h => by
    have h1 : Node.noNilList cs = true := by simpa [Node.noNil] using h
    have hv := visit_of_not_circular a n scope
    have hm := marks_bind (walkList_marks a n scope cs s h1) (fun s1 => marks_keep s1)
    simpa [Walk, updatesTableInUse, validateNoCircularUpdates.visit] using hm
theorem walkList_marks (a : Analyzer) (n : Node) (scope : Scope) :
    ∀ (nodes : List Node) (s : Option Error), Node.noNilList nodes = true →
      Marks (updatesTableInUseList a n scope nodes) s
        (WalkList (validateNoCircularUpdates.visit a n scope) s nodes)
  | [], s, _ => by simpa [WalkList, updatesTableInUseList] using marks_keep s
  | c :: cs, s, h => by
    have h1 : c.noNil = true ∧ Node.noNilList cs = true := by simpa [Node.noNilList] using h
    have hm := marks_bind (walk_marks a n scope c s h1.1)
      (fun s1 => walkList_marks a n scope cs s1 h1.2)
    simpa [WalkList, updatesTableInUseList] using hm
end

/-- C12: for a trigger whose body has no nil node, `validateNoCircularUpdates` returns an
ErrTriggerTableInUse error if and only if the body contains an insert, update or delete
node whose unaliased table name is that of the invoking node or of a memoized node of
the scope; otherwise it returns nil. -/
theorem validateNoCircularUpdates_exact (a : Analyzer) (trigger : CreateTrigger) (n : Node)
    (scope : Scope) (hbody : trigger.Body.noNil = true) :
    (updatesTableInUse a n scope trigger.Body = true ↔
      ∃ t, validateNoCircularUpdates a trigger n scope = .ret (some (.ErrTriggerTableInUse t)))
    ∧ (updatesTableInUse a n scope trigger.Body = false →
      validateNoCircularUpdates a trigger n scope = .ret none) := by
  obtain ⟨s1, hs1, hc1, hc2⟩ := walk_marks a n scope trigger.Body none hbody
  have hv : validateNoCircularUpdates a trigger n scope = .ret s1 := hs1
  refine ⟨⟨?_, ?_⟩, ?_⟩
  · intro h
    obtain ⟨t, ht⟩ := hc1 h
    exact ⟨t, by rw [hv, ht]⟩
  · rintro ⟨t, ht⟩
    by_contra hne
    have hf : updatesTableInUse a n scope trigger.Body = false := by simpa using hne
    rw [hv, hc2 hf] at ht
    cases ht
  · intro h
    rw [hv, hc2 h]

theorem validateNoCircularUpdates_exact_witness :
    validateNoCircularUpdates (exampleTableAnalyzer [] exampleTableParse)
        ⟨"T", sqlparser.AfterStr, sqlparser.InsertStr, none, .Other "t1" [] [],
          .Other "Block" [] [.Other "Select" [] [],
            .Update (.Other "t2" [] []) []], "T"⟩
        (.InsertInto (.Other "t1" [] []) (.Other "Values" [] []))
        ⟨[], [.DeleteFrom (.Other "t2" [] [])]⟩
      = .ret (some (.ErrTriggerTableInUse "t2"))
    ∧ validateNoCircularUpdates (exampleTableAnalyzer [] exampleTableParse)
        ⟨"T", sqlparser.AfterStr, sqlparser.InsertStr, none, .Other "t1" [] [],
          .Other "Block" [] [.Other "Select" [] [],
            .Update (.Other "t3" [] []) []], "T"⟩
        (.InsertInto (.Other "t1" [] []) (.Other "Values" [] []))
        ⟨[], [.DeleteFrom (.Other "t2" [] [])]⟩
      = .ret none :=
  ⟨by rfl,
   (validateNoCircularUpdates_exact (exampleTableAnalyzer [] exampleTableParse)
      ⟨"T", sqlparser.AfterStr, sqlparser.InsertStr, none, .Other "t1" [] [],
        .Other "Block" [] [.Other "Select" [] [], .Update (.Other "t3" [] []) []], "T"⟩
      (.InsertInto (.Other "t1" [] []) (.Other "Values" [] []))
      ⟨[], [.DeleteFrom (.Other "t2" [] [])]⟩ rfl).2 (by rfl)⟩

end analyzer

namespace analyzer

open sql plan

/-! ## Further claims on `applyTrigger` and `applyTriggers` -/

theorem transform_of_childrenPlain (tr : CreateTrigger) (logic m parent : Node) (i : Int)
    (h : m.childrenPlain = true) :
    transformUpWithParent (applyTrigger.wrap tr logic) m parent i
      = applyTrigger.wrap tr logic m parent i := by
  cases m with
  | Nil => simp [Node.childrenPlain] at h
  | CreateTrigger a b c d1 table bd e =>
    have h1 : table.plain = true ∧ bd.plain = true := by simpa [Node.childrenPlain] using h
    simp [transformUpWithParent, transform_plain tr logic table _ _ h1.1,
      transform_plain tr logic bd _ _ h1.2, Outcome.bind]
  | InsertInto l1 r1 =>
    have h1 : l1.plain = true ∧ r1.plain = true := by simpa [Node.childrenPlain] using h
    simp [transformUpWithParent, transform_plain tr logic l1 _ _ h1.1,
      transform_plain tr logic r1 _ _ h1.2, Outcome.bind]
  | Update c es =>
    have h1 : c.plain = true := by simpa [Node.childrenPlain] using h
    simp [transformUpWithParent, transform_plain tr logic c _ _ h1, Outcome.bind]
  | DeleteFrom c =>
    have h1 : c.plain = true := by simpa [Node.childrenPlain] using h
    simp [transformUpWithParent, transform_plain tr logic c _ _ h1, Outcome.bind]
  | TriggerExecutor l1 r1 ev1 tm1 d1 =>
    have h1 : l1.plain = true ∧ r1.plain = true := by simpa [Node.childrenPlain] using h
    simp [transformUpWithParent, transform_plain tr logic l1 _ _ h1.1,
      transform_plain tr logic r1 _ _ h1.2, Outcome.bind]
  | Set es => simp [transformUpWithParent]
  | QueryProcess c =>
    have h1 : c.plain = true := by simpa [Node.childrenPlain] using h
    simp [transformUpWithParent, transform_plain tr logic c _ _ h1, Outcome.bind]
  | Other k es cs =>
    have h1 : Node.plainList cs = true := by simpa [Node.childrenPlain] using h
    simp [transformUpWithParent, transformList_plain tr logic cs _ _ h1, Outcome.bind]

theorem wrap_skip_false (parent : Node) (i : Int) :
    (parent.isTriggerExecutor = false ∨ i ≠ 1) →
    (match parent with
      | .TriggerExecutor _ _ _ _ _ => decide (i = 1)
      | _ => false) = false := by
  intro h
  cases parent with
  | TriggerExecutor l r ev tm d =>
    rcases h with h | h
    · simp [Node.isTriggerExecutor] at h
    · simp [h]
  | _ => rfl

/-- C18: on an insert, update or delete node that is not child 1 of a TriggerExecutor, the
callback of `applyTrigger` returns, for a BEFORE trigger, the node with only its row
source (right child of an insert, child of an update or delete) replaced by a
TriggerExecutor around that child, and for any other trigger time a TriggerExecutor
around the node itself; the executor carries the trigger logic, the event of the node's
kind and the trigger's time, name and creation text.  A node that is child 1 of a
TriggerExecutor is returned as it is.  On a plan whose only insert, update or delete is
the root, `applyTrigger` returns what the callback returns on the root. -/
theorem applyTrigger_wrapper_position (trigger : CreateTrigger) (triggerLogic : Node) :
    (∀ (parent : Node) (i : Int), (parent.isTriggerExecutor = false ∨ i ≠ 1) →
      (∀ l r, applyTrigger.wrap trigger triggerLogic (.InsertInto l r) parent i
        = .ret (if trigger.TriggerTime = sqlparser.BeforeStr then
            .InsertInto l (.TriggerExecutor r triggerLogic plan.InsertTrigger
              trigger.TriggerTime ⟨trigger.TriggerName, trigger.CreateTriggerString⟩)
          else .TriggerExecutor (.InsertInto l r) triggerLogic plan.InsertTrigger
              trigger.TriggerTime ⟨trigger.TriggerName, trigger.CreateTriggerString⟩))
      ∧ (∀ c es, applyTrigger.wrap trigger triggerLogic (.Update c es) parent i
        = .ret (if trigger.TriggerTime = sqlparser.BeforeStr then
            .Update (.TriggerExecutor c triggerLogic plan.UpdateTrigger
              trigger.TriggerTime ⟨trigger.TriggerName, trigger.CreateTriggerString⟩) es
          else .TriggerExecutor (.Update c es) triggerLogic plan.UpdateTrigger
              trigger.TriggerTime ⟨trigger.TriggerName, trigger.CreateTriggerString⟩))
      ∧ (∀ c, applyTrigger.wrap trigger triggerLogic (.DeleteFrom c) parent i
        = .ret (if trigger.TriggerTime = sqlparser.BeforeStr then
            .DeleteFrom (.TriggerExecutor c triggerLogic plan.DeleteTrigger
              trigger.TriggerTime ⟨trigger.TriggerName, trigger.CreateTriggerString⟩)
          else .TriggerExecutor (.DeleteFrom c) triggerLogic plan.DeleteTrigger
              trigger.TriggerTime ⟨trigger.TriggerName, trigger.CreateTriggerString⟩)))
    ∧ (∀ (n l r : Node) (ev tm : String) (d : TriggerDefinition),
        applyTrigger.wrap trigger triggerLogic n (.TriggerExecutor l r ev tm d) 1 = .ret n)
    ∧ (∀ (a : Analyzer) (originalNode : Node) (scope : Scope) (m : Node),
        getTriggerLogic a originalNode scope trigger = .ok triggerLogic →
        m.childrenPlain = true →
        applyTrigger a originalNode m scope trigger
          = applyTrigger.wrap trigger triggerLogic m .Nil (-1)) := by
  refine ⟨?_, ?_, ?_⟩
  · intro parent i h
    have hskip := wrap_skip_false parent i h
    refine ⟨?_, ?_, ?_⟩
    · intro l r
      simp only [applyTrigger.wrap, hskip, NewTriggerExecutor]
      by_cases ht : trigger.TriggerTime = sqlparser.BeforeStr <;> simp [ht]
    · intro c es
      simp only [applyTrigger.wrap, hskip, NewTriggerExecutor]
      by_cases ht : trigger.TriggerTime = sqlparser.BeforeStr <;> simp [ht]
    · intro c
      simp only [applyTrigger.wrap, hskip, NewTriggerExecutor]
      by_cases ht : trigger.TriggerTime = sqlparser.BeforeStr <;> simp [ht]
  · intro n l r ev tm d
    exact wrap_skip trigger triggerLogic n l r ev tm d
  · intro a originalNode scope m hl hm
    simp only [applyTrigger, hl, TransformUpWithParent]
    exact transform_of_childrenPlain trigger triggerLogic m .Nil (-1) hm

theorem applyTrigger_wrapper_position_witness :
    applyTrigger (exampleAnalyzer [] exampleParse) exampleInsert exampleInsert ⟨[], []⟩
        (exampleTrigger "B" none)
      = .ret (.InsertInto (.Other "UnresolvedTable" [] [])
          (.TriggerExecutor (.Other "Values" [] []) (.Other "Body" [] []) plan.InsertTrigger
            sqlparser.BeforeStr ⟨"B", ""⟩))
    ∧ applyTrigger (exampleAnalyzer [] exampleParse) exampleInsert exampleInsert ⟨[], []⟩
        (exampleAfterTrigger "F")
      = .ret (.TriggerExecutor exampleInsert (.Other "Body" [] []) plan.InsertTrigger
            sqlparser.AfterStr ⟨"F", ""⟩) :=
  ⟨((applyTrigger_wrapper_position (exampleTrigger "B" none) (.Other "Body" [] [])).2.2
      (exampleAnalyzer [] exampleParse) exampleInsert ⟨[], []⟩ exampleInsert rfl rfl).trans
      (((applyTrigger_wrapper_position (exampleTrigger "B" none) (.Other "Body" [] [])).1
        .Nil (-1) (Or.inl rfl)).1 _ _),
   ((applyTrigger_wrapper_position (exampleAfterTrigger "F") (.Other "Body" [] [])).2.2
      (exampleAnalyzer [] exampleParse) exampleInsert ⟨[], []⟩ exampleInsert rfl rfl).trans
      (((applyTrigger_wrapper_position (exampleAfterTrigger "F") (.Other "Body" [] [])).1
        .Nil (-1) (Or.inl rfl)).1 _ _)⟩

/-- C19: with the one stored trigger T1, an AFTER INSERT trigger on the table t1,
`applyTriggers` on a block that deletes from the table t2 and inserts into the table t1
wraps both operations in an executor of T1: the delete on t2 gets a trigger attached whose
table and event are not its own. -/
theorem applyTriggers_wraps_other_table :
    applyTriggers (exampleTableAnalyzer [⟨"T1", "T1"⟩] exampleTableParse) exampleBlock ⟨[], []⟩
      = .ret (.Other "Block" []
          [.TriggerExecutor (.DeleteFrom (.Other "t2" [] [])) (.Other "Select" [] [])
              plan.DeleteTrigger sqlparser.AfterStr ⟨"T1", "T1"⟩,
           .TriggerExecutor (.InsertInto (.Other "t1" [] []) (.Other "Values" [] []))
              (.Other "Select" [] []) plan.InsertTrigger sqlparser.AfterStr ⟨"T1", "T1"⟩]) := by
  rfl

theorem affectedTriggers_of_no_match (a : Analyzer) (affectedTables : List String)
    (triggerEvent : String) :
    ∀ defs : List TriggerDefinition,
      (∀ d ∈ defs, ∃ name time event order table body createString,
        a.Parse d.CreateStatement
          = .ok (.CreateTrigger name time event order table body createString)
        ∧ ¬ (a.getTableName table ∈ affectedTables
          ∧ triggerEventsMatch triggerEvent event = true)) →
      applyTriggers.affectedTriggers a affectedTables triggerEvent defs = .ret [] := by
  intro defs
  induction defs with
  | nil => intro _; rfl
  | cons d rest ih =>
    intro h
    obtain ⟨name, time, event, order, table, body, createString, hparse, hno⟩ :=
      h d (List.mem_cons_self _ _)
    rw [applyTriggers.affectedTriggers, hparse]
    simp only [ih (fun d0 hd0 => h d0 (List.mem_cons_of_mem _ hd0)), Outcome.bind, hno,
      if_false]

theorem affectedTriggers_of_failure (a : Analyzer) (affectedTables : List String)
    (triggerEvent : String) (d : TriggerDefinition) (post : List TriggerDefinition) (e : Error)
    (hd : a.Parse d.CreateStatement = .error e
      ∨ (∃ m, a.Parse d.CreateStatement = .ok m ∧ m.isCreateTrigger = false
        ∧ e = .ErrTriggerCreateStatementInvalid d.CreateStatement)) :
    ∀ pre : List TriggerDefinition,
      (∀ d0 ∈ pre, ∃ name time event order table body createString,
        a.Parse d0.CreateStatement
          = .ok (.CreateTrigger name time event order table body createString)) →
      applyTriggers.affectedTriggers a affectedTables triggerEvent (pre ++ d :: post)
        = .err e := by
  intro pre
  induction pre with
  | nil =>
    intro _
    rcases hd with hd | ⟨m, hm, hct, he⟩
    · simp only [List.nil_append, applyTriggers.affectedTriggers, hd]
    · subst he
      cases m <;>
        first
        | (simp [Node.isCreateTrigger] at hct; done)
        | simp only [List.nil_append, applyTriggers.affectedTriggers, hm]
  | cons d0 rest ih =>
    intro h
    obtain ⟨name, time, event, order, table, body, createString, hparse⟩ :=
      h d0 (List.mem_cons_self _ _)
    rw [List.cons_append, applyTriggers.affectedTriggers, hparse]
    simp only [ih (fun d1 hd1 => h d1 (List.mem_cons_of_mem _ hd1)), Outcome.bind]

/-- C20: on a delete from the table t1, `applyTriggers` returns an error, not the
statement, when the catalog does not return the database, and when the one stored trigger
definition does not parse: in both cases no stored trigger matches the table and the
event of the statement. -/
theorem applyTriggers_error_without_match :
    applyTriggers
        { exampleTableAnalyzer [] exampleTableParse with Database := .error (.Other "down") }
        (.DeleteFrom (.Other "t1" [] [])) ⟨[], []⟩
      = .err (.Other "down")
    ∧ applyTriggers (exampleTableAnalyzer [⟨"bad", "bad"⟩] exampleTableParse)
        (.DeleteFrom (.Other "t1" [] [])) ⟨[], []⟩
      = .err (.Other "syntax error")
    ∧ applyTriggers (exampleTableAnalyzer [⟨"bad", "bad"⟩] exampleTableParse)
        (.DeleteFrom (.Other "t1" [] [])) ⟨[], []⟩
      ≠ .ret (.DeleteFrom (.Other "t1" [] [])) := by
  have h2 : applyTriggers (exampleTableAnalyzer [⟨"bad", "bad"⟩] exampleTableParse)
        (.DeleteFrom (.Other "t1" [] [])) ⟨[], []⟩
      = .err (.Other "syntax error") := by rfl
  refine ⟨by rfl, h2, ?_⟩
  rw [h2]
  intro h
  cases h

/-- C20, amended: `applyTriggers` returns its argument and no error when the argument is
a CreateTrigger, when it contains no insert, update or delete node (both whatever the
catalog would answer), and when the catalog returns the database and either the
database stores no triggers or every stored trigger definition parses to a CreateTrigger
of which none is on an affected table with the detected event.  On a statement with an
insert, update or delete node it returns the error of the catalog lookup, of the fetch of
the triggers, or of the first stored definition that does not parse to a CreateTrigger
(all before it parsing). -/
theorem applyTriggers_identity (a : Analyzer) (n : Node) (scope : Scope) :
    (n.isCreateTrigger = true → applyTriggers a n scope = .ret n)
    ∧ (n.plain = true → applyTriggers a n scope = .ret n)
    ∧ (∀ (found : List String × String) (db : Database), n.isCreateTrigger = false →
        Inspect n (applyTriggers.visit a) ([], "") = .ret found →
        a.Database = .ok db →
        (db.GetTriggers = none ∨
          ∃ defs, db.GetTriggers = some (.ok defs) ∧
            ∀ d ∈ defs, ∃ name time event order table body createString,
              a.Parse d.CreateStatement
                = .ok (.CreateTrigger name time event order table body createString)
              ∧ ¬ (a.getTableName table ∈ found.1
                ∧ triggerEventsMatch found.2 event = true)) →
        applyTriggers a n scope = .ret n)
    ∧ (∀ (found : List String × String) (e : Error), n.isCreateTrigger = false →
        Inspect n (applyTriggers.visit a) ([], "") = .ret found → found.1 ≠ [] →
        (a.Database = .error e
          ∨ (∃ db, a.Database = .ok db ∧ db.GetTriggers = some (.error e))
          ∨ (∃ db pre d post, a.Database = .ok db
            ∧ db.GetTriggers = some (.ok (pre ++ d :: post))
            ∧ (∀ d0 ∈ pre, ∃ name time event order table body createString,
              a.Parse d0.CreateStatement
                = .ok (.CreateTrigger name time event order table body createString))
            ∧ (a.Parse d.CreateStatement = .error e
              ∨ (∃ m, a.Parse d.CreateStatement = .ok m ∧ m.isCreateTrigger = false
                ∧ e = .ErrTriggerCreateStatementInvalid d.CreateStatement)))) →
        applyTriggers a n scope = .err e) := by
  refine ⟨?_, ?_, ?_, ?_⟩
  · intro h
    cases n <;> simp [Node.isCreateTrigger] at h
    rfl
  · intro h
    have hw := walk_visit_plain a n ([], "") h
    cases n <;>
      first
      | rfl
      | simp only [applyTriggers, Inspect, hw, Outcome.bind, List.length_nil, if_true]
  · intro found db hct hins hdb htr
    by_cases hlen : found.1.length = 0
    · cases n <;>
        first
        | (simp [Node.isCreateTrigger] at hct; done)
        | simp only [applyTriggers, hins, Outcome.bind, hlen, if_true]
    · rcases htr with htr | ⟨defs, htr, hdefs⟩
      · cases n <;>
          first
          | (simp [Node.isCreateTrigger] at hct; done)
          | simp only [applyTriggers, hins, Outcome.bind, hlen, if_false, hdb, htr,
              List.length_nil, if_true]
      · have haff := affectedTriggers_of_no_match a found.1 found.2 defs hdefs
        cases n <;>
          first
          | (simp [Node.isCreateTrigger] at hct; done)
          | simp only [applyTriggers, hins, Outcome.bind, hlen, if_false, hdb, htr, haff,
              List.length_nil, if_true]
  · intro found e hct hins hne hfail
    have hlen : ¬ found.1.length = 0 := by
      intro h0
      exact hne (List.length_eq_zero.mp h0)
    rcases hfail with hdb | ⟨db, hdb, htr⟩ | ⟨db, pre, d, post, hdb, htr, hpre, hd⟩
    · cases n <;>
        first
        | (simp [Node.isCreateTrigger] at hct; done)
        | simp only [applyTriggers, hins, Outcome.bind, hlen, if_false, hdb]
    · cases n <;>
        first
        | (simp [Node.isCreateTrigger] at hct; done)
        | simp only [applyTriggers, hins, Outcome.bind, hlen, if_false, hdb, htr]
    · have haff := affectedTriggers_of_failure a found.1 found.2 d post e hd pre hpre
      cases n <;>
        first
        | (simp [Node.isCreateTrigger] at hct; done)
        | simp only [applyTriggers, hins, Outcome.bind, hlen, if_false, hdb, htr, haff]

theorem applyTriggers_identity_witness :
    applyTriggers (exampleTableAnalyzer [⟨"T1", "T1"⟩] exampleTableParse)
        (.CreateTrigger "T1" sqlparser.AfterStr sqlparser.InsertStr none
          (.Other "t1" [] []) exampleInsert "T1") ⟨[], []⟩
      = .ret (.CreateTrigger "T1" sqlparser.AfterStr sqlparser.InsertStr none
          (.Other "t1" [] []) exampleInsert "T1")
    ∧ applyTriggers
        { exampleTableAnalyzer [] exampleTableParse with Database := .error (.Other "down") }
        (.Other "Select" [] [.Other "t1" [] []]) ⟨[], []⟩
      = .ret (.Other "Select" [] [.Other "t1" [] []])
    ∧ applyTriggers (exampleTableAnalyzer [⟨"T1", "T1"⟩] exampleTableParse)
        (.DeleteFrom (.Other "t1" [] [])) ⟨[], []⟩
      = .ret (.DeleteFrom (.Other "t1" [] []))
    ∧ applyTriggers (exampleTableAnalyzer [⟨"T1", "T1"⟩, ⟨"bad", "bad"⟩] exampleTableParse)
        (.DeleteFrom (.Other "t1" [] [])) ⟨[], []⟩
      = .err (.Other "syntax error") :=
  ⟨(applyTriggers_identity _ _ _).1 rfl,
   (applyTriggers_identity _ _ _).2.1 rfl,
   (applyTriggers_identity (exampleTableAnalyzer [⟨"T1", "T1"⟩] exampleTableParse)
      (.DeleteFrom (.Other "t1" [] [])) ⟨[], []⟩).2.2.1 (["t1"], plan.DeleteTrigger)
      { GetTriggers := some (.ok [⟨"T1", "T1"⟩]) } rfl (by rfl) rfl
      (Or.inr ⟨[⟨"T1", "T1"⟩], rfl, by
        intro d hd
        rw [List.mem_singleton] at hd
        subst hd
        exact ⟨"T1", sqlparser.AfterStr, sqlparser.InsertStr, none, .Other "t1" [] [],
          .Other "Select" [] [], "T1", rfl, by decide⟩⟩),
   (applyTriggers_identity
      (exampleTableAnalyzer [⟨"T1", "T1"⟩, ⟨"bad", "bad"⟩] exampleTableParse)
      (.DeleteFrom (.Other "t1" [] [])) ⟨[], []⟩).2.2.2 (["t1"], plan.DeleteTrigger)
      (.Other "syntax error") rfl (by rfl) (by decide)
      (Or.inr (Or.inr ⟨{ GetTriggers := some (.ok [⟨"T1", "T1"⟩, ⟨"bad", "bad"⟩]) },
        [⟨"T1", "T1"⟩], ⟨"bad", "bad"⟩, [], rfl, rfl, by
          intro d hd
          rw [List.mem_singleton] at hd
          subst hd
          exact ⟨"T1", sqlparser.AfterStr, sqlparser.InsertStr, none, .Other "t1" [] [],
            .Other "Select" [] [], "T1", rfl⟩,
        Or.inl rfl⟩))⟩

end analyzer

namespace analyzer

open sql plan

/-! ## Lemmas on the two passes of `resolveNewAndOldReferences` -/

theorem Legal.left {event : String} {a b c d : Bool} (h : Legal event (a || b) (c || d)) :
    Legal event a c := by
  refine ⟨fun he => ?_, fun he => ?_⟩
  · have := h.1 he
    cases a <;> simp_all
  · have := h.2 he
    cases c <;> simp_all

theorem Legal.right {event : String} {a b c d : Bool} (h : Legal event (a || b) (c || d)) :
    Legal event b d := by
  refine ⟨fun he => ?_, fun he => ?_⟩
  · have := h.1 he
    cases a <;> simp_all
  · have := h.2 he
    cases c <;> simp_all

theorem resolve_of_legal (event : String) (e : Expression)
    (h : Legal event (Expression.isRef "new" e) (Expression.isRef "old" e)) :
    resolveNewAndOldReferences.resolve event e = .ret (Expression.placeholder e) := by
  cases e with
  | UnresolvedColumn t c =>
    have hl : Legal event (decide (strings.ToLower t = "new"))
        (decide (strings.ToLower t = "old")) := h
    simp only [resolveNewAndOldReferences.resolve, Expression.placeholder]
    by_cases hn : strings.ToLower t = "new"
    · have hd : ¬ event = sqlparser.DeleteStr := fun he => by
        have := hl.1 he
        simp [hn] at this
      simp [hn, hd]
    · by_cases ho : strings.ToLower t = "old"
      · have hi : ¬ event = sqlparser.InsertStr := fun he => by
          have := hl.2 he
          simp [ho] at this
        simp [hn, ho, hi]
      · simp [hn, ho]
  | deferredColumn t c =>
    have hl : Legal event (decide (strings.ToLower t = "new"))
        (decide (strings.ToLower t = "old")) := h
    simp only [resolveNewAndOldReferences.resolve, Expression.placeholder]
    by_cases hn : strings.ToLower t = "new"
    · have hd : ¬ event = sqlparser.DeleteStr := fun he => by
        have := hl.1 he
        simp [hn] at this
      simp [hn, hd]
    · by_cases ho : strings.ToLower t = "old"
      · have hi : ¬ event = sqlparser.InsertStr := fun he => by
          have := hl.2 he
          simp [ho] at this
        simp [hn, ho, hi]
      · simp [hn, ho]
  | triggerColumnRef t c => rfl
  | SetField l r => rfl
  | Other k cs => rfl

mutual
theorem transformExprUp_of_legal (event : String) :
    ∀ e : Expression, Legal event (Expression.hasRef "new" e) (Expression.hasRef "old" e) →
      TransformExprUp (resolveNewAndOldReferences.resolve event) e
        = .ret (Expression.placeholders e)
  | .UnresolvedColumn t c, h => by
    rw [TransformExprUp, Expression.placeholders]
    exact resolve_of_legal event _ h
  | .deferredColumn t c, h => by
    rw [TransformExprUp, Expression.placeholders]
    exact resolve_of_legal event _ h
  | .triggerColumnRef t c, _ => by
    rw [TransformExprUp, Expression.placeholders]
    rfl
  | .SetField l r, h => by
    have h1 : Legal event (Expression.hasRef "new" l || Expression.hasRef "new" r)
        (Expression.hasRef "old" l || Expression.hasRef "old" r) := by
      simpa [Expression.hasRef] using h
    rw [TransformExprUp, transformExprUp_of_legal event l h1.left,
      Expression.placeholders]
    simp only [Outcome.bind]
    rw [transformExprUp_of_legal event r h1.right]
    rfl
  | .Other k cs, h => by
    have h1 : Legal event (Expression.hasRefList "new" cs) (Expression.hasRefList "old" cs) := by
      simpa [Expression.hasRef] using h
    rw [TransformExprUp, transformExprUpList_of_legal event cs h1, Expression.placeholders]
    rfl
theorem transformExprUpList_of_legal (event : String) :
    ∀ es : List Expression,
      Legal event (Expression.hasRefList "new" es) (Expression.hasRefList "old" es) →
      TransformExprUpList (resolveNewAndOldReferences.resolve event) es
        = .ret (Expression.placeholdersList es)
  | [], _ => by
    rw [TransformExprUpList, Expression.placeholdersList]
  | c :: cs, h => by
    have h1 : Legal event (Expression.hasRef "new" c || Expression.hasRefList "new" cs)
        (Expression.hasRef "old" c || Expression.hasRefList "old" cs) := by
      simpa [Expression.hasRefList] using h
    rw [TransformExprUpList, transformExprUp_of_legal event c h1.left,
      Expression.placeholdersList]
    simp only [Outcome.bind]
    rw [transformExprUpList_of_legal event cs h1.right]
end

theorem transformExpressionsWithNode_of_legal (event : String) (m : Node)
    (h : Legal event
      (match m with
        | .Update _ es => Expression.hasRefList "new" es
        | .Set es => Expression.hasRefList "new" es
        | .Other _ es _ => Expression.hasRefList "new" es
        | _ => false)
      (match m with
        | .Update _ es => Expression.hasRefList "old" es
        | .Set es => Expression.hasRefList "old" es
        | .Other _ es _ => Expression.hasRefList "old" es
        | _ => false)) :
    TransformExpressionsWithNode m (fun _ e => resolveNewAndOldReferences.resolve event e)
      = .ret (match m with
        | .Update child es => .Update child (Expression.placeholdersList es)
        | .Set es => .Set (Expression.placeholdersList es)
        | .Other k es cs => .Other k (Expression.placeholdersList es) cs
        | m => m) := by
  cases m with
  | Update child es =>
    simp only [TransformExpressionsWithNode, transformExprUpList_of_legal event es h]
    rfl
  | Set es =>
    simp only [TransformExpressionsWithNode, transformExprUpList_of_legal event es h]
    rfl
  | Other k es cs =>
    simp only [TransformExpressionsWithNode, transformExprUpList_of_legal event es h]
    rfl
  | Nil => rfl
  | CreateTrigger a b c d table body e => rfl
  | InsertInto l r => rfl
  | DeleteFrom child => rfl
  | TriggerExecutor l r ev tm d => rfl
  | QueryProcess child => rfl

theorem Legal.false (event : String) : Legal event false false :=
  ⟨fun _ => rfl, fun _ => rfl⟩

mutual
theorem transformUp_of_legal (event : String) :
    ∀ n : Node, n.noNil = true → Legal event (Node.hasRef "new" n) (Node.hasRef "old" n) →
      TransformUp
          (fun m => TransformExpressionsWithNode m
            (fun _ e => resolveNewAndOldReferences.resolve event e)) n
        = .ret (Node.placeholders n)
  | .Nil, hn, _ => by simp [Node.noNil] at hn
  | .CreateTrigger a b c d table body e, hn, h => by
    have hn1 : table.noNil = true ∧ body.noNil = true := by simpa [Node.noNil] using hn
    have h1 : Legal event (Node.hasRef "new" table || Node.hasRef "new" body)
        (Node.hasRef "old" table || Node.hasRef "old" body) := by
      simpa [Node.hasRef] using h
    rw [TransformUp, transformUp_of_legal event table hn1.1 h1.left]
    simp only [Outcome.bind]
    rw [transformUp_of_legal event body hn1.2 h1.right]
    simp only [TransformExpressionsWithNode, Node.placeholders]
  | .InsertInto l r, hn, h => by
    have hn1 : l.noNil = true ∧ r.noNil = true := by simpa [Node.noNil] using hn
    have h1 : Legal event (Node.hasRef "new" l || Node.hasRef "new" r)
        (Node.hasRef "old" l || Node.hasRef "old" r) := by
      simpa [Node.hasRef] using h
    rw [TransformUp, transformUp_of_legal event l hn1.1 h1.left]
    simp only [Outcome.bind]
    rw [transformUp_of_legal event r hn1.2 h1.right]
    simp only [TransformExpressionsWithNode, Node.placeholders]
  | .Update child es, hn, h => by
    have hn1 : child.noNil = true := by simpa [Node.noNil] using hn
    have h1 : Legal event (Node.hasRef "new" child || Expression.hasRefList "new" es)
        (Node.hasRef "old" child || Expression.hasRefList "old" es) := by
      simpa [Node.hasRef] using h
    rw [TransformUp, transformUp_of_legal event child hn1 h1.left]
    simp only [Outcome.bind]
    rw [transformExpressionsWithNode_of_legal event _ h1.right]
    simp only [Node.placeholders]
  | .DeleteFrom child, hn, h => by
    have hn1 : child.noNil = true := by simpa [Node.noNil] using hn
    have h1 : Legal event (Node.hasRef "new" child) (Node.hasRef "old" child) := by
      simpa [Node.hasRef] using h
    rw [TransformUp, transformUp_of_legal event child hn1 h1]
    simp only [Outcome.bind, TransformExpressionsWithNode, Node.placeholders]
  | .TriggerExecutor l r ev tm d, hn, h => by
    have hn1 : l.noNil = true ∧ r.noNil = true := by simpa [Node.noNil] using hn
    have h1 : Legal event (Node.hasRef "new" l || Node.hasRef "new" r)
        (Node.hasRef "old" l || Node.hasRef "old" r) := by
      simpa [Node.hasRef] using h
    rw [TransformUp, transformUp_of_legal event l hn1.1 h1.left]
    simp only [Outcome.bind]
    rw [transformUp_of_legal event r hn1.2 h1.right]
    simp only [TransformExpressionsWithNode, Node.placeholders]
  | .Set es, _, h => by
    have h1 : Legal event (Expression.hasRefList "new" es) (Expression.hasRefList "old" es) := by
      simpa [Node.hasRef] using h
    rw [TransformUp, transformExpressionsWithNode_of_legal event _ h1]
    simp only [Node.placeholders]
  | .QueryProcess child, hn, h => by
    have hn1 : child.noNil = true := by simpa [Node.noNil] using hn
    have h1 : Legal event (Node.hasRef "new" child) (Node.hasRef "old" child) := by
      simpa [Node.hasRef] using h
    rw [TransformUp, transformUp_of_legal event child hn1 h1]
    simp only [Outcome.bind, TransformExpressionsWithNode, Node.placeholders]
  | .Other k es cs, hn, h => by
    have hn1 : Node.noNilList cs = true := by simpa [Node.noNil] using hn
    have h1 : Legal event (Node.hasRefList "new" cs || Expression.hasRefList "new" es)
        (Node.hasRefList "old" cs || Expression.hasRefList "old" es) := by
      simpa [Node.hasRef] using h
    rw [TransformUp, transformUpList_of_legal event cs hn1 h1.left]
    simp only [Outcome.bind]
    rw [transformExpressionsWithNode_of_legal event _ h1.right]
    simp only [Node.placeholders]
theorem transformUpList_of_legal (event : String) :
    ∀ ns : List Node, Node.noNilList ns = true →
      Legal event (Node.hasRefList "new" ns) (Node.hasRefList "old" ns) →
      TransformUpList
          (fun m => TransformExpressionsWithNode m
            (fun _ e => resolveNewAndOldReferences.resolve event e)) ns
        = .ret (Node.placeholdersList ns)
  | [], _, _ => by rw [TransformUpList, Node.placeholdersList]
  | c :: cs, hn, h => by
    have hn1 : c.noNil = true ∧ Node.noNilList cs = true := by simpa [Node.noNilList] using hn
    have h1 : Legal event (Node.hasRef "new" c || Node.hasRefList "new" cs)
        (Node.hasRef "old" c || Node.hasRefList "old" cs) := by
      simpa [Node.hasRefList] using h
    rw [TransformUpList, transformUp_of_legal event c hn1.1 h1.left]
    simp only [Outcome.bind]
    rw [transformUpList_of_legal event cs hn1.2 h1.right, Node.placeholdersList]
end

mutual
theorem noNil_placeholders : ∀ n : Node, (Node.placeholders n).noNil = n.noNil
  | .Nil => rfl
  | .CreateTrigger a b c d table body e => by
    simp [Node.placeholders, Node.noNil, noNil_placeholders table, noNil_placeholders body]
  | .InsertInto l r => by
    simp [Node.placeholders, Node.noNil, noNil_placeholders l, noNil_placeholders r]
  | .Update child es => by
    simp [Node.placeholders, Node.noNil, noNil_placeholders child]
  | .DeleteFrom child => by
    simp [Node.placeholders, Node.noNil, noNil_placeholders child]
  | .TriggerExecutor l r ev tm d => by
    simp [Node.placeholders, Node.noNil, noNil_placeholders l, noNil_placeholders r]
  | .Set es => by simp [Node.placeholders, Node.noNil]
  | .QueryProcess child => by
    simp [Node.placeholders, Node.noNil, noNil_placeholders child]
  | .Other k es cs => by
    simp [Node.placeholders, Node.noNil, noNilList_placeholders cs]
theorem noNilList_placeholders :
    ∀ ns : List Node, Node.noNilList (Node.placeholdersList ns) = Node.noNilList ns
  | [] => rfl
  | c :: cs => by
    simp [Node.placeholdersList, Node.noNilList, noNil_placeholders c,
      noNilList_placeholders cs]
end

theorem decidesTwo_bind {α β : Type} {E1 E2 : Error} {c1 c2 d1 d2 : Bool}
    {x : Outcome Error α} {a : α} {k : α → Outcome Error β} {b : β}
    (hx : DecidesTwo E1 E2 c1 c2 x a) (hk : DecidesTwo E1 E2 d1 d2 (k a) b) :
    DecidesTwo E1 E2 (c1 || d1) (c2 || d2) (x.bind k) b := by
  obtain ⟨h00, h10, h01, h11⟩ := hx
  cases c1 <;> cases c2
  · rw [h00 rfl rfl]
    simpa [Outcome.bind] using hk
  · rw [h01 rfl rfl]
    refine ⟨fun _ h => by simp at h, fun _ h => by simp at h, fun _ _ => rfl,
      fun _ _ => Or.inr rfl⟩
  · rw [h10 rfl rfl]
    refine ⟨fun h => by simp at h, fun _ _ => rfl, fun h => by simp at h,
      fun _ _ => Or.inl rfl⟩
  · refine ⟨fun h => by simp at h, fun _ h => by simp at h, fun h => by simp at h, fun _ _ => ?_⟩
    rcases h11 rfl rfl with h | h
    · rw [h]; exact Or.inl rfl
    · rw [h]; exact Or.inr rfl

theorem decidesTwo_ret {α : Type} (E1 E2 : Error) (a : α) :
    DecidesTwo E1 E2 false false (Outcome.ret a) a :=
  ⟨fun _ _ => rfl, fun h => by simp at h, fun _ h => by simp at h, fun h => by simp at h⟩

theorem decidesTwo_congr {α : Type} {E1 E2 : Error} {c1 c2 d1 d2 : Bool}
    {x : Outcome Error α} {a : α} (h : DecidesTwo E1 E2 c1 c2 x a) (e1 : c1 = d1)
    (e2 : c2 = d2) : DecidesTwo E1 E2 d1 d2 x a := by
  subst e1; subst e2; exact h

mutual
theorem transformExprUp_id (f : Expression → Outcome Error Expression)
    (hf : ∀ e, f e = .ret e) : ∀ e : Expression, TransformExprUp f e = .ret e
  | .UnresolvedColumn t c => by rw [TransformExprUp, hf]
  | .deferredColumn t c => by rw [TransformExprUp, hf]
  | .triggerColumnRef t c => by rw [TransformExprUp, hf]
  | .SetField l r => by
    rw [TransformExprUp, transformExprUp_id f hf l]
    simp only [Outcome.bind]
    rw [transformExprUp_id f hf r]
    simp only [hf]
  | .Other k cs => by
    rw [TransformExprUp, transformExprUpList_id f hf cs]
    simp only [Outcome.bind, hf]
theorem transformExprUpList_id (f : Expression → Outcome Error Expression)
    (hf : ∀ e, f e = .ret e) : ∀ es : List Expression, TransformExprUpList f es = .ret es
  | [] => by rw [TransformExprUpList]
  | c :: cs => by
    rw [TransformExprUpList, transformExprUp_id f hf c]
    simp only [Outcome.bind]
    rw [transformExprUpList_id f hf cs]
end

theorem check_set (time : String) (es0 : List Expression) (e : Expression) :
    DecidesTwo Error.ErrInvalidUpdateOfOldRow Error.ErrInvalidUpdateInAfterTrigger
      (Expression.assignsAt (Expression.isPlaceholderTo "old") e)
      (decide (time = sqlparser.AfterStr) &&
        Expression.assignsAt (Expression.isPlaceholderTo "new") e)
      (resolveNewAndOldReferences.check time (.Set es0) e) e := by
  cases e with
  | SetField l r =>
    cases l with
    | triggerColumnRef t c =>
      by_cases ho : strings.ToLower t = "old"
      · have hn : ¬ strings.ToLower t = "new" := by rw [ho]; decide
        simp [DecidesTwo, resolveNewAndOldReferences.check, Expression.assignsAt,
          Expression.isPlaceholderTo, ho, hn]
      · by_cases hn : strings.ToLower t = "new"
        · by_cases ht : time = sqlparser.AfterStr <;>
            simp [DecidesTwo, resolveNewAndOldReferences.check, Expression.assignsAt,
              Expression.isPlaceholderTo, ho, hn, ht]
        · simp [DecidesTwo, resolveNewAndOldReferences.check, Expression.assignsAt,
            Expression.isPlaceholderTo, ho, hn]
    | UnresolvedColumn t c =>
      simpa [Expression.assignsAt, Expression.isPlaceholderTo] using
        (decidesTwo_ret Error.ErrInvalidUpdateOfOldRow Error.ErrInvalidUpdateInAfterTrigger
          (Expression.SetField (.UnresolvedColumn t c) r))
    | deferredColumn t c =>
      simpa [Expression.assignsAt, Expression.isPlaceholderTo] using
        (decidesTwo_ret Error.ErrInvalidUpdateOfOldRow Error.ErrInvalidUpdateInAfterTrigger
          (Expression.SetField (.deferredColumn t c) r))
    | SetField l1 r1 =>
      simpa [Expression.assignsAt, Expression.isPlaceholderTo] using
        (decidesTwo_ret Error.ErrInvalidUpdateOfOldRow Error.ErrInvalidUpdateInAfterTrigger
          (Expression.SetField (.SetField l1 r1) r))
    | Other k cs =>
      simpa [Expression.assignsAt, Expression.isPlaceholderTo] using
        (decidesTwo_ret Error.ErrInvalidUpdateOfOldRow Error.ErrInvalidUpdateInAfterTrigger
          (Expression.SetField (.Other k cs) r))
  | UnresolvedColumn t c =>
    simpa [Expression.assignsAt] using
      (decidesTwo_ret Error.ErrInvalidUpdateOfOldRow Error.ErrInvalidUpdateInAfterTrigger (Expression.UnresolvedColumn t c))
  | deferredColumn t c =>
    simpa [Expression.assignsAt] using
      (decidesTwo_ret Error.ErrInvalidUpdateOfOldRow Error.ErrInvalidUpdateInAfterTrigger (Expression.deferredColumn t c))
  | triggerColumnRef t c =>
    simpa [Expression.assignsAt] using
      (decidesTwo_ret Error.ErrInvalidUpdateOfOldRow Error.ErrInvalidUpdateInAfterTrigger (Expression.triggerColumnRef t c))
  | Other k cs =>
    simpa [Expression.assignsAt] using
      (decidesTwo_ret Error.ErrInvalidUpdateOfOldRow Error.ErrInvalidUpdateInAfterTrigger (Expression.Other k cs))

mutual
theorem transformExprUp_check (time : String) (es0 : List Expression) :
    ∀ e : Expression,
      DecidesTwo Error.ErrInvalidUpdateOfOldRow Error.ErrInvalidUpdateInAfterTrigger
        (Expression.hasAssign (Expression.isPlaceholderTo "old") e)
        (decide (time = sqlparser.AfterStr) &&
          Expression.hasAssign (Expression.isPlaceholderTo "new") e)
        (TransformExprUp (resolveNewAndOldReferences.check time (.Set es0)) e) e
  | .UnresolvedColumn t c => by
    simpa [TransformExprUp, Expression.hasAssign, Expression.assignsAt] using
      check_set time es0 (.UnresolvedColumn t c)
  | .deferredColumn t c => by
    simpa [TransformExprUp, Expression.hasAssign, Expression.assignsAt] using
      check_set time es0 (.deferredColumn t c)
  | .triggerColumnRef t c => by
    simpa [TransformExprUp, Expression.hasAssign, Expression.assignsAt] using
      check_set time es0 (.triggerColumnRef t c)
  | .SetField l r => by
    have h := decidesTwo_bind (transformExprUp_check time es0 l)
      (k := fun l1 => (TransformExprUp (resolveNewAndOldReferences.check time (.Set es0)) r).bind
        fun r1 => resolveNewAndOldReferences.check time (.Set es0) (.SetField l1 r1))
      (decidesTwo_bind (transformExprUp_check time es0 r)
        (k := fun r1 => resolveNewAndOldReferences.check time (.Set es0) (.SetField l r1))
        (check_set time es0 (.SetField l r)))
    rw [TransformExprUp]
    refine decidesTwo_congr h ?_ ?_
    · rw [Expression.hasAssign]
    · rw [Expression.hasAssign, Bool.and_or_distrib_left, Bool.and_or_distrib_left]
  | .Other k cs => by
    have h := decidesTwo_bind (transformExprUpList_check time es0 cs)
      (k := fun cs1 => resolveNewAndOldReferences.check time (.Set es0) (.Other k cs1))
      (check_set time es0 (.Other k cs))
    rw [TransformExprUp]
    refine decidesTwo_congr h ?_ ?_
    · simp [Expression.hasAssign, Expression.assignsAt]
    · simp [Expression.hasAssign, Expression.assignsAt]
theorem transformExprUpList_check (time : String) (es0 : List Expression) :
    ∀ es : List Expression,
      DecidesTwo Error.ErrInvalidUpdateOfOldRow Error.ErrInvalidUpdateInAfterTrigger
        (Expression.hasAssignList (Expression.isPlaceholderTo "old") es)
        (decide (time = sqlparser.AfterStr) &&
          Expression.hasAssignList (Expression.isPlaceholderTo "new") es)
        (TransformExprUpList (resolveNewAndOldReferences.check time (.Set es0)) es) es
  | [] => by
    simpa [TransformExprUpList, Expression.hasAssignList] using
      (decidesTwo_ret Error.ErrInvalidUpdateOfOldRow Error.ErrInvalidUpdateInAfterTrigger ([] : List Expression))
  | c :: cs => by
    have h := decidesTwo_bind (transformExprUp_check time es0 c)
      (k := fun c1 =>
        (TransformExprUpList (resolveNewAndOldReferences.check time (.Set es0)) cs).bind
          fun cs1 => Outcome.ret (c1 :: cs1))
      (decidesTwo_bind (transformExprUpList_check time es0 cs)
        (k := fun cs1 => Outcome.ret (c :: cs1))
        (decidesTwo_ret _ _ (c :: cs)))
    rw [TransformExprUpList]
    refine decidesTwo_congr h ?_ ?_
    · simp [Expression.hasAssignList]
    · simp [Expression.hasAssignList, Bool.and_or_distrib_left]
end

theorem transformExpressionsWithNode_check (time : String) (m : Node) :
    DecidesTwo Error.ErrInvalidUpdateOfOldRow Error.ErrInvalidUpdateInAfterTrigger
      (match m with
        | .Set es => Expression.hasAssignList (Expression.isPlaceholderTo "old") es
        | _ => false)
      (decide (time = sqlparser.AfterStr) &&
        (match m with
          | .Set es => Expression.hasAssignList (Expression.isPlaceholderTo "new") es
          | _ => false))
      (TransformExpressionsWithNode m (resolveNewAndOldReferences.check time)) m := by
  cases m with
  | Set es =>
    have h := decidesTwo_bind (transformExprUpList_check time es es)
      (k := fun es1 => Outcome.ret (Node.Set es1)) (decidesTwo_ret _ _ (Node.Set es))
    rw [TransformExpressionsWithNode]
    exact decidesTwo_congr h (by simp) (by simp)
  | Update child es =>
    rw [TransformExpressionsWithNode, transformExprUpList_id
      (resolveNewAndOldReferences.check time (Node.Update child es)) (fun _ => rfl) es]
    simpa [Outcome.bind] using (decidesTwo_ret Error.ErrInvalidUpdateOfOldRow Error.ErrInvalidUpdateInAfterTrigger (Node.Update child es))
  | Other k es cs =>
    rw [TransformExpressionsWithNode, transformExprUpList_id
      (resolveNewAndOldReferences.check time (Node.Other k es cs)) (fun _ => rfl) es]
    simpa [Outcome.bind] using (decidesTwo_ret Error.ErrInvalidUpdateOfOldRow Error.ErrInvalidUpdateInAfterTrigger (Node.Other k es cs))
  | Nil => simpa [TransformExpressionsWithNode] using (decidesTwo_ret Error.ErrInvalidUpdateOfOldRow Error.ErrInvalidUpdateInAfterTrigger
      Node.Nil)
  | CreateTrigger a b c d table body e =>
    simpa [TransformExpressionsWithNode] using (decidesTwo_ret Error.ErrInvalidUpdateOfOldRow Error.ErrInvalidUpdateInAfterTrigger
      (Node.CreateTrigger a b c d table body e))
  | InsertInto l r =>
    simpa [TransformExpressionsWithNode] using (decidesTwo_ret Error.ErrInvalidUpdateOfOldRow Error.ErrInvalidUpdateInAfterTrigger
      (Node.InsertInto l r))
  | DeleteFrom child =>
    simpa [TransformExpressionsWithNode] using (decidesTwo_ret Error.ErrInvalidUpdateOfOldRow Error.ErrInvalidUpdateInAfterTrigger
      (Node.DeleteFrom child))
  | TriggerExecutor l r ev tm d =>
    simpa [TransformExpressionsWithNode] using (decidesTwo_ret Error.ErrInvalidUpdateOfOldRow Error.ErrInvalidUpdateInAfterTrigger
      (Node.TriggerExecutor l r ev tm d))
  | QueryProcess child =>
    simpa [TransformExpressionsWithNode] using (decidesTwo_ret Error.ErrInvalidUpdateOfOldRow Error.ErrInvalidUpdateInAfterTrigger
      (Node.QueryProcess child))

mutual
theorem transformUp_check (time : String) :
    ∀ n : Node, n.noNil = true →
      DecidesTwo Error.ErrInvalidUpdateOfOldRow Error.ErrInvalidUpdateInAfterTrigger
        (Node.hasAssign (Expression.isPlaceholderTo "old") n)
        (decide (time = sqlparser.AfterStr) &&
          Node.hasAssign (Expression.isPlaceholderTo "new") n)
        (TransformUp
          (fun m => TransformExpressionsWithNode m (resolveNewAndOldReferences.check time)) n)
        n
  | .Nil, hn => by simp [Node.noNil] at hn
  | .CreateTrigger a b c d table body e, hn => by
    have hn1 : table.noNil = true ∧ body.noNil = true := by simpa [Node.noNil] using hn
    have h := decidesTwo_bind (transformUp_check time table hn1.1)
      (k := fun t1 => (TransformUp (fun m => TransformExpressionsWithNode m
          (resolveNewAndOldReferences.check time)) body).bind
        fun b1 => TransformExpressionsWithNode (.CreateTrigger a b c d t1 b1 e)
          (resolveNewAndOldReferences.check time))
      (decidesTwo_bind (transformUp_check time body hn1.2)
        (k := fun b1 => TransformExpressionsWithNode (.CreateTrigger a b c d table b1 e)
          (resolveNewAndOldReferences.check time))
        (transformExpressionsWithNode_check time (.CreateTrigger a b c d table body e)))
    rw [TransformUp]
    exact decidesTwo_congr h (by simp [Node.hasAssign]) (by simp [Node.hasAssign, Bool.and_or_distrib_left])
  | .InsertInto l r, hn => by
    have hn1 : l.noNil = true ∧ r.noNil = true := by simpa [Node.noNil] using hn
    have h := decidesTwo_bind (transformUp_check time l hn1.1)
      (k := fun l1 => (TransformUp (fun m => TransformExpressionsWithNode m
          (resolveNewAndOldReferences.check time)) r).bind
        fun r1 => TransformExpressionsWithNode (.InsertInto l1 r1)
          (resolveNewAndOldReferences.check time))
      (decidesTwo_bind (transformUp_check time r hn1.2)
        (k := fun r1 => TransformExpressionsWithNode (.InsertInto l r1)
          (resolveNewAndOldReferences.check time))
        (transformExpressionsWithNode_check time (.InsertInto l r)))
    rw [TransformUp]
    exact decidesTwo_congr h (by simp [Node.hasAssign]) (by simp [Node.hasAssign, Bool.and_or_distrib_left])
  | .Update child es, hn => by
    have hn1 : child.noNil = true := by simpa [Node.noNil] using hn
    have h := decidesTwo_bind (transformUp_check time child hn1)
      (k := fun c1 => TransformExpressionsWithNode (.Update c1 es)
        (resolveNewAndOldReferences.check time))
      (transformExpressionsWithNode_check time (.Update child es))
    rw [TransformUp]
    exact decidesTwo_congr h (by simp [Node.hasAssign]) (by simp [Node.hasAssign])
  | .DeleteFrom child, hn => by
    have hn1 : child.noNil = true := by simpa [Node.noNil] using hn
    have h := decidesTwo_bind (transformUp_check time child hn1)
      (k := fun c1 => TransformExpressionsWithNode (.DeleteFrom c1)
        (resolveNewAndOldReferences.check time))
      (transformExpressionsWithNode_check time (.DeleteFrom child))
    rw [TransformUp]
    exact decidesTwo_congr h (by simp [Node.hasAssign]) (by simp [Node.hasAssign])
  | .TriggerExecutor l r ev tm d, hn => by
    have hn1 : l.noNil = true ∧ r.noNil = true := by simpa [Node.noNil] using hn
    have h := decidesTwo_bind (transformUp_check time l hn1.1)
      (k := fun l1 => (TransformUp (fun m => TransformExpressionsWithNode m
          (resolveNewAndOldReferences.check time)) r).bind
        fun r1 => TransformExpressionsWithNode (.TriggerExecutor l1 r1 ev tm d)
          (resolveNewAndOldReferences.check time))
      (decidesTwo_bind (transformUp_check time r hn1.2)
        (k := fun r1 => TransformExpressionsWithNode (.TriggerExecutor l r1 ev tm d)
          (resolveNewAndOldReferences.check time))
        (transformExpressionsWithNode_check time (.TriggerExecutor l r ev tm d)))
    rw [TransformUp]
    exact decidesTwo_congr h (by simp [Node.hasAssign]) (by simp [Node.hasAssign, Bool.and_or_distrib_left])
  | .Set es, _ => by
    have h := transformExpressionsWithNode_check time (.Set es)
    rw [TransformUp]
    exact decidesTwo_congr h (by simp [Node.hasAssign]) (by simp [Node.hasAssign])
  | .QueryProcess child, hn => by
    have hn1 : child.noNil = true := by simpa [Node.noNil] using hn
    have h := decidesTwo_bind (transformUp_check time child hn1)
      (k := fun c1 => TransformExpressionsWithNode (.QueryProcess c1)
        (resolveNewAndOldReferences.check time))
      (transformExpressionsWithNode_check time (.QueryProcess child))
    rw [TransformUp]
    exact decidesTwo_congr h (by simp [Node.hasAssign]) (by simp [Node.hasAssign])
  | .Other k es cs, hn => by
    have hn1 : Node.noNilList cs = true := by simpa [Node.noNil] using hn
    have h := decidesTwo_bind (transformUpList_check time cs hn1)
      (k := fun cs1 => TransformExpressionsWithNode (.Other k es cs1)
        (resolveNewAndOldReferences.check time))
      (transformExpressionsWithNode_check time (.Other k es cs))
    rw [TransformUp]
    exact decidesTwo_congr h (by simp [Node.hasAssign]) (by simp [Node.hasAssign])
theorem transformUpList_check (time : String) :
    ∀ ns : List Node, Node.noNilList ns = true →
      DecidesTwo Error.ErrInvalidUpdateOfOldRow Error.ErrInvalidUpdateInAfterTrigger
        (Node.hasAssignList (Expression.isPlaceholderTo "old") ns)
        (decide (time = sqlparser.AfterStr) &&
          Node.hasAssignList (Expression.isPlaceholderTo "new") ns)
        (TransformUpList
          (fun m => TransformExpressionsWithNode m (resolveNewAndOldReferences.check time)) ns)
        ns
  | [], _ => by
    simpa [TransformUpList, Node.hasAssignList] using
      (decidesTwo_ret Error.ErrInvalidUpdateOfOldRow Error.ErrInvalidUpdateInAfterTrigger ([] : List Node))
  | c :: cs, hn => by
    have hn1 : c.noNil = true ∧ Node.noNilList cs = true := by simpa [Node.noNilList] using hn
    have h := decidesTwo_bind (transformUp_check time c hn1.1)
      (k := fun c1 => (TransformUpList (fun m => TransformExpressionsWithNode m
          (resolveNewAndOldReferences.check time)) cs).bind
        fun cs1 => Outcome.ret (c1 :: cs1))
      (decidesTwo_bind (transformUpList_check time cs hn1.2)
        (k := fun cs1 => Outcome.ret (c :: cs1)) (decidesTwo_ret _ _ (c :: cs)))
    rw [TransformUpList]
    exact decidesTwo_congr h (by simp [Node.hasAssignList])
      (by simp [Node.hasAssignList, Bool.and_or_distrib_left])
end

theorem isPlaceholderTo_placeholders (pseudo : String) (hp : pseudo = "new" ∨ pseudo = "old")
    (l : Expression) :
    Expression.isPlaceholderTo pseudo (Expression.placeholders l)
      = Expression.isPseudo pseudo l := by
  cases l with
  | UnresolvedColumn t c =>
    simp only [Expression.placeholders, Expression.placeholder, Expression.isPseudo]
    by_cases h : strings.ToLower t = "new" ∨ strings.ToLower t = "old"
    · simp [h, Expression.isPlaceholderTo]
    · have : ¬ strings.ToLower t = pseudo := by
        rcases hp with hp | hp <;> subst hp <;> tauto
      simp [h, Expression.isPlaceholderTo, this]
  | deferredColumn t c =>
    simp only [Expression.placeholders, Expression.placeholder, Expression.isPseudo]
    by_cases h : strings.ToLower t = "new" ∨ strings.ToLower t = "old"
    · simp [h, Expression.isPlaceholderTo]
    · have : ¬ strings.ToLower t = pseudo := by
        rcases hp with hp | hp <;> subst hp <;> tauto
      simp [h, Expression.isPlaceholderTo, this]
  | triggerColumnRef t c => simp [Expression.placeholders, Expression.isPlaceholderTo,
      Expression.isPseudo]
  | SetField l1 r1 => simp [Expression.placeholders, Expression.isPlaceholderTo,
      Expression.isPseudo]
  | Other k cs => simp [Expression.placeholders, Expression.isPlaceholderTo,
      Expression.isPseudo]

mutual
theorem hasAssign_placeholders (pseudo : String) (hp : pseudo = "new" ∨ pseudo = "old") :
    ∀ e : Expression,
      Expression.hasAssign (Expression.isPlaceholderTo pseudo) (Expression.placeholders e)
        = Expression.hasAssign (Expression.isPseudo pseudo) e
  | .UnresolvedColumn t c => by
    simp only [Expression.placeholders, Expression.placeholder]
    split <;> simp [Expression.hasAssign]
  | .deferredColumn t c => by
    simp only [Expression.placeholders, Expression.placeholder]
    split <;> simp [Expression.hasAssign]
  | .triggerColumnRef t c => by simp [Expression.placeholders, Expression.hasAssign]
  | .SetField l r => by
    simp only [Expression.placeholders, Expression.hasAssign, Expression.assignsAt,
      hasAssign_placeholders pseudo hp l, hasAssign_placeholders pseudo hp r,
      isPlaceholderTo_placeholders pseudo hp l]
  | .Other k cs => by
    simp only [Expression.placeholders, Expression.hasAssign,
      hasAssignList_placeholders pseudo hp cs]
theorem hasAssignList_placeholders (pseudo : String) (hp : pseudo = "new" ∨ pseudo = "old") :
    ∀ es : List Expression,
      Expression.hasAssignList (Expression.isPlaceholderTo pseudo)
          (Expression.placeholdersList es)
        = Expression.hasAssignList (Expression.isPseudo pseudo) es
  | [] => by simp [Expression.placeholdersList, Expression.hasAssignList]
  | c :: cs => by
    simp only [Expression.placeholdersList, Expression.hasAssignList,
      hasAssign_placeholders pseudo hp c, hasAssignList_placeholders pseudo hp cs]
end

mutual
theorem node_hasAssign_placeholders (pseudo : String)
    (hp : pseudo = "new" ∨ pseudo = "old") :
    ∀ n : Node,
      Node.hasAssign (Expression.isPlaceholderTo pseudo) (Node.placeholders n)
        = Node.hasAssign (Expression.isPseudo pseudo) n
  | .Nil => rfl
  | .CreateTrigger a b c d table body e => by
    simp only [Node.placeholders, Node.hasAssign, node_hasAssign_placeholders pseudo hp table,
      node_hasAssign_placeholders pseudo hp body]
  | .InsertInto l r => by
    simp only [Node.placeholders, Node.hasAssign, node_hasAssign_placeholders pseudo hp l,
      node_hasAssign_placeholders pseudo hp r]
  | .Update child es => by
    simp only [Node.placeholders, Node.hasAssign, node_hasAssign_placeholders pseudo hp child]
  | .DeleteFrom child => by
    simp only [Node.placeholders, Node.hasAssign, node_hasAssign_placeholders pseudo hp child]
  | .TriggerExecutor l r ev tm d => by
    simp only [Node.placeholders, Node.hasAssign, node_hasAssign_placeholders pseudo hp l,
      node_hasAssign_placeholders pseudo hp r]
  | .Set es => by
    simp only [Node.placeholders, Node.hasAssign, hasAssignList_placeholders pseudo hp es]
  | .QueryProcess child => by
    simp only [Node.placeholders, Node.hasAssign, node_hasAssign_placeholders pseudo hp child]
  | .Other k es cs => by
    simp only [Node.placeholders, Node.hasAssign,
      node_hasAssignList_placeholders pseudo hp cs]
theorem node_hasAssignList_placeholders (pseudo : String)
    (hp : pseudo = "new" ∨ pseudo = "old") :
    ∀ ns : List Node,
      Node.hasAssignList (Expression.isPlaceholderTo pseudo) (Node.placeholdersList ns)
        = Node.hasAssignList (Expression.isPseudo pseudo) ns
  | [] => rfl
  | c :: cs => by
    simp only [Node.placeholdersList, Node.hasAssignList,
      node_hasAssign_placeholders pseudo hp c, node_hasAssignList_placeholders pseudo hp cs]
end

theorem resolveNewAndOldReferences_decides (name time event : String)
    (order : Option TriggerOrder) (table body : Node) (createString : String)
    (htable : table.noNil = true) (hbody : body.noNil = true)
    (hlegal : Legal event
      (Node.hasRef "new" (.CreateTrigger name time event order table body createString))
      (Node.hasRef "old" (.CreateTrigger name time event order table body createString))) :
    DecidesTwo Error.ErrInvalidUpdateOfOldRow Error.ErrInvalidUpdateInAfterTrigger
      (Node.assignsTo "old" (.CreateTrigger name time event order table body createString))
      (decide (time = sqlparser.AfterStr) &&
        Node.assignsTo "new" (.CreateTrigger name time event order table body createString))
      (resolveNewAndOldReferences
        (.CreateTrigger name time event order table body createString))
      (Node.placeholders (.CreateTrigger name time event order table body createString)) := by
  have hn : (Node.CreateTrigger name time event order table body createString).noNil = true := by
    simp [Node.noNil, htable, hbody]
  have h1 := transformUp_of_legal event _ hn hlegal
  have hn2 : (Node.placeholders
      (.CreateTrigger name time event order table body createString)).noNil = true := by
    rw [noNil_placeholders]; exact hn
  have h2 := transformUp_check time _ hn2
  rw [node_hasAssign_placeholders "old" (Or.inr rfl),
    node_hasAssign_placeholders "new" (Or.inl rfl)] at h2
  simp only [resolveNewAndOldReferences, TransformExpressionsUp,
    TransformExpressionsUpWithNode]
  rw [h1]
  exact h2

theorem legal_of_update (hasNew hasOld : Bool) : Legal sqlparser.UpdateStr hasNew hasOld :=
  ⟨fun h => absurd h (by decide), fun h => absurd h (by decide)⟩

/-! ## Claims on the assignments and the placeholders of `resolveNewAndOldReferences` -/

/-- C11: a DELETE trigger whose body is the assignment statement `SET old.a = new.b`
fails with ErrInvalidUseOfOldNew, and an AFTER UPDATE trigger whose body is
`SET new.a = 1, old.b = 2` fails with ErrInvalidUpdateInAfterTrigger: both bodies contain
an assignment to OLD in a Set node, and neither fails with ErrInvalidUpdateOfOldRow. -/
theorem resolveNewAndOldReferences_other_error_first :
    (Node.assignsTo "old"
        (.Set [.SetField (.UnresolvedColumn "old" "a") (.UnresolvedColumn "new" "b")]) = true
      ∧ resolveNewAndOldReferences
          (exampleCreateTrigger sqlparser.BeforeStr sqlparser.DeleteStr
            [.SetField (.UnresolvedColumn "old" "a") (.UnresolvedColumn "new" "b")])
        = .err (.ErrInvalidUseOfOldNew "new" sqlparser.DeleteStr)
      ∧ resolveNewAndOldReferences
          (exampleCreateTrigger sqlparser.BeforeStr sqlparser.DeleteStr
            [.SetField (.UnresolvedColumn "old" "a") (.UnresolvedColumn "new" "b")])
        ≠ .err .ErrInvalidUpdateOfOldRow)
    ∧ (Node.assignsTo "old"
        (.Set [.SetField (.UnresolvedColumn "new" "a") (.Other "Literal" []),
               .SetField (.UnresolvedColumn "old" "b") (.Other "Literal" [])]) = true
      ∧ resolveNewAndOldReferences
          (exampleCreateTrigger sqlparser.AfterStr sqlparser.UpdateStr
            [.SetField (.UnresolvedColumn "new" "a") (.Other "Literal" []),
             .SetField (.UnresolvedColumn "old" "b") (.Other "Literal" [])])
        = .err .ErrInvalidUpdateInAfterTrigger
      ∧ resolveNewAndOldReferences
          (exampleCreateTrigger sqlparser.AfterStr sqlparser.UpdateStr
            [.SetField (.UnresolvedColumn "new" "a") (.Other "Literal" []),
             .SetField (.UnresolvedColumn "old" "b") (.Other "Literal" [])])
        ≠ .err .ErrInvalidUpdateOfOldRow) := by
  have h1 : resolveNewAndOldReferences
      (exampleCreateTrigger sqlparser.BeforeStr sqlparser.DeleteStr
        [.SetField (.UnresolvedColumn "old" "a") (.UnresolvedColumn "new" "b")])
      = .err (.ErrInvalidUseOfOldNew "new" sqlparser.DeleteStr) := by rfl
  have h2 : resolveNewAndOldReferences
      (exampleCreateTrigger sqlparser.AfterStr sqlparser.UpdateStr
        [.SetField (.UnresolvedColumn "new" "a") (.Other "Literal" []),
         .SetField (.UnresolvedColumn "old" "b") (.Other "Literal" [])])
      = .err .ErrInvalidUpdateInAfterTrigger := by rfl
  refine ⟨⟨by rfl, h1, ?_⟩, ⟨by rfl, h2, ?_⟩⟩
  · rw [h1]; intro h; cases h
  · rw [h2]; intro h; cases h

/-- C17: `resolveNewAndOldReferences` returns a node that is not a CreateTrigger as it
is; on a legal CreateTrigger without nil nodes (its references pass the check of NEW and
OLD, and it has no illegal assignment) it returns the node in which every unresolved or
deferred column reference whose table is "new" or "old" ignoring case is replaced by a
placeholder of the same table and column name, and everything else is as it was; the
placeholder reports Resolved() = true and Type() = Boolean. -/
theorem resolveNewAndOldReferences_placeholders :
    (∀ n : Node, n.isCreateTrigger = false → resolveNewAndOldReferences n = .ret n)
    ∧ (∀ (name time event : String) (order : Option TriggerOrder) (table body : Node)
        (createString : String), table.noNil = true → body.noNil = true →
        Legal event
          (Node.hasRef "new" (.CreateTrigger name time event order table body createString))
          (Node.hasRef "old" (.CreateTrigger name time event order table body createString)) →
        Node.assignsTo "old" (.CreateTrigger name time event order table body createString)
          = false →
        (time ≠ sqlparser.AfterStr ∨
          Node.assignsTo "new" (.CreateTrigger name time event order table body createString)
            = false) →
        resolveNewAndOldReferences
            (.CreateTrigger name time event order table body createString)
          = .ret (Node.placeholders
              (.CreateTrigger name time event order table body createString)))
    ∧ (∀ table name : String, strings.ToLower table = "new" ∨ strings.ToLower table = "old" →
        Expression.placeholders (.UnresolvedColumn table name) = .triggerColumnRef table name
        ∧ Expression.placeholders (.deferredColumn table name) = .triggerColumnRef table name)
    ∧ (∀ table name : String,
        ¬ (strings.ToLower table = "new" ∨ strings.ToLower table = "old") →
        Expression.placeholders (.UnresolvedColumn table name) = .UnresolvedColumn table name
        ∧ Expression.placeholders (.deferredColumn table name) = .deferredColumn table name)
    ∧ (∀ table name : String, triggerColumnRef.Resolved table name = true
        ∧ triggerColumnRef.Type table name = SqlType.Boolean) := by
  refine ⟨?_, ?_, ?_, ?_, ?_⟩
  · intro n h
    cases n <;> first | rfl | (simp [Node.isCreateTrigger] at h)
  · intro name time event order table body createString htable hbody hlegal ho hn
    obtain ⟨h00, _, _, _⟩ := resolveNewAndOldReferences_decides name time event order table
      body createString htable hbody hlegal
    refine h00 ho ?_
    rcases hn with hn | hn
    · simp [hn]
    · simp [hn]
  · intro table name h
    simp [Expression.placeholders, Expression.placeholder, h]
  · intro table name h
    simp [Expression.placeholders, Expression.placeholder, h]
  · intro table name
    exact ⟨rfl, rfl⟩

theorem resolveNewAndOldReferences_placeholders_witness :
    resolveNewAndOldReferences
        (exampleCreateTrigger sqlparser.BeforeStr sqlparser.UpdateStr
          [.SetField (.UnresolvedColumn "NEW" "a")
            (.Other "Plus" [.deferredColumn "old" "b", .UnresolvedColumn "t" "c"])])
      = .ret (exampleCreateTrigger sqlparser.BeforeStr sqlparser.UpdateStr
          [.SetField (.triggerColumnRef "NEW" "a")
            (.Other "Plus" [.triggerColumnRef "old" "b", .UnresolvedColumn "t" "c"])])
    ∧ resolveNewAndOldReferences exampleInsert = .ret exampleInsert :=
  ⟨resolveNewAndOldReferences_placeholders.2.1 "tr" sqlparser.BeforeStr sqlparser.UpdateStr
      none (.Other "UnresolvedTable" [] [])
      (.Set [.SetField (.UnresolvedColumn "NEW" "a")
        (.Other "Plus" [.deferredColumn "old" "b", .UnresolvedColumn "t" "c"])]) "" rfl rfl
      (legal_of_update _ _) (by rfl) (Or.inl (by decide)),
   resolveNewAndOldReferences_placeholders.1 exampleInsert rfl⟩

end analyzer

namespace analyzer

open sql plan

/-! ## Claims on the ordering with several directives, and on termination -/

theorem copyAt_nil {α : Type} (arr : List α) :
    ∀ p : Nat, golang.copyAt arr p [] = arr := by
  induction arr with
  | nil => intro p; simp [golang.copyAt]
  | cons a as ih =>
    intro p
    cases p with
    | zero => simp [golang.copyAt]
    | succ p => simp [golang.copyAt, ih]

theorem appendToSubslice_nil {α : Type} (arr : List α) (cap i : Nat) (x : α) :
    appendToSubslice arr cap i x [] = (arr, [x]) := by
  unfold appendToSubslice
  split <;> simp [copyAt_nil]

/-- C24: on the declaration order [A FOLLOWS C, B FOLLOWS A, C] of three BEFORE triggers
with distinct names, `OrderTriggers` returns the before-list [B, A, B] and an empty
after-list, whatever the capacity of the argument slice: the trigger C is lost and the
trigger B occurs twice, so the result is not a permutation of the input. -/
theorem OrderTriggers_loses_trigger (cap : Nat) :
    OrderTriggers
        [exampleTrigger "A" (some ⟨sqlparser.FollowsStr, "C"⟩),
         exampleTrigger "B" (some ⟨sqlparser.FollowsStr, "A"⟩),
         exampleTrigger "C" none] cap
      = .ret ([exampleTrigger "B" (some ⟨sqlparser.FollowsStr, "A"⟩),
               exampleTrigger "A" (some ⟨sqlparser.FollowsStr, "C"⟩),
               exampleTrigger "B" (some ⟨sqlparser.FollowsStr, "A"⟩)], [])
    ∧ ¬ List.Perm
        ([exampleTrigger "B" (some ⟨sqlparser.FollowsStr, "A"⟩),
          exampleTrigger "A" (some ⟨sqlparser.FollowsStr, "C"⟩),
          exampleTrigger "B" (some ⟨sqlparser.FollowsStr, "A"⟩)] ++ [])
        [exampleTrigger "A" (some ⟨sqlparser.FollowsStr, "C"⟩),
         exampleTrigger "B" (some ⟨sqlparser.FollowsStr, "A"⟩),
         exampleTrigger "C" none] := by
  refine ⟨?_, ?_⟩
  · simp [OrderTriggers, OrderTriggers.loop, OrderTriggers.body, exampleTrigger, findRef,
      appendToSubslice_nil, OrderTriggers.split, sqlparser.PrecedesStr,
      sqlparser.FollowsStr, sqlparser.BeforeStr]
  · intro h
    have hn := (h.map (fun t => t.TriggerName)).mem_iff (a := "C")
    simp [exampleTrigger] at hn

/-- C25: on the declaration order [A FOLLOWS C, B FOLLOWS C, C], and on the cycle
[A FOLLOWS B, B FOLLOWS A], where the names are distinct and every directive names
another trigger of the list, `OrderTriggers` aborts with "Referenced trigger ... not
found", whatever the capacity of the argument slice. -/
theorem OrderTriggers_spurious_panic (cap : Nat) :
    OrderTriggers
        [exampleTrigger "A" (some ⟨sqlparser.FollowsStr, "C"⟩),
         exampleTrigger "B" (some ⟨sqlparser.FollowsStr, "C"⟩),
         exampleTrigger "C" none] cap
      = .panic "Referenced trigger C not found"
    ∧ OrderTriggers
        [exampleTrigger "A" (some ⟨sqlparser.FollowsStr, "B"⟩),
         exampleTrigger "B" (some ⟨sqlparser.FollowsStr, "A"⟩)] cap
      = .panic "Referenced trigger A not found" := by
  refine ⟨?_, ?_⟩
  · simp [OrderTriggers, OrderTriggers.loop, OrderTriggers.body, exampleTrigger, findRef,
      appendToSubslice_nil, OrderTriggers.split, sqlparser.PrecedesStr,
      sqlparser.FollowsStr, sqlparser.BeforeStr]
  · simp [OrderTriggers, OrderTriggers.loop, OrderTriggers.body, exampleTrigger, findRef,
      appendToSubslice_nil, OrderTriggers.split, sqlparser.PrecedesStr,
      sqlparser.FollowsStr, sqlparser.BeforeStr]

theorem loopCount_outcome (cap k : Nat) :
    ∀ (i : Nat) (st : OrderState),
      (OrderTriggers.loopCount cap k i st).2.2 = OrderTriggers.loop cap k i st := by
  induction k with
  | zero => intro i st; rfl
  | succ k ih =>
    intro i st
    rw [OrderTriggers.loopCount, OrderTriggers.loop]
    cases h : OrderTriggers.body cap i st with
    | ret st1 => simpa using ih (i + 1) st1
    | err e => rfl
    | panic msg => rfl

theorem loopCount_le (cap k : Nat) :
    ∀ (i : Nat) (st : OrderState),
      (OrderTriggers.loopCount cap k i st).1 ≤ k
      ∧ (OrderTriggers.loopCount cap k i st).2.1 ≤ (OrderTriggers.loopCount cap k i st).1 := by
  induction k with
  | zero => intro i st; simp [OrderTriggers.loopCount]
  | succ k ih =>
    intro i st
    rw [OrderTriggers.loopCount]
    cases h : OrderTriggers.body cap i st with
    | ret st1 =>
      obtain ⟨h1, h2⟩ := ih (i + 1) st1
      refine ⟨by simpa using h1, ?_⟩
      simp only
      split <;> omega
    | err e =>
      refine ⟨by simp, ?_⟩
      simp only
      split <;> omega
    | panic msg =>
      refine ⟨by simp, ?_⟩
      simp only
      split <;> omega

theorem body_ne_err (cap i : Nat) (st : OrderState) (e : Error) :
    OrderTriggers.body cap i st ≠ .err e := by
  unfold OrderTriggers.body
  cases h1 : st.triggers[i]? with
  | none => simp
  | some t =>
    cases h2 : t.TriggerOrder with
    | none => simp [h2]
    | some o =>
      cases h3 : findRef o.OtherTriggerName (st.orderedTriggers.eraseIdx i) with
      | none => simp [h2, h3]
      | some j =>
        simp only [h2, h3]
        split_ifs <;> simp

theorem loop_ne_err (cap k : Nat) :
    ∀ (i : Nat) (st : OrderState) (e : Error), OrderTriggers.loop cap k i st ≠ .err e := by
  induction k with
  | zero => intro i st e h; cases h
  | succ k ih =>
    intro i st e h
    rw [OrderTriggers.loop] at h
    cases hb : OrderTriggers.body cap i st with
    | ret st1 => rw [hb] at h; exact ih (i + 1) st1 e h
    | err e1 => exact body_ne_err cap i st e1 hb
    | panic msg => rw [hb] at h; cases h

/-- C26: on every trigger list and every capacity of the argument slice, `OrderTriggers`
ends: it returns an ordering or aborts with a panic.  The loop `Top` runs its body at
most once per input trigger, so it enters the remove-and-reinsert branch at most
`len(triggers)` times.  On the cycle [A FOLLOWS B, B FOLLOWS A] it aborts after two
iterations, and on [A FOLLOWS A] after one. -/
theorem OrderTriggers_terminates (triggers : List CreateTrigger) (cap : Nat) :
    ((∃ r, OrderTriggers triggers cap = .ret r) ∨ (∃ msg, OrderTriggers triggers cap = .panic msg))
    ∧ (OrderTriggers.loopCount cap triggers.length 0 ⟨triggers, triggers⟩).2.2
        = OrderTriggers.loop cap triggers.length 0 ⟨triggers, triggers⟩
    ∧ (OrderTriggers.loopCount cap triggers.length 0 ⟨triggers, triggers⟩).1 ≤ triggers.length
    ∧ (OrderTriggers.loopCount cap triggers.length 0 ⟨triggers, triggers⟩).2.1 ≤ triggers.length
    ∧ (OrderTriggers.loopCount cap 2 0
          ⟨[exampleTrigger "A" (some ⟨sqlparser.FollowsStr, "B"⟩),
            exampleTrigger "B" (some ⟨sqlparser.FollowsStr, "A"⟩)],
           [exampleTrigger "A" (some ⟨sqlparser.FollowsStr, "B"⟩),
            exampleTrigger "B" (some ⟨sqlparser.FollowsStr, "A"⟩)]⟩
        = (2, 2, .panic "Referenced trigger A not found"))
    ∧ (OrderTriggers.loopCount cap 1 0
          ⟨[exampleTrigger "A" (some ⟨sqlparser.FollowsStr, "A"⟩)],
           [exampleTrigger "A" (some ⟨sqlparser.FollowsStr, "A"⟩)]⟩
        = (1, 1, .panic "Referenced trigger A not found")) := by
  have hle := loopCount_le cap triggers.length 0 ⟨triggers, triggers⟩
  refine ⟨?_, loopCount_outcome cap _ 0 _, hle.1, le_trans hle.2 hle.1, ?_, ?_⟩
  · unfold OrderTriggers
    cases h : OrderTriggers.loop cap triggers.length 0 ⟨triggers, triggers⟩ with
    | ret st => exact Or.inl ⟨_, rfl⟩
    | err e => exact absurd h (loop_ne_err cap _ 0 _ e)
    | panic msg => exact Or.inr ⟨msg, rfl⟩
  · simp [OrderTriggers.loopCount, OrderTriggers.movesAt, OrderTriggers.body, exampleTrigger,
      findRef, appendToSubslice_nil, sqlparser.PrecedesStr, sqlparser.FollowsStr]
  · simp [OrderTriggers.loopCount, OrderTriggers.movesAt, OrderTriggers.body, exampleTrigger,
      findRef, appendToSubslice_nil, sqlparser.PrecedesStr, sqlparser.FollowsStr]

/-! ## Claim on a single directive -/

theorem mem_copyAt {α : Type} (arr : List α) :
    ∀ (p : Nat) (xs : List α) (u : α), u ∈ golang.copyAt arr p xs → u ∈ arr ∨ u ∈ xs := by
  induction arr with
  | nil => intro p xs u h; simp [golang.copyAt] at h
  | cons a as ih =>
    intro p xs u h
    cases p with
    | zero =>
      cases xs with
      | nil => simp [golang.copyAt] at h; exact Or.inl (by simpa using h)
      | cons x xs =>
        simp only [golang.copyAt, List.mem_cons] at h
        rcases h with h | h
        · exact Or.inr (by simp [h])
        · rcases ih 0 xs u h with h1 | h1
          · exact Or.inl (List.mem_cons_of_mem _ h1)
          · exact Or.inr (List.mem_cons_of_mem _ h1)
    | succ p =>
      simp only [golang.copyAt, List.mem_cons] at h
      rcases h with h | h
      · exact Or.inl (by simp [h])
      · rcases ih p xs u h with h1 | h1
        · exact Or.inl (List.mem_cons_of_mem _ h1)
        · exact Or.inr h1

theorem body_of_none (cap i : Nat) (st : OrderState) (h : st.triggers[i]? = none) :
    OrderTriggers.body cap i st = .ret st := by
  unfold OrderTriggers.body
  simp [h]

theorem loop_of_no_directive_from (cap k : Nat) :
    ∀ (i : Nat) (st : OrderState),
      (∀ j u, i ≤ j → st.triggers[j]? = some u → u.TriggerOrder = none) →
      OrderTriggers.loop cap k i st = .ret st := by
  induction k with
  | zero => intro i st _; rfl
  | succ k ih =>
    intro i st h
    have hb : OrderTriggers.body cap i st = .ret st := by
      cases hget : st.triggers[i]? with
      | none => exact body_of_none cap i st hget
      | some u => exact body_of_none_at cap i st u hget (h i u (le_refl i) hget)
    rw [OrderTriggers.loop, hb]
    exact ih (i + 1) st (fun j u hj => h j u (by omega))

theorem loop_skip_prefix (cap k : Nat) (st : OrderState) (m : Nat)
    (h : ∀ j u, j < m → st.triggers[j]? = some u → u.TriggerOrder = none) :
    ∀ (d i : Nat), i + d = m →
      OrderTriggers.loop cap (d + k) i st = OrderTriggers.loop cap k m st := by
  intro d
  induction d with
  | zero =>
    intro i hi
    have : i = m := by omega
    subst this
    simp
  | succ d ih =>
    intro i hi
    have hb : OrderTriggers.body cap i st = .ret st := by
      cases hget : st.triggers[i]? with
      | none => exact body_of_none cap i st hget
      | some u => exact body_of_none_at cap i st u hget (h i u (by omega) hget)
    have e : d + 1 + k = (d + k) + 1 := by omega
    rw [e, OrderTriggers.loop, hb]
    exact ih (i + 1) (by omega)

theorem findRef_middle (ref : String) (r : CreateTrigger) (post : List CreateTrigger)
    (hr : r.TriggerName = ref) :
    ∀ pre : List CreateTrigger, (∀ u ∈ pre, u.TriggerName ≠ ref) →
      findRef ref (pre ++ r :: post) = some pre.length := by
  intro pre
  induction pre with
  | nil => intro _; simp [findRef, hr]
  | cons u us ih =>
    intro h
    have h1 : ¬ u.TriggerName = ref := h u (List.mem_cons_self _ _)
    simp [findRef, h1, ih (fun v hv => h v (List.mem_cons_of_mem _ hv))]

theorem eraseIdx_middle {α : Type} (y : α) (ys : List α) :
    ∀ xs : List α, (xs ++ y :: ys).eraseIdx xs.length = xs ++ ys := by
  intro xs
  induction xs with
  | nil => rfl
  | cons x xs ih => simp [List.eraseIdx, ih]

theorem copyAt_after_middle {α : Type} (l1 l2 xs : List α) (t : α) :
    golang.copyAt (l1 ++ t :: l2) (l1.length + 1) xs = l1 ++ t :: golang.copyAt l2 0 xs := by
  have h := copyAt_append (l1 ++ [t]) l2 xs
  simpa using h

theorem body_single (cap : Nat) (l1 l2 pre post : List CreateTrigger) (t r : CreateTrigger)
    (o : TriggerOrder) (ht : t.TriggerOrder = some o)
    (hdir : o.PrecedesOrFollows = sqlparser.PrecedesStr
      ∨ o.PrecedesOrFollows = sqlparser.FollowsStr)
    (hr : l1 ++ l2 = pre ++ r :: post) (hname : r.TriggerName = o.OtherTriggerName)
    (hpre : ∀ u ∈ pre, u.TriggerName ≠ o.OtherTriggerName) :
    ∃ l3 : List CreateTrigger, (∀ u ∈ l3, u ∈ l1 ++ l2)
      ∧ OrderTriggers.body cap l1.length ⟨l1 ++ t :: l2, l1 ++ t :: l2⟩
        = .ret ⟨l1 ++ t :: l3,
            if o.PrecedesOrFollows = sqlparser.PrecedesStr then pre ++ t :: r :: post
            else pre ++ r :: t :: post⟩ := by
  have hget : (l1 ++ t :: l2)[l1.length]? = some t := getElem?_middle l1 l2 t _ rfl
  have hfind : findRef o.OtherTriggerName (pre ++ r :: post) = some pre.length :=
    findRef_middle _ r post hname pre hpre
  have hsub : ∀ (xs : List CreateTrigger), (∀ u ∈ xs, u ∈ l1 ++ l2) →
      ∃ l3 : List CreateTrigger, (∀ u ∈ l3, u ∈ l1 ++ l2)
        ∧ appendToSubslice (l1 ++ t :: l2) cap l1.length t xs = (l1 ++ t :: l3, t :: xs) := by
    intro xs hxs
    unfold appendToSubslice
    split
    · refine ⟨golang.copyAt l2 0 xs, ?_, by rw [copyAt_after_middle]⟩
      intro u hu
      rcases mem_copyAt l2 0 xs u hu with h | h
      · exact List.mem_append_right _ h
      · exact hxs u h
    · exact ⟨l2, fun u hu => List.mem_append_right _ hu, rfl⟩
  have hne : ¬ ((pre ++ r :: post).length : Int) = (pre.length : Int) - 1 := by
    simp only [List.length_append, List.length_cons]
    push_cast
    omega
  have hdrop1 : (pre ++ r :: post).drop pre.length = r :: post := by simp
  have htake1 : (pre ++ r :: post).take pre.length = pre := by simp
  have hdrop2 : (pre ++ r :: post).drop (pre.length + 1) = post := by
    rw [← List.drop_drop, hdrop1]
    rfl
  have htake2 : (pre ++ r :: post).take (pre.length + 1) = pre ++ [r] := by
    rw [List.take_append_eq_append_take]
    simp
  unfold OrderTriggers.body
  simp only [hget, ht, eraseIdx_middle, hr, hfind]
  by_cases hp : o.PrecedesOrFollows = sqlparser.PrecedesStr
  · obtain ⟨l3, hl3, happ⟩ := hsub (r :: post) (by
      intro u hu
      rw [hr]
      exact List.mem_append_right _ hu)
    refine ⟨l3, fun u hu => hr ▸ hl3 u hu, ?_⟩
    simp only [hp, if_true, hdrop1, htake1, happ]
  · have hf : o.PrecedesOrFollows = sqlparser.FollowsStr := by
      rcases hdir with h | h
      · exact absurd h hp
      · exact h
    obtain ⟨l3, hl3, happ⟩ := hsub post (by
      intro u hu
      rw [hr]
      exact List.mem_append_right _ (List.mem_cons_of_mem _ hu))
    have hfp : ¬ sqlparser.FollowsStr = sqlparser.PrecedesStr := by decide
    refine ⟨l3, fun u hu => hr ▸ hl3 u hu, ?_⟩
    simp only [hf, hfp, if_false, if_true, hne, hdrop2, htake2, happ]
    simp

theorem split_of_same_time (X : List CreateTrigger) (time : String)
    (h : ∀ u ∈ X, u.TriggerTime = time) :
    (OrderTriggers.split X).1 ++ (OrderTriggers.split X).2 = X := by
  rw [split_eq_filter]
  by_cases hb : time = sqlparser.BeforeStr
  · have h1 : X.filter (fun t => decide (t.TriggerTime = sqlparser.BeforeStr)) = X :=
      List.filter_eq_self.2 (fun u hu => by simp [h u hu, hb])
    have h2 : X.filter (fun t => !decide (t.TriggerTime = sqlparser.BeforeStr)) = [] :=
      List.filter_eq_nil_iff.2 (fun u hu => by simp [h u hu, hb])
    simp [h1, h2]
  · have h1 : X.filter (fun t => decide (t.TriggerTime = sqlparser.BeforeStr)) = [] :=
      List.filter_eq_nil_iff.2 (fun u hu => by simp [h u hu, hb])
    have h2 : X.filter (fun t => !decide (t.TriggerTime = sqlparser.BeforeStr)) = X :=
      List.filter_eq_self.2 (fun u hu => by simp [h u hu, hb])
    simp [h1, h2]

theorem OrderTriggers_of_single (cap : Nat) (l1 l2 pre post : List CreateTrigger)
    (t r : CreateTrigger) (o : TriggerOrder)
    (hothers : ∀ u ∈ l1 ++ l2, u.TriggerOrder = none)
    (ht : t.TriggerOrder = some o)
    (hdir : o.PrecedesOrFollows = sqlparser.PrecedesStr
      ∨ o.PrecedesOrFollows = sqlparser.FollowsStr)
    (hr : l1 ++ l2 = pre ++ r :: post) (hname : r.TriggerName = o.OtherTriggerName)
    (hpre : ∀ u ∈ pre, u.TriggerName ≠ o.OtherTriggerName) :
    OrderTriggers (l1 ++ t :: l2) cap
      = .ret (OrderTriggers.split
          (if o.PrecedesOrFollows = sqlparser.PrecedesStr then pre ++ t :: r :: post
            else pre ++ r :: t :: post)) := by
  obtain ⟨l3, hl3, hbody⟩ := body_single cap l1 l2 pre post t r o ht hdir hr hname hpre
  have hlen : (l1 ++ t :: l2).length = l1.length + (l2.length + 1) := by simp
  have hprefix : ∀ j u, j < l1.length → (l1 ++ t :: l2)[j]? = some u → u.TriggerOrder = none := by
    intro j u hj hu
    rw [List.getElem?_append_left hj] at hu
    exact hothers u (List.mem_append_left _ (List.getElem?_mem hu))
  have hrest : ∀ j u, l1.length + 1 ≤ j → (l1 ++ t :: l3)[j]? = some u →
      u.TriggerOrder = none := by
    intro j u hj hu
    have e : l1 ++ t :: l3 = (l1 ++ [t]) ++ l3 := by simp
    rw [e, List.getElem?_append_right (by simpa using hj)] at hu
    exact hothers u (hl3 u (List.getElem?_mem hu))
  unfold OrderTriggers
  rw [hlen, loop_skip_prefix cap (l2.length + 1) _ l1.length hprefix l1.length 0 (by omega),
    OrderTriggers.loop, hbody]
  simp only []
  rw [loop_of_no_directive_from cap l2.length (l1.length + 1) _ hrest]

/-- C23: in a trigger list with pairwise distinct names, written `l1 ++ t :: l2`, where
only `t` carries a directive, the directive is PRECEDES or FOLLOWS and names the trigger
`r` among the others (`l1 ++ l2 = pre ++ r :: post`), `OrderTriggers` returns, whatever
the capacity of the argument slice, the split of the order in which `t` stands
immediately before `r` (PRECEDES) or immediately after `r` (FOLLOWS) and the others are
in declaration order; when all triggers have one time, the before-list followed by the
after-list is that order. -/
theorem OrderTriggers_single_directive (cap : Nat) (l1 l2 pre post : List CreateTrigger)
    (t r : CreateTrigger) (o : TriggerOrder)
    (hnames : ((l1 ++ t :: l2).map (fun u => u.TriggerName)).Nodup)
    (hothers : ∀ u ∈ l1 ++ l2, u.TriggerOrder = none)
    (ht : t.TriggerOrder = some o)
    (hdir : o.PrecedesOrFollows = sqlparser.PrecedesStr
      ∨ o.PrecedesOrFollows = sqlparser.FollowsStr)
    (hr : l1 ++ l2 = pre ++ r :: post) (hname : r.TriggerName = o.OtherTriggerName) :
    OrderTriggers (l1 ++ t :: l2) cap
      = .ret (OrderTriggers.split
          (if o.PrecedesOrFollows = sqlparser.PrecedesStr then pre ++ t :: r :: post
            else pre ++ r :: t :: post))
    ∧ ((∀ u ∈ l1 ++ l2, u.TriggerTime = t.TriggerTime) →
        (OrderTriggers.split
            (if o.PrecedesOrFollows = sqlparser.PrecedesStr then pre ++ t :: r :: post
              else pre ++ r :: t :: post)).1
          ++ (OrderTriggers.split
            (if o.PrecedesOrFollows = sqlparser.PrecedesStr then pre ++ t :: r :: post
              else pre ++ r :: t :: post)).2
          = (if o.PrecedesOrFollows = sqlparser.PrecedesStr then pre ++ t :: r :: post
              else pre ++ r :: t :: post)) := by
  have hsub : (l1 ++ l2).Sublist (l1 ++ t :: l2) :=
    List.Sublist.append_left (List.sublist_cons_self t l2) l1
  have hnd : ((pre ++ r :: post).map (fun u => u.TriggerName)).Nodup := by
    rw [← hr]
    exact hnames.sublist (hsub.map _)
  have hpre : ∀ u ∈ pre, u.TriggerName ≠ o.OtherTriggerName := by
    intro u hu heq
    rw [List.map_append, List.map_cons, List.nodup_middle, List.nodup_cons] at hnd
    apply hnd.1
    rw [hname, ← heq]
    exact List.mem_append_left _ (List.mem_map_of_mem _ hu)
  refine ⟨OrderTriggers_of_single cap l1 l2 pre post t r o hothers ht hdir hr hname hpre, ?_⟩
  intro hsame
  apply split_of_same_time _ t.TriggerTime
  intro u hu
  have hmem : u = t ∨ u ∈ l1 ++ l2 := by
    rw [hr]
    split_ifs at hu <;> simp at hu ⊢ <;> tauto
  rcases hmem with h | h
  · rw [h]
  · exact hsame u h

theorem OrderTriggers_single_directive_witness :
    OrderTriggers
        [exampleTrigger "A" none, exampleTrigger "B" none,
         exampleTrigger "C" (some ⟨sqlparser.FollowsStr, "A"⟩)] 4
      = .ret ([exampleTrigger "A" none,
               exampleTrigger "C" (some ⟨sqlparser.FollowsStr, "A"⟩),
               exampleTrigger "B" none], [])
    ∧ OrderTriggers
        [exampleTrigger "A" none, exampleTrigger "B" (some ⟨sqlparser.PrecedesStr, "C"⟩),
         exampleTrigger "C" none, exampleTrigger "D" none] 4
      = .ret ([exampleTrigger "A" none,
               exampleTrigger "B" (some ⟨sqlparser.PrecedesStr, "C"⟩),
               exampleTrigger "C" none, exampleTrigger "D" none], []) :=
  ⟨(OrderTriggers_single_directive 4 [exampleTrigger "A" none, exampleTrigger "B" none] []
      [] [exampleTrigger "B" none] (exampleTrigger "C" (some ⟨sqlparser.FollowsStr, "A"⟩))
      (exampleTrigger "A" none) ⟨sqlparser.FollowsStr, "A"⟩
      (by simp [exampleTrigger]) (by simp [exampleTrigger]) rfl (Or.inr rfl) rfl rfl).1,
   (OrderTriggers_single_directive 4 [exampleTrigger "A" none]
      [exampleTrigger "C" none, exampleTrigger "D" none]
      [exampleTrigger "A" none] [exampleTrigger "D" none]
      (exampleTrigger "B" (some ⟨sqlparser.PrecedesStr, "C"⟩))
      (exampleTrigger "C" none) ⟨sqlparser.PrecedesStr, "C"⟩
      (by simp [exampleTrigger]) (by simp [exampleTrigger]) rfl (Or.inl rfl) rfl rfl).1⟩

end analyzer

namespace plan

open sql

/-! ## Claim on the release of the secondary cursors -/

/-- C27: on the LEFT join of the primary rows [(1), (2)] with the secondary source in
which key 1 yields (1, "a") and key 2 yields no row, calling `Next` until it returns
`io.EOF` and then `Close` obtains two secondary cursors from the provider and calls
`Close` on the primary cursor only: both secondary cursors were dropped at their
exhaustion without being closed.  The rows returned are (1, 1, "a") and (2, nil, nil). -/
theorem drainThenClose_leaks_secondary :
    (match indexedJoinRowIter []
        (errorFreeSource (fun _ => [[Value.Int 1], [Value.Int 2]]) 1)
        (errorFreeSource exampleSecondary 2) (errorFreeCond exampleCond)
        JoinType.JoinTypeLeft with
      | .ok i => (i.drain 10, i.drainThenClose 10)
      | .error _ => (none, none))
    = (some ([[Value.Int 1, Value.Int 1, Value.Str "a"], [Value.Int 2, Value.Nil, Value.Nil]],
          .err Error.EOF),
       some (.err Error.EOF, 2, [Cursor.primary])) := by
  rfl

end plan

namespace analyzer

open sql plan

/-! ## The first illegal assignment of a trigger definition -/

theorem yields_bind {α β : Type} {f1 f2 : Option Error} {x : Outcome Error α} {a : α}
    {k : α → Outcome Error β} {b : β} (hx : Yields f1 x a) (hk : Yields f2 (k a) b) :
    Yields (firstError f1 f2) (x.bind k) b := by
  unfold Yields at hx hk ⊢
  cases f1 with
  | none => simp only [firstError, hx, Outcome.bind, hk]
  | some e => simp only [firstError, hx, Outcome.bind]

theorem yields_ret {α : Type} (a : α) : Yields none (Outcome.ret a) a := rfl

theorem yields_congr {α : Type} {f1 f2 : Option Error} {x : Outcome Error α} {a : α}
    (h : Yields f1 x a) (e : f1 = f2) : Yields f2 x a := e ▸ h

theorem firstError_none (f : Option Error) : firstError f none = f := by
  cases f <;> rfl

theorem check_yields (time : String) (es0 : List Expression) (e : Expression) :
    Yields (Expression.illegalAt time Expression.isPlaceholderTo e)
      (resolveNewAndOldReferences.check time (.Set es0) e) e := by
  cases e with
  | SetField l r =>
    cases l with
    | triggerColumnRef t c =>
      by_cases ho : strings.ToLower t = "old"
      · simp [Yields, resolveNewAndOldReferences.check, Expression.illegalAt,
          Expression.isPlaceholderTo, ho]
      · by_cases hn : strings.ToLower t = "new"
        · by_cases ht : time = sqlparser.AfterStr <;>
            simp [Yields, resolveNewAndOldReferences.check, Expression.illegalAt,
              Expression.isPlaceholderTo, ho, hn, ht]
        · simp [Yields, resolveNewAndOldReferences.check, Expression.illegalAt,
            Expression.isPlaceholderTo, ho, hn]
    | UnresolvedColumn t c =>
      simp [Yields, resolveNewAndOldReferences.check, Expression.illegalAt,
        Expression.isPlaceholderTo]
    | deferredColumn t c =>
      simp [Yields, resolveNewAndOldReferences.check, Expression.illegalAt,
        Expression.isPlaceholderTo]
    | SetField l1 r1 =>
      simp [Yields, resolveNewAndOldReferences.check, Expression.illegalAt,
        Expression.isPlaceholderTo]
    | Other k cs =>
      simp [Yields, resolveNewAndOldReferences.check, Expression.illegalAt,
        Expression.isPlaceholderTo]
  | UnresolvedColumn t c =>
    simp [Yields, resolveNewAndOldReferences.check, Expression.illegalAt]
  | deferredColumn t c =>
    simp [Yields, resolveNewAndOldReferences.check, Expression.illegalAt]
  | triggerColumnRef t c =>
    simp [Yields, resolveNewAndOldReferences.check, Expression.illegalAt]
  | Other k cs =>
    simp [Yields, resolveNewAndOldReferences.check, Expression.illegalAt]

mutual
theorem transformExprUp_yields (time : String) (es0 : List Expression) :
    ∀ e : Expression,
      Yields (Expression.firstIllegal time Expression.isPlaceholderTo e)
        (TransformExprUp (resolveNewAndOldReferences.check time (.Set es0)) e) e
  | .UnresolvedColumn t c => by
    simpa [TransformExprUp, Expression.firstIllegal, Expression.illegalAt] using
      check_yields time es0 (.UnresolvedColumn t c)
  | .deferredColumn t c => by
    simpa [TransformExprUp, Expression.firstIllegal, Expression.illegalAt] using
      check_yields time es0 (.deferredColumn t c)
  | .triggerColumnRef t c => by
    simpa [TransformExprUp, Expression.firstIllegal, Expression.illegalAt] using
      check_yields time es0 (.triggerColumnRef t c)
  | .SetField l r => by
    have h := yields_bind (transformExprUp_yields time es0 l)
      (k := fun l1 => (TransformExprUp (resolveNewAndOldReferences.check time (.Set es0)) r).bind
        fun r1 => resolveNewAndOldReferences.check time (.Set es0) (.SetField l1 r1))
      (yields_bind (transformExprUp_yields time es0 r)
        (k := fun r1 => resolveNewAndOldReferences.check time (.Set es0) (.SetField l r1))
        (check_yields time es0 (.SetField l r)))
    rw [TransformExprUp, Expression.firstIllegal]
    exact h
  | .Other k cs => by
    have h := yields_bind (transformExprUpList_yields time es0 cs)
      (k := fun cs1 => resolveNewAndOldReferences.check time (.Set es0) (.Other k cs1))
      (check_yields time es0 (.Other k cs))
    rw [TransformExprUp, Expression.firstIllegal]
    exact yields_congr h (by simp [Expression.illegalAt, firstError_none])
theorem transformExprUpList_yields (time : String) (es0 : List Expression) :
    ∀ es : List Expression,
      Yields (Expression.firstIllegalList time Expression.isPlaceholderTo es)
        (TransformExprUpList (resolveNewAndOldReferences.check time (.Set es0)) es) es
  | [] => by
    rw [TransformExprUpList, Expression.firstIllegalList]
    exact yields_ret _
  | c :: cs => by
    have h := yields_bind (transformExprUp_yields time es0 c)
      (k := fun c1 =>
        (TransformExprUpList (resolveNewAndOldReferences.check time (.Set es0)) cs).bind
          fun cs1 => Outcome.ret (c1 :: cs1))
      (yields_bind (transformExprUpList_yields time es0 cs)
        (k := fun cs1 => Outcome.ret (c :: cs1)) (yields_ret (c :: cs)))
    rw [TransformExprUpList, Expression.firstIllegalList]
    exact yields_congr h (by simp [firstError_none])
end

theorem transformExpressionsWithNode_yields (time : String) (m : Node) :
    Yields
      (match m with
        | .Set es => Expression.firstIllegalList time Expression.isPlaceholderTo es
        | _ => none)
      (TransformExpressionsWithNode m (resolveNewAndOldReferences.check time)) m := by
  cases m with
  | Set es =>
    have h := yields_bind (transformExprUpList_yields time es es)
      (k := fun es1 => Outcome.ret (Node.Set es1)) (yields_ret (Node.Set es))
    rw [TransformExpressionsWithNode]
    exact yields_congr h (by simp [firstError_none])
  | Update child es =>
    rw [TransformExpressionsWithNode, transformExprUpList_id
      (resolveNewAndOldReferences.check time (Node.Update child es)) (fun _ => rfl) es]
    exact yields_ret _
  | Other k es cs =>
    rw [TransformExpressionsWithNode, transformExprUpList_id
      (resolveNewAndOldReferences.check time (Node.Other k es cs)) (fun _ => rfl) es]
    exact yields_ret _
  | Nil => exact yields_ret _
  | CreateTrigger a b c d table body e => exact yields_ret _
  | InsertInto l r => exact yields_ret _
  | DeleteFrom child => exact yields_ret _
  | TriggerExecutor l r ev tm d => exact yields_ret _
  | QueryProcess child => exact yields_ret _

mutual
theorem transformUp_yields (time : String) :
    ∀ n : Node, n.noNil = true →
      Yields (Node.firstIllegal time Expression.isPlaceholderTo n)
        (TransformUp (fun m => TransformExpressionsWithNode m (resolveNewAndOldReferences.check time)) n) n
  | .Nil, hn => by simp [Node.noNil] at hn
  | .CreateTrigger a b c d table body e, hn => by
    have hn1 : table.noNil = true ∧ body.noNil = true := by simpa [Node.noNil] using hn
    have h := yields_bind (transformUp_yields time table hn1.1)
      (k := fun x1 => (TransformUp (fun m => TransformExpressionsWithNode m (resolveNewAndOldReferences.check time)) body).bind
        fun y1 => TransformExpressionsWithNode (.CreateTrigger a b c d x1 y1 e) (resolveNewAndOldReferences.check time))
      (yields_bind (transformUp_yields time body hn1.2)
        (k := fun y1 => TransformExpressionsWithNode (.CreateTrigger a b c d table y1 e) (resolveNewAndOldReferences.check time))
        (transformExpressionsWithNode_yields time (.CreateTrigger a b c d table body e)))
    rw [TransformUp, Node.firstIllegal]
    exact yields_congr h (by simp [firstError_none])
  | .InsertInto l r, hn => by
    have hn1 : l.noNil = true ∧ r.noNil = true := by simpa [Node.noNil] using hn
    have h := yields_bind (transformUp_yields time l hn1.1)
      (k := fun x1 => (TransformUp (fun m => TransformExpressionsWithNode m (resolveNewAndOldReferences.check time)) r).bind
        fun y1 => TransformExpressionsWithNode (.InsertInto x1 y1) (resolveNewAndOldReferences.check time))
      (yields_bind (transformUp_yields time r hn1.2)
        (k := fun y1 => TransformExpressionsWithNode (.InsertInto l y1) (resolveNewAndOldReferences.check time))
        (transformExpressionsWithNode_yields time (.InsertInto l r)))
    rw [TransformUp, Node.firstIllegal]
    exact yields_congr h (by simp [firstError_none])
  | .Update child es, hn => by
    have hn1 : child.noNil = true := by simpa [Node.noNil] using hn
    have h := yields_bind (transformUp_yields time child hn1)
      (k := fun x1 => TransformExpressionsWithNode (.Update x1 es) (resolveNewAndOldReferences.check time))
      (transformExpressionsWithNode_yields time (.Update child es))
    rw [TransformUp, Node.firstIllegal]
    exact yields_congr h (by simp [firstError_none])
  | .DeleteFrom child, hn => by
    have hn1 : child.noNil = true := by simpa [Node.noNil] using hn
    have h := yields_bind (transformUp_yields time child hn1)
      (k := fun x1 => TransformExpressionsWithNode (.DeleteFrom x1) (resolveNewAndOldReferences.check time))
      (transformExpressionsWithNode_yields time (.DeleteFrom child))
    rw [TransformUp, Node.firstIllegal]
    exact yields_congr h (by simp [firstError_none])
  | .TriggerExecutor l r ev tm d, hn => by
    have hn1 : l.noNil = true ∧ r.noNil = true := by simpa [Node.noNil] using hn
    have h := yields_bind (transformUp_yields time l hn1.1)
      (k := fun x1 => (TransformUp (fun m => TransformExpressionsWithNode m (resolveNewAndOldReferences.check time)) r).bind
        fun y1 => TransformExpressionsWithNode (.TriggerExecutor x1 y1 ev tm d) (resolveNewAndOldReferences.check time))
      (yields_bind (transformUp_yields time r hn1.2)
        (k := fun y1 => TransformExpressionsWithNode (.TriggerExecutor l y1 ev tm d) (resolveNewAndOldReferences.check time))
        (transformExpressionsWithNode_yields time (.TriggerExecutor l r ev tm d)))
    rw [TransformUp, Node.firstIllegal]
    exact yields_congr h (by simp [firstError_none])
  | .Set es, _ => by
    have h := transformExpressionsWithNode_yields time (.Set es)
    rw [TransformUp, Node.firstIllegal]
    exact h
  | .QueryProcess child, hn => by
    have hn1 : child.noNil = true := by simpa [Node.noNil] using hn
    have h := yields_bind (transformUp_yields time child hn1)
      (k := fun x1 => TransformExpressionsWithNode (.QueryProcess x1) (resolveNewAndOldReferences.check time))
      (transformExpressionsWithNode_yields time (.QueryProcess child))
    rw [TransformUp, Node.firstIllegal]
    exact yields_congr h (by simp [firstError_none])
  | .Other k es cs, hn => by
    have hn1 : Node.noNilList cs = true := by simpa [Node.noNil] using hn
    have h := yields_bind (transformUpList_yields time cs hn1)
      (k := fun cs1 => TransformExpressionsWithNode (.Other k es cs1) (resolveNewAndOldReferences.check time))
      (transformExpressionsWithNode_yields time (.Other k es cs))
    rw [TransformUp, Node.firstIllegal]
    exact yields_congr h (by simp [firstError_none])
theorem transformUpList_yields (time : String) :
    ∀ ns : List Node, Node.noNilList ns = true →
      Yields (Node.firstIllegalList time Expression.isPlaceholderTo ns)
        (TransformUpList (fun m => TransformExpressionsWithNode m (resolveNewAndOldReferences.check time)) ns) ns
  | [], _ => by
    rw [TransformUpList, Node.firstIllegalList]
    exact yields_ret _
  | c :: cs, hn => by
    have hn1 : c.noNil = true ∧ Node.noNilList cs = true := by simpa [Node.noNilList] using hn
    have h := yields_bind (transformUp_yields time c hn1.1)
      (k := fun c1 => (TransformUpList (fun m => TransformExpressionsWithNode m (resolveNewAndOldReferences.check time)) cs).bind fun cs1 => Outcome.ret (c1 :: cs1))
      (yields_bind (transformUpList_yields time cs hn1.2)
        (k := fun cs1 => Outcome.ret (c :: cs1)) (yields_ret (c :: cs)))
    rw [TransformUpList, Node.firstIllegalList]
    exact yields_congr h (by simp [firstError_none])
end

mutual
theorem firstIllegal_placeholders (time : String) :
    ∀ e : Expression,
      Expression.firstIllegal time Expression.isPlaceholderTo (Expression.placeholders e)
        = Expression.firstIllegal time Expression.isPseudo e
  | .UnresolvedColumn t c => by
    simp only [Expression.placeholders, Expression.placeholder]
    split <;> simp [Expression.firstIllegal]
  | .deferredColumn t c => by
    simp only [Expression.placeholders, Expression.placeholder]
    split <;> simp [Expression.firstIllegal]
  | .triggerColumnRef t c => by simp [Expression.placeholders, Expression.firstIllegal]
  | .SetField l r => by
    simp only [Expression.placeholders, Expression.firstIllegal, Expression.illegalAt,
      firstIllegal_placeholders time l, firstIllegal_placeholders time r,
      isPlaceholderTo_placeholders "old" (Or.inr rfl) l,
      isPlaceholderTo_placeholders "new" (Or.inl rfl) l]
  | .Other k cs => by
    simp only [Expression.placeholders, Expression.firstIllegal,
      firstIllegalList_placeholders time cs]
theorem firstIllegalList_placeholders (time : String) :
    ∀ es : List Expression,
      Expression.firstIllegalList time Expression.isPlaceholderTo
          (Expression.placeholdersList es)
        = Expression.firstIllegalList time Expression.isPseudo es
  | [] => by simp [Expression.placeholdersList, Expression.firstIllegalList]
  | c :: cs => by
    simp only [Expression.placeholdersList, Expression.firstIllegalList,
      firstIllegal_placeholders time c, firstIllegalList_placeholders time cs]
end

mutual
theorem node_firstIllegal_placeholders (time : String) :
    ∀ n : Node,
      Node.firstIllegal time Expression.isPlaceholderTo (Node.placeholders n)
        = Node.firstIllegal time Expression.isPseudo n
  | .Nil => rfl
  | .CreateTrigger a b c d table body e => by
    simp only [Node.placeholders, Node.firstIllegal, node_firstIllegal_placeholders time table,
      node_firstIllegal_placeholders time body]
  | .InsertInto l r => by
    simp only [Node.placeholders, Node.firstIllegal, node_firstIllegal_placeholders time l,
      node_firstIllegal_placeholders time r]
  | .Update child es => by
    simp only [Node.placeholders, Node.firstIllegal, node_firstIllegal_placeholders time child]
  | .DeleteFrom child => by
    simp only [Node.placeholders, Node.firstIllegal, node_firstIllegal_placeholders time child]
  | .TriggerExecutor l r ev tm d => by
    simp only [Node.placeholders, Node.firstIllegal, node_firstIllegal_placeholders time l,
      node_firstIllegal_placeholders time r]
  | .Set es => by
    simp only [Node.placeholders, Node.firstIllegal, firstIllegalList_placeholders time es]
  | .QueryProcess child => by
    simp only [Node.placeholders, Node.firstIllegal, node_firstIllegal_placeholders time child]
  | .Other k es cs => by
    simp only [Node.placeholders, Node.firstIllegal,
      node_firstIllegalList_placeholders time cs]
theorem node_firstIllegalList_placeholders (time : String) :
    ∀ ns : List Node,
      Node.firstIllegalList time Expression.isPlaceholderTo (Node.placeholdersList ns)
        = Node.firstIllegalList time Expression.isPseudo ns
  | [] => rfl
  | c :: cs => by
    simp only [Node.placeholdersList, Node.firstIllegalList,
      node_firstIllegal_placeholders time c, node_firstIllegalList_placeholders time cs]
end

theorem resolveNewAndOldReferences_yields (name time event : String)
    (order : Option TriggerOrder) (table body : Node) (createString : String)
    (htable : table.noNil = true) (hbody : body.noNil = true)
    (hlegal : Legal event
      (Node.hasRef "new" (.CreateTrigger name time event order table body createString))
      (Node.hasRef "old" (.CreateTrigger name time event order table body createString))) :
    Yields
      (Node.firstIllegalAssignment time
        (.CreateTrigger name time event order table body createString))
      (resolveNewAndOldReferences
        (.CreateTrigger name time event order table body createString))
      (Node.placeholders (.CreateTrigger name time event order table body createString)) := by
  have hn : (Node.CreateTrigger name time event order table body createString).noNil = true := by
    simp [Node.noNil, htable, hbody]
  have h1 := transformUp_of_legal event _ hn hlegal
  have hn2 : (Node.placeholders
      (.CreateTrigger name time event order table body createString)).noNil = true := by
    rw [noNil_placeholders]; exact hn
  have h2 := transformUp_yields time _ hn2
  rw [node_firstIllegal_placeholders] at h2
  simp only [resolveNewAndOldReferences, TransformExpressionsUp,
    TransformExpressionsUpWithNode]
  rw [h1]
  exact h2

/-- C11, amended: for a CreateTrigger without nil nodes whose references pass the check of
NEW and OLD (every UPDATE trigger; a DELETE trigger without reference to NEW; an INSERT
trigger without reference to OLD), `resolveNewAndOldReferences` fails with the error of
the first illegal assignment that the bottom-up, left-to-right traversal meets in a Set
node (an assignment to OLD.col: ErrInvalidUpdateOfOldRow; an assignment to NEW.col in an
AFTER trigger: ErrInvalidUpdateInAfterTrigger), and returns the trigger with its
placeholders when there is none.  So: if a Set node assigns to OLD.col, and the trigger is
not AFTER or no Set node assigns to NEW.col, it fails with ErrInvalidUpdateOfOldRow; if
the trigger is AFTER and a Set node assigns to NEW.col and none to OLD.col, it fails with
ErrInvalidUpdateInAfterTrigger; if it is AFTER and both occur, it fails with the one of
the two errors that belongs to the assignment met first; and if no Set node assigns to
OLD.col, and the trigger is not AFTER or no Set node assigns to NEW.col, it is accepted
(so a BEFORE trigger may assign to NEW.col). -/
theorem resolveNewAndOldReferences_rejects_assignments (name time event : String)
    (order : Option TriggerOrder) (table body : Node) (createString : String)
    (htable : table.noNil = true) (hbody : body.noNil = true)
    (hlegal : Legal event
      (Node.hasRef "new" (.CreateTrigger name time event order table body createString))
      (Node.hasRef "old" (.CreateTrigger name time event order table body createString))) :
    (resolveNewAndOldReferences (.CreateTrigger name time event order table body createString)
      = match Node.firstIllegalAssignment time (.CreateTrigger name time event order table body createString) with
        | some e => .err e
        | none => .ret (Node.placeholders (.CreateTrigger name time event order table body createString)))
    ∧ (Node.assignsTo "old" (.CreateTrigger name time event order table body createString) = true →
      (time ≠ sqlparser.AfterStr ∨ Node.assignsTo "new" (.CreateTrigger name time event order table body createString) = false) →
      resolveNewAndOldReferences (.CreateTrigger name time event order table body createString) = .err .ErrInvalidUpdateOfOldRow)
    ∧ (time = sqlparser.AfterStr →
      Node.assignsTo "new" (.CreateTrigger name time event order table body createString) = true →
      Node.assignsTo "old" (.CreateTrigger name time event order table body createString) = false →
      resolveNewAndOldReferences (.CreateTrigger name time event order table body createString) = .err .ErrInvalidUpdateInAfterTrigger)
    ∧ (time = sqlparser.AfterStr →
      Node.assignsTo "new" (.CreateTrigger name time event order table body createString) = true →
      Node.assignsTo "old" (.CreateTrigger name time event order table body createString) = true →
      ∃ e, Node.firstIllegalAssignment time (.CreateTrigger name time event order table body createString) = some e
        ∧ (e = .ErrInvalidUpdateOfOldRow ∨ e = .ErrInvalidUpdateInAfterTrigger)
        ∧ resolveNewAndOldReferences (.CreateTrigger name time event order table body createString) = .err e)
    ∧ (Node.assignsTo "old" (.CreateTrigger name time event order table body createString) = false →
      (time ≠ sqlparser.AfterStr ∨ Node.assignsTo "new" (.CreateTrigger name time event order table body createString) = false) →
      resolveNewAndOldReferences (.CreateTrigger name time event order table body createString) = .ret (Node.placeholders (.CreateTrigger name time event order table body createString))) := by
  obtain ⟨h00, h10, h01, h11⟩ := resolveNewAndOldReferences_decides name time event order table
    body createString htable hbody hlegal
  have hy := resolveNewAndOldReferences_yields name time event order table body createString
    htable hbody hlegal
  refine ⟨hy, ?_, ?_, ?_, ?_⟩
  · intro ho hn
    refine h10 ho ?_
    rcases hn with hn | hn
    · simp [hn]
    · simp [hn]
  · intro ht hn ho
    exact h01 ho (by rw [hn]; simp [ht])
  · intro ht hn ho
    have hboth := h11 ho (by rw [hn]; simp [ht])
    unfold Yields at hy
    cases hf : Node.firstIllegalAssignment time (.CreateTrigger name time event order table body createString) with
    | none =>
      rw [hf] at hy
      rcases hboth with h | h <;> rw [hy] at h <;> cases h
    | some e =>
      rw [hf] at hy
      refine ⟨e, rfl, ?_, hy⟩
      rcases hboth with h | h
      · rw [hy] at h
        exact Or.inl (Outcome.err.inj h)
      · rw [hy] at h
        exact Or.inr (Outcome.err.inj h)
  · intro ho hn
    refine h00 ho ?_
    rcases hn with hn | hn
    · simp [hn]
    · simp [hn]

theorem resolveNewAndOldReferences_rejects_assignments_witness :
    resolveNewAndOldReferences
        (exampleCreateTrigger sqlparser.BeforeStr sqlparser.UpdateStr
          [.SetField (.UnresolvedColumn "OLD" "a") (.Other "Literal" [])])
      = .err .ErrInvalidUpdateOfOldRow
    ∧ resolveNewAndOldReferences
        (exampleCreateTrigger sqlparser.AfterStr sqlparser.UpdateStr
          [.SetField (.UnresolvedColumn "new" "a") (.Other "Literal" [])])
      = .err .ErrInvalidUpdateInAfterTrigger
    ∧ resolveNewAndOldReferences
        (exampleCreateTrigger sqlparser.BeforeStr sqlparser.UpdateStr
          [.SetField (.UnresolvedColumn "new" "a") (.Other "Literal" [])])
      = .ret (exampleCreateTrigger sqlparser.BeforeStr sqlparser.UpdateStr
          [.SetField (.triggerColumnRef "new" "a") (.Other "Literal" [])])
    ∧ resolveNewAndOldReferences
        (exampleCreateTrigger sqlparser.AfterStr sqlparser.UpdateStr
          [.SetField (.UnresolvedColumn "new" "a") (.Other "Literal" []),
           .SetField (.UnresolvedColumn "old" "b") (.Other "Literal" [])])
      = .err .ErrInvalidUpdateInAfterTrigger
    ∧ resolveNewAndOldReferences
        (exampleCreateTrigger sqlparser.AfterStr sqlparser.UpdateStr
          [.SetField (.UnresolvedColumn "old" "b") (.Other "Literal" []),
           .SetField (.UnresolvedColumn "new" "a") (.Other "Literal" [])])
      = .err .ErrInvalidUpdateOfOldRow :=
  ⟨(resolveNewAndOldReferences_rejects_assignments "tr" sqlparser.BeforeStr sqlparser.UpdateStr
      none (.Other "UnresolvedTable" [] [])
      (.Set [.SetField (.UnresolvedColumn "OLD" "a") (.Other "Literal" [])]) "" rfl rfl
      (legal_of_update _ _)).2.1 (by rfl) (Or.inl (by decide)),
   (resolveNewAndOldReferences_rejects_assignments "tr" sqlparser.AfterStr sqlparser.UpdateStr
      none (.Other "UnresolvedTable" [] [])
      (.Set [.SetField (.UnresolvedColumn "new" "a") (.Other "Literal" [])]) "" rfl rfl
      (legal_of_update _ _)).2.2.1 rfl (by rfl) (by rfl),
   (resolveNewAndOldReferences_rejects_assignments "tr" sqlparser.BeforeStr sqlparser.UpdateStr
      none (.Other "UnresolvedTable" [] [])
      (.Set [.SetField (.UnresolvedColumn "new" "a") (.Other "Literal" [])]) "" rfl rfl
      (legal_of_update _ _)).2.2.2.2 (by rfl) (Or.inl (by decide)),
   (resolveNewAndOldReferences_rejects_assignments "tr" sqlparser.AfterStr sqlparser.UpdateStr
      none (.Other "UnresolvedTable" [] [])
      (.Set [.SetField (.UnresolvedColumn "new" "a") (.Other "Literal" []),
        .SetField (.UnresolvedColumn "old" "b") (.Other "Literal" [])]) "" rfl rfl
      (legal_of_update _ _)).1.trans (by rfl),
   (resolveNewAndOldReferences_rejects_assignments "tr" sqlparser.AfterStr sqlparser.UpdateStr
      none (.Other "UnresolvedTable" [] [])
      (.Set [.SetField (.UnresolvedColumn "old" "b") (.Other "Literal" []),
        .SetField (.UnresolvedColumn "new" "a") (.Other "Literal" [])]) "" rfl rfl
      (legal_of_update _ _)).1.trans (by rfl)⟩

end analyzer
